import Mathlib

/-!
# RGB ↔ HSP pixel kernels

A shallow embedding of the two Blink kernels `RGBtoHSP.h` and `HSPtoRGB.h`
(both declare `kernel SaturationKernel`), followed by theorems about them.

Modelling conventions.

* The kernels compute in `float`/`double`.  The embedding is generic in an
  ordered field `α` and takes the square-root function as a parameter, so the
  definitions are executable; the theorems instantiate `α := ℝ` and
  `sqrt := Real.sqrt`, that is, exact real arithmetic.  The literals
  `0.299f, 0.587f, 0.114f` are read as the decimals `299/1000, 587/1000,
  114/1000`.
* Every division whose divisor is not a literal and every square root is
  *checked*: `fdiv` reports `Fault.divByZero` on a zero divisor and `fsqrt`
  reports `Fault.sqrtOfNegative` on a negative argument (the places where
  IEEE arithmetic would produce an infinity or a NaN).  A kernel run is
  therefore a value of `Except Fault _`.
* A kernel run either executes `dst() = float4(..)` or returns before doing
  so.  `process` returns `some px` when `px` is written to `dst` and `none`
  when the kernel returns without writing; `commit` threads the previous
  content of the output pixel through.
* A second embedding of both kernels, `processIEEE`, computes in IEEE 754
  arithmetic (binary32 for `float`, binary64 for `double`, with rounding,
  overflow, infinities and NaN).  It is used to evaluate the kernels at
  inputs where floating point and real arithmetic part, and, in the
  arithmetic that never rounds, where a division by zero must not stop the run.
* The twelve branch bodies of `HSPtoRGB`'s `process` are also given in closed
  form (`chromaticSector`, `alternateSector`, selected by `sectorIndex`); the
  theorem `process_eq_sectorBody` proves that `process` computes them.
-/

namespace Blink

/-- Arithmetic faults of a kernel run. -/
inductive Fault where
  | divByZero
  | sqrtOfNegative
  deriving DecidableEq, Repr

/-- Blink `float3`. -/
structure Float3 (α : Type) where
  x : α
  y : α
  z : α
  deriving DecidableEq, Repr

/-- Blink `float4`; a pixel is read and written as `(x, y, z, w)`. -/
structure Float4 (α : Type) where
  x : α
  y : α
  z : α
  w : α
  deriving DecidableEq, Repr

variable {α : Type} [LinearOrderedField α]

/-- Checked division `a / b`. -/
def fdiv (a b : α) : Except Fault α :=
  if b = 0 then throw Fault.divByZero else pure (a / b)

/-- Checked square root. -/
def fsqrt (sqrt : α → α) (a : α) : Except Fault α :=
  if a < 0 then throw Fault.sqrtOfNegative else pure (sqrt a)

/-- Effect of one kernel run on the output pixel: a run that does not reach
`dst() = ..` leaves the previous content `old` in place. -/
def commit (old : Float4 α) (r : Except Fault (Option (Float4 α))) :
    Except Fault (Float4 α) :=
  r.map fun o => o.getD old

end Blink

namespace RGBtoHSP

open Blink

variable {α : Type} [LinearOrderedField α]

/-- `SaturationKernel::init` of `RGBtoHSP.h`: the local `p`. -/
def SaturationKernel.init : Float3 α :=
  { x := 299 / 1000, y := 587 / 1000, z := 114 / 1000 }

/-- `SaturationKernel::process` of `RGBtoHSP.h`.  The result is the pixel
written to `dst`, or `none` when the kernel returns without writing. -/
def SaturationKernel.process (sqrt : α → α) (input : Float4 α) :
    Except Fault (Option (Float4 α)) :=
  let p : Float3 α := SaturationKernel.init
  let srcPixel : Float3 α := { x := input.x, y := input.y, z := input.z }
  if srcPixel.x = srcPixel.y ∧ srcPixel.x = srcPixel.z then
    -- hue = 0.0; sat = 0.0; return;
    pure none
  else do
    let (hue, sat) ←
      if srcPixel.x ≥ srcPixel.y ∧ srcPixel.x ≥ srcPixel.z then
        if srcPixel.z ≥ srcPixel.y then do
          let q ← fdiv (1 / 6 * (srcPixel.z - srcPixel.y)) (srcPixel.x - srcPixel.y)
          let r ← fdiv srcPixel.y srcPixel.x
          let hue := 6 / 6 - q
          let sat := 1 - r
          pure (hue, sat)
        else do
          let q ← fdiv (1 / 6 * (srcPixel.y - srcPixel.z)) (srcPixel.x - srcPixel.z)
          let r ← fdiv srcPixel.z srcPixel.x
          let hue := 0 / 6 + q
          let sat := 1 - r
          pure (hue, sat)
      else if srcPixel.y ≥ srcPixel.x ∧ srcPixel.y ≥ srcPixel.z then
        if srcPixel.x ≥ srcPixel.z then do
          let q ← fdiv (1 / 6 * (srcPixel.x - srcPixel.z)) (srcPixel.y - srcPixel.z)
          let r ← fdiv srcPixel.z srcPixel.y
          let hue := 2 / 6 - q
          let sat := 1 - r
          pure (hue, sat)
        else do
          let q ← fdiv (1 / 6 * (srcPixel.z - srcPixel.x)) (srcPixel.y - srcPixel.x)
          let r ← fdiv srcPixel.x srcPixel.y
          let hue := 2 / 6 + q
          let sat := 1 - r
          pure (hue, sat)
      else
        if srcPixel.y ≥ srcPixel.x then do
          let q ← fdiv (1 / 6 * (srcPixel.y - srcPixel.x)) (srcPixel.z - srcPixel.x)
          let r ← fdiv srcPixel.x srcPixel.z
          let hue := 4 / 6 - q
          let sat := 1 - r
          pure (hue, sat)
        else do
          let q ← fdiv (1 / 6 * (srcPixel.x - srcPixel.y)) (srcPixel.z - srcPixel.y)
          let r ← fdiv srcPixel.y srcPixel.z
          let hue := 4 / 6 + q
          let sat := 1 - r
          pure (hue, sat)
    let luma ← fsqrt sqrt
      (srcPixel.x * srcPixel.x * p.x + srcPixel.y * srcPixel.y * p.y
        + srcPixel.z * srcPixel.z * p.z)
    pure (some { x := hue, y := sat, z := luma, w := input.w })

end RGBtoHSP

namespace HSPtoRGB

open Blink

variable {α : Type} [LinearOrderedField α]

/-- The locals of `process` that are live after the sector branches: the
three reconstructed channels and `srcPixel`, whose `x` each branch
overwrites with the folded hue. -/
structure Locals (α : Type) where
  red : α
  green : α
  blue : α
  srcPixel : Float3 α

/-- `SaturationKernel::init` of `HSPtoRGB.h`: the local `p`. -/
def SaturationKernel.init : Float3 α :=
  { x := 299 / 1000, y := 587 / 1000, z := 114 / 1000 }

/-- `SaturationKernel::process` of `HSPtoRGB.h`.  The result is the pixel
written to `dst`. -/
def SaturationKernel.process (sqrt : α → α) (input : Float4 α) :
    Except Fault (Option (Float4 α)) := do
  let p : Float3 α := SaturationKernel.init
  let srcPixel : Float3 α := { x := input.x, y := input.y, z := input.z }
  let sat := srcPixel.y
  let minOverMax := 1 - sat
  let st : Locals α ←
    if minOverMax > 0 then
      if srcPixel.x < 1 / 6 then do
        -- R>G>B
        let x := 6 * (srcPixel.x - 0 / 6)
        let i ← fdiv 1 minOverMax
        let part := 1 + x * (i - 1)
        let a ← fdiv p.x minOverMax
        let b ← fdiv a minOverMax
        let s ← fsqrt sqrt (b + p.y * part * part + p.z)
        let blue ← fdiv srcPixel.z s
        let red ← fdiv blue minOverMax
        let green := blue + x * (red - blue)
        pure (Locals.mk red green blue { srcPixel with x := x })
      else if srcPixel.x < 2 / 6 then do
        -- G>R>B
        let x := 6 * (-srcPixel.x + 2 / 6)
        let i ← fdiv 1 minOverMax
        let part := 1 + x * (i - 1)
        let a ← fdiv p.y minOverMax
        let b ← fdiv a minOverMax
        let s ← fsqrt sqrt (b + p.x * part * part + p.z)
        let blue ← fdiv srcPixel.z s
        let green ← fdiv blue minOverMax
        let red := blue + x * (green - blue)
        pure (Locals.mk red green blue { srcPixel with x := x })
      else if srcPixel.x < 3 / 6 then do
        -- G>B>R
        let x := 6 * (srcPixel.x - 2 / 6)
        let i ← fdiv 1 minOverMax
        let part := 1 + x * (i - 1)
        let a ← fdiv p.y minOverMax
        let b ← fdiv a minOverMax
        let s ← fsqrt sqrt (b + p.z * part * part + p.x)
        let red ← fdiv srcPixel.z s
        let green ← fdiv red minOverMax
        let blue := red + x * (green - red)
        pure (Locals.mk red green blue { srcPixel with x := x })
      else if srcPixel.x < 4 / 6 then do
        -- B>G>R
        let x := 6 * (-srcPixel.x + 4 / 6)
        let i ← fdiv 1 minOverMax
        let part := 1 + x * (i - 1)
        let a ← fdiv p.z minOverMax
        let b ← fdiv a minOverMax
        let s ← fsqrt sqrt (b + p.y * part * part + p.x)
        let red ← fdiv srcPixel.z s
        let blue ← fdiv red minOverMax
        let green := red + x * (blue - red)
        pure (Locals.mk red green blue { srcPixel with x := x })
      else if srcPixel.x < 5 / 6 then do
        -- B>R>G
        let x := 6 * (srcPixel.x - 4 / 6)
        let i ← fdiv 1 minOverMax
        let part := 1 + x * (i - 1)
        let a ← fdiv p.z minOverMax
        let b ← fdiv a minOverMax
        let s ← fsqrt sqrt (b + p.x * part * part + p.y)
        let green ← fdiv srcPixel.z s
        let blue ← fdiv green minOverMax
        let red := green + x * (blue - green)
        pure (Locals.mk red green blue { srcPixel with x := x })
      else do
        -- R>B>G
        let x := 6 * (-srcPixel.x + 6 / 6)
        let i ← fdiv 1 minOverMax
        let part := 1 + x * (i - 1)
        let a ← fdiv p.x minOverMax
        let b ← fdiv a minOverMax
        let s ← fsqrt sqrt (b + p.z * part * part + p.y)
        let green ← fdiv srcPixel.z s
        let red ← fdiv green minOverMax
        let blue := green + x * (red - green)
        pure (Locals.mk red green blue { srcPixel with x := x })
    else
      if srcPixel.x < 1 / 6 then do
        -- R>G>B
        let x := 6 * (srcPixel.x - 0 / 6)
        let d ← fdiv (srcPixel.z * srcPixel.z) (p.x + p.y * x * x)
        let red ← fsqrt sqrt d
        let green := red * x
        let blue := 0
        pure (Locals.mk red green blue { srcPixel with x := x })
      else if srcPixel.x < 2 / 6 then do
        -- G>R>B
        let x := 6 * (-srcPixel.x + 2 / 6)
        let d ← fdiv (srcPixel.z * srcPixel.z) (p.y + p.x * x * x)
        let green ← fsqrt sqrt d
        let red := green * x
        let blue := 0
        pure (Locals.mk red green blue { srcPixel with x := x })
      else if srcPixel.x < 3 / 6 then do
        -- G>B>R
        let x := 6 * (srcPixel.x - 2 / 6)
        let d ← fdiv (srcPixel.z * srcPixel.z) (p.y + p.z * x * x)
        let green ← fsqrt sqrt d
        let blue := green * x
        let red := 0
        pure (Locals.mk red green blue { srcPixel with x := x })
      else if srcPixel.x < 4 / 6 then do
        -- B>G>R
        let x := 6 * (-srcPixel.x + 4 / 6)
        let d ← fdiv (srcPixel.z * srcPixel.z) (p.z + p.y * x * x)
        let blue ← fsqrt sqrt d
        let green := blue * x
        let red := 0
        pure (Locals.mk red green blue { srcPixel with x := x })
      else if srcPixel.x < 5 / 6 then do
        -- B>R>G
        let x := 6 * (srcPixel.x - 4 / 6)
        let d ← fdiv (srcPixel.z * srcPixel.z) (p.z + p.x * x * x)
        let blue ← fsqrt sqrt d
        let red := blue * x
        let green := 0
        pure (Locals.mk red green blue { srcPixel with x := x })
      else do
        -- R>B>G
        let x := 6 * (-srcPixel.x + 6 / 6)
        let d ← fdiv (srcPixel.z * srcPixel.z) (p.x + p.z * x * x)
        let red ← fsqrt sqrt d
        let blue := red * x
        let green := 0
        pure (Locals.mk red green blue { srcPixel with x := x })
  -- float luma = sqrt(..): computed from the overwritten srcPixel, never used
  let _luma ← fsqrt sqrt
    (st.srcPixel.x * st.srcPixel.x * p.x + st.srcPixel.y * st.srcPixel.y * p.y
      + st.srcPixel.z * st.srcPixel.z * p.z)
  pure (some { x := st.red, y := st.green, z := st.blue, w := input.w })

/-- Closed form of the channel in the minimum role of a chromatic sector
(`blue`, `red` or `green`, depending on the sector): weights by role, `m` is
`minOverMax`, `x` the folded hue and `p` the brightness `srcPixel.z`. -/
def chromaMin (sqrt : α → α) (wmax wmid wmin m x p : α) : α :=
  p / sqrt (wmax / m / m + wmid * (1 + x * (1 / m - 1)) * (1 + x * (1 / m - 1)) + wmin)

/-- Closed form of the channel in the maximum role of a chromatic sector. -/
def chromaMax (sqrt : α → α) (wmax wmid wmin m x p : α) : α :=
  chromaMin sqrt wmax wmid wmin m x p / m

/-- Closed form of the channel in the middle role of a chromatic sector. -/
def chromaMid (sqrt : α → α) (wmax wmid wmin m x p : α) : α :=
  chromaMin sqrt wmax wmid wmin m x p
    + x * (chromaMax sqrt wmax wmid wmin m x p - chromaMin sqrt wmax wmid wmin m x p)

/-- Closed form of the channel in the maximum role of an alternate-branch sector. -/
def altMax (sqrt : α → α) (wmax wmid x p : α) : α :=
  sqrt (p * p / (wmax + wmid * x * x))

/-- Closed form of the channel in the middle role of an alternate-branch sector. -/
def altMid (sqrt : α → α) (wmax wmid x p : α) : α :=
  altMax sqrt wmax wmid x p * x

/-- The six hue sectors, named as the comments of the source name them:
`RGB` stands for `R>G>B`, red in the maximum role, green in the middle role,
blue in the minimum role. -/
inductive Sector where
  | RGB
  | GRB
  | GBR
  | BGR
  | BRG
  | RBG
  deriving DecidableEq, Repr

/-- The sector selected by the cascade of tests on `srcPixel.x`. -/
def sectorIndex (h : α) : Sector :=
  if h < 1 / 6 then Sector.RGB
  else if h < 2 / 6 then Sector.GRB
  else if h < 3 / 6 then Sector.GBR
  else if h < 4 / 6 then Sector.BGR
  else if h < 5 / 6 then Sector.BRG
  else Sector.RBG

/-- The channel of a pixel that plays the minimum role in a sector. -/
def Sector.minRole (k : Sector) (px : Float4 α) : α :=
  match k with
  | Sector.RGB => px.z
  | Sector.GRB => px.z
  | Sector.GBR => px.x
  | Sector.BGR => px.x
  | Sector.BRG => px.y
  | Sector.RBG => px.y

/-- The pixel computed by the body of one sector branch of the chromatic half
(`minOverMax > 0`) of `process`, as a function of the whole input, without the
hue test that guards the branch. -/
def chromaticSector (sqrt : α → α) (k : Sector) (h s p w : α) : Float4 α :=
  match k with
  | Sector.RGB =>
    { x := chromaMax sqrt (299 / 1000) (587 / 1000) (114 / 1000) (1 - s) (6 * (h - 0 / 6)) p,
      y := chromaMid sqrt (299 / 1000) (587 / 1000) (114 / 1000) (1 - s) (6 * (h - 0 / 6)) p,
      z := chromaMin sqrt (299 / 1000) (587 / 1000) (114 / 1000) (1 - s) (6 * (h - 0 / 6)) p,
      w := w }
  | Sector.GRB =>
    { x := chromaMid sqrt (587 / 1000) (299 / 1000) (114 / 1000) (1 - s) (6 * (-h + 2 / 6)) p,
      y := chromaMax sqrt (587 / 1000) (299 / 1000) (114 / 1000) (1 - s) (6 * (-h + 2 / 6)) p,
      z := chromaMin sqrt (587 / 1000) (299 / 1000) (114 / 1000) (1 - s) (6 * (-h + 2 / 6)) p,
      w := w }
  | Sector.GBR =>
    { x := chromaMin sqrt (587 / 1000) (114 / 1000) (299 / 1000) (1 - s) (6 * (h - 2 / 6)) p,
      y := chromaMax sqrt (587 / 1000) (114 / 1000) (299 / 1000) (1 - s) (6 * (h - 2 / 6)) p,
      z := chromaMid sqrt (587 / 1000) (114 / 1000) (299 / 1000) (1 - s) (6 * (h - 2 / 6)) p,
      w := w }
  | Sector.BGR =>
    { x := chromaMin sqrt (114 / 1000) (587 / 1000) (299 / 1000) (1 - s) (6 * (-h + 4 / 6)) p,
      y := chromaMid sqrt (114 / 1000) (587 / 1000) (299 / 1000) (1 - s) (6 * (-h + 4 / 6)) p,
      z := chromaMax sqrt (114 / 1000) (587 / 1000) (299 / 1000) (1 - s) (6 * (-h + 4 / 6)) p,
      w := w }
  | Sector.BRG =>
    { x := chromaMid sqrt (114 / 1000) (299 / 1000) (587 / 1000) (1 - s) (6 * (h - 4 / 6)) p,
      y := chromaMin sqrt (114 / 1000) (299 / 1000) (587 / 1000) (1 - s) (6 * (h - 4 / 6)) p,
      z := chromaMax sqrt (114 / 1000) (299 / 1000) (587 / 1000) (1 - s) (6 * (h - 4 / 6)) p,
      w := w }
  | Sector.RBG =>
    { x := chromaMax sqrt (299 / 1000) (114 / 1000) (587 / 1000) (1 - s) (6 * (-h + 6 / 6)) p,
      y := chromaMin sqrt (299 / 1000) (114 / 1000) (587 / 1000) (1 - s) (6 * (-h + 6 / 6)) p,
      z := chromaMid sqrt (299 / 1000) (114 / 1000) (587 / 1000) (1 - s) (6 * (-h + 6 / 6)) p,
      w := w }

/-- The pixel computed by the body of one sector branch of the alternate half
(`minOverMax ≤ 0`) of `process`, without the hue test that guards the branch;
the saturation does not occur in these bodies. -/
def alternateSector (sqrt : α → α) (k : Sector) (h p w : α) : Float4 α :=
  match k with
  | Sector.RGB =>
    { x := altMax sqrt (299 / 1000) (587 / 1000) (6 * (h - 0 / 6)) p,
      y := altMid sqrt (299 / 1000) (587 / 1000) (6 * (h - 0 / 6)) p,
      z := 0,
      w := w }
  | Sector.GRB =>
    { x := altMid sqrt (587 / 1000) (299 / 1000) (6 * (-h + 2 / 6)) p,
      y := altMax sqrt (587 / 1000) (299 / 1000) (6 * (-h + 2 / 6)) p,
      z := 0,
      w := w }
  | Sector.GBR =>
    { x := 0,
      y := altMax sqrt (587 / 1000) (114 / 1000) (6 * (h - 2 / 6)) p,
      z := altMid sqrt (587 / 1000) (114 / 1000) (6 * (h - 2 / 6)) p,
      w := w }
  | Sector.BGR =>
    { x := 0,
      y := altMid sqrt (114 / 1000) (587 / 1000) (6 * (-h + 4 / 6)) p,
      z := altMax sqrt (114 / 1000) (587 / 1000) (6 * (-h + 4 / 6)) p,
      w := w }
  | Sector.BRG =>
    { x := altMid sqrt (114 / 1000) (299 / 1000) (6 * (h - 4 / 6)) p,
      y := 0,
      z := altMax sqrt (114 / 1000) (299 / 1000) (6 * (h - 4 / 6)) p,
      w := w }
  | Sector.RBG =>
    { x := altMax sqrt (299 / 1000) (114 / 1000) (6 * (-h + 6 / 6)) p,
      y := 0,
      z := altMid sqrt (299 / 1000) (114 / 1000) (6 * (-h + 6 / 6)) p,
      w := w }

/-- The pixel computed by the body of the branch of sector `k` in the half of
`process` that the test `minOverMax > 0` selects. -/
def sectorBody (sqrt : α → α) (k : Sector) (h s p w : α) : Float4 α :=
  if 1 - s > 0 then chromaticSector sqrt k h s p w else alternateSector sqrt k h p w

end HSPtoRGB

/-! ## The kernels in IEEE 754 arithmetic

A second embedding of the two kernels, in which a `float` is a binary32 value
and a `double` a binary64 value: every operation rounds its exact result to
nearest, ties to even, overflows to an infinity and follows the IEEE rules for
infinities and NaN.  An operation between two `float` operands is a binary32
operation, an operation with a `double` operand (a variable declared `double`
or a literal without suffix, such as `6.`) is a binary64 operation, and a store
into a `float` variable rounds to binary32.  The two zeros are not distinguished
and products are not fused with sums.  The arithmetic is a parameter
(`Context`): `binary` is IEEE arithmetic on rationals, `exact` never rounds and
never overflows. -/

namespace IEEE

/-- A floating-point datum: a finite value, an infinity with its sign, or NaN. -/
inductive FP (α : Type) where
  | fin (v : α)
  | inf (negative : Bool)
  | nan
  deriving DecidableEq, Repr

variable {α : Type} [LinearOrderedField α]

/-- Negation. -/
def FP.neg : FP α → FP α
  | FP.fin v => FP.fin (-v)
  | FP.inf s => FP.inf (!s)
  | FP.nan => FP.nan

/-- Addition, the exact sum of finite operands being rounded by `rnd`. -/
def FP.add (rnd : α → FP α) : FP α → FP α → FP α
  | FP.fin x, FP.fin y => rnd (x + y)
  | FP.fin _, FP.inf t => FP.inf t
  | FP.inf s, FP.fin _ => FP.inf s
  | FP.inf s, FP.inf t => if s = t then FP.inf s else FP.nan
  | FP.nan, _ => FP.nan
  | FP.fin _, FP.nan => FP.nan
  | FP.inf _, FP.nan => FP.nan

/-- Subtraction. -/
def FP.sub (rnd : α → FP α) (a b : FP α) : FP α :=
  FP.add rnd a (FP.neg b)

/-- Multiplication; `0 * inf` is NaN. -/
def FP.mul (rnd : α → FP α) : FP α → FP α → FP α
  | FP.fin x, FP.fin y => rnd (x * y)
  | FP.fin x, FP.inf t => if x = 0 then FP.nan else FP.inf (xor (decide (x < 0)) t)
  | FP.inf s, FP.fin y => if y = 0 then FP.nan else FP.inf (xor s (decide (y < 0)))
  | FP.inf s, FP.inf t => FP.inf (xor s t)
  | FP.nan, _ => FP.nan
  | FP.fin _, FP.nan => FP.nan
  | FP.inf _, FP.nan => FP.nan

/-- Division; a non-zero value over zero is an infinity, `0 / 0` and `inf / inf`
are NaN. -/
def FP.div (rnd : α → FP α) : FP α → FP α → FP α
  | FP.fin x, FP.fin y =>
    if y = 0 then (if x = 0 then FP.nan else FP.inf (decide (x < 0))) else rnd (x / y)
  | FP.fin _, FP.inf _ => FP.fin 0
  | FP.inf s, FP.fin y => FP.inf (xor s (decide (y < 0)))
  | FP.inf _, FP.inf _ => FP.nan
  | FP.nan, _ => FP.nan
  | FP.fin _, FP.nan => FP.nan
  | FP.inf _, FP.nan => FP.nan

/-- Square root, the root of a finite non-negative operand being given by `rsqrt`. -/
def FP.sqrt (rsqrt : α → FP α) : FP α → FP α
  | FP.fin x => if x < 0 then FP.nan else rsqrt x
  | FP.inf s => if s then FP.nan else FP.inf false
  | FP.nan => FP.nan

/-- Conversion to the format whose rounding is `rnd`. -/
def FP.cvt (rnd : α → FP α) : FP α → FP α
  | FP.fin x => rnd x
  | FP.inf s => FP.inf s
  | FP.nan => FP.nan

/-- Comparison `a < b`; false when an operand is NaN. -/
def FP.lt : FP α → FP α → Bool
  | FP.fin x, FP.fin y => decide (x < y)
  | FP.fin _, FP.inf t => !t
  | FP.inf s, FP.fin _ => s
  | FP.inf s, FP.inf t => s && !t
  | FP.nan, _ => false
  | FP.fin _, FP.nan => false
  | FP.inf _, FP.nan => false

/-- Comparison `a >= b`; false when an operand is NaN. -/
def FP.ge : FP α → FP α → Bool
  | FP.fin x, FP.fin y => decide (y ≤ x)
  | FP.fin _, FP.inf t => t
  | FP.inf s, FP.fin _ => !s
  | FP.inf s, FP.inf t => !s || t
  | FP.nan, _ => false
  | FP.fin _, FP.nan => false
  | FP.inf _, FP.nan => false

/-- Comparison `a > b`. -/
def FP.gt (a b : FP α) : Bool :=
  FP.lt b a

/-- Comparison `a == b`; false when an operand is NaN. -/
def FP.eq : FP α → FP α → Bool
  | FP.fin x, FP.fin y => decide (x = y)
  | FP.inf s, FP.inf t => s == t
  | FP.fin _, FP.inf _ => false
  | FP.inf _, FP.fin _ => false
  | FP.nan, _ => false
  | FP.fin _, FP.nan => false
  | FP.inf _, FP.nan => false

/-- Whether the datum is a finite number. -/
def FP.isFinite : FP α → Bool
  | FP.fin _ => true
  | FP.inf _ => false
  | FP.nan => false

/-- An arithmetic: how an exact result is rounded to `float` and to `double`,
and the rounded square root of a non-negative number in the two formats. -/
structure Context (α : Type) where
  round32 : α → FP α
  round64 : α → FP α
  rsqrt32 : α → FP α
  rsqrt64 : α → FP α

/-- Binary32 addition. -/
def Context.add32 (c : Context α) (a b : FP α) : FP α := FP.add c.round32 a b

/-- Binary32 subtraction. -/
def Context.sub32 (c : Context α) (a b : FP α) : FP α := FP.sub c.round32 a b

/-- Binary32 multiplication. -/
def Context.mul32 (c : Context α) (a b : FP α) : FP α := FP.mul c.round32 a b

/-- Binary32 division. -/
def Context.div32 (c : Context α) (a b : FP α) : FP α := FP.div c.round32 a b

/-- Binary32 square root. -/
def Context.sqrt32 (c : Context α) (a : FP α) : FP α := FP.sqrt c.rsqrt32 a

/-- Store into a `float` variable. -/
def Context.cvt32 (c : Context α) (a : FP α) : FP α := FP.cvt c.round32 a

/-- Binary64 addition. -/
def Context.add64 (c : Context α) (a b : FP α) : FP α := FP.add c.round64 a b

/-- Binary64 subtraction. -/
def Context.sub64 (c : Context α) (a b : FP α) : FP α := FP.sub c.round64 a b

/-- Binary64 multiplication. -/
def Context.mul64 (c : Context α) (a b : FP α) : FP α := FP.mul c.round64 a b

/-- Binary64 division. -/
def Context.div64 (c : Context α) (a b : FP α) : FP α := FP.div c.round64 a b

/-- Binary64 square root. -/
def Context.sqrt64 (c : Context α) (a : FP α) : FP α := FP.sqrt c.rsqrt64 a

/-- The arithmetic that never rounds and never overflows; `sqrt` is the square
root of the field. -/
def exact (sqrt : α → α) : Context α :=
  { round32 := FP.fin, round64 := FP.fin,
    rsqrt32 := fun v => FP.fin (sqrt v), rsqrt64 := fun v => FP.fin (sqrt v) }

/-- Number of binary digits of `n`, by halving (`fuel` bounds the recursion). -/
def bitLen : Nat → Nat → Nat
  | 0, _ => 0
  | fuel + 1, n => if n = 0 then 0 else bitLen fuel (n / 2) + 1

/-- Position of the leading binary digit of `n`. -/
def log2 (n : Nat) : Nat :=
  bitLen n n - 1

/-- The power `2 ^ e` as a rational. -/
def pow2 (e : Int) : ℚ :=
  if 0 ≤ e then ((2 ^ e.toNat : Nat) : ℚ) else 1 / ((2 ^ (-e).toNat : Nat) : ℚ)

/-- The integer `e` with `2 ^ e ≤ a < 2 ^ (e + 1)`, for `a > 0`. -/
def ilog2 (a : ℚ) : Int :=
  let e0 : Int := (log2 a.num.natAbs : Int) - (log2 a.den : Int)
  if pow2 e0 ≤ a then e0 else e0 - 1

/-- The integer nearest to `x`, for `x ≥ 0`, the even one of two nearest. -/
def roundHalfEven (x : ℚ) : Int :=
  let f : Int := x.num / (x.den : Int)
  let d : ℚ := x - f
  if d < 1 / 2 then f else if 1 / 2 < d then f + 1 else if f % 2 = 0 then f else f + 1

/-- Rounding of a rational to the binary format with `prec` significant digits
and largest exponent `emax` (binary32: `24`, `127`; binary64: `53`, `1023`):
to nearest, ties to even, with subnormal numbers, overflowing to an infinity. -/
def roundRat (prec : Nat) (emax : Int) (q : ℚ) : FP ℚ :=
  if q = 0 then FP.fin 0
  else
    let a := |q|
    let e := max (ilog2 a) (1 - emax)
    let ulp := pow2 (e - ((prec : Int) - 1))
    let r := (roundHalfEven (a / ulp) : ℚ) * ulp
    if pow2 (emax + 1) ≤ r then FP.inf (decide (q < 0))
    else FP.fin (if q < 0 then -r else r)

/-- Integer square root by binary digits: the largest `r + t` with
`t < 2 ^ b` and `(r + t) ^ 2 ≤ n`. -/
def isqrtAux : Nat → Nat → Nat → Nat
  | 0, _, r => r
  | b + 1, n, r =>
    if (r + 2 ^ b) * (r + 2 ^ b) ≤ n then isqrtAux b n (r + 2 ^ b) else isqrtAux b n r

/-- Integer square root. -/
def isqrt (n : Nat) : Nat :=
  isqrtAux (log2 n / 2 + 1) n 0

/-- Correctly rounded square root of a rational `q ≥ 0`: the root is located
between two consecutive integers on a scale finer than the format, and a
point of that interval (the integer itself when the root is exact) is rounded. -/
def sqrtRat (prec : Nat) (emax : Int) (q : ℚ) : FP ℚ :=
  if q = 0 then FP.fin 0
  else
    let k : Nat := prec + 2 + (-(ilog2 q)).toNat
    let scaled : ℚ := q * ((4 ^ k : Nat) : ℚ)
    let n : Nat := (scaled.num / (scaled.den : Int)).toNat
    let s : Nat := isqrt n
    let t : ℚ :=
      ((s : ℚ) + (if ((s * s : Nat) : ℚ) = scaled then 0 else 1 / 2)) / ((2 ^ k : Nat) : ℚ)
    roundRat prec emax t

/-- IEEE 754 arithmetic on rationals: binary32 for `float`, binary64 for `double`. -/
def binary : Context ℚ :=
  { round32 := roundRat 24 127, round64 := roundRat 53 1023,
    rsqrt32 := sqrtRat 24 127, rsqrt64 := sqrtRat 53 1023 }

/-- The `float` nearest to the rational `q`. -/
def f32 (q : ℚ) : FP ℚ :=
  roundRat 24 127 q

end IEEE

namespace RGBtoHSP

open Blink IEEE

variable {α : Type} [LinearOrderedField α]

/-- `SaturationKernel::init` of `RGBtoHSP.h` in the arithmetic `c`: the
literals `0.299f`, `0.587f`, `0.114f` rounded to `float`. -/
def SaturationKernel.initIEEE (c : Context α) : Float3 (FP α) :=
  { x := c.round32 (299 / 1000), y := c.round32 (587 / 1000), z := c.round32 (114 / 1000) }

/-- `SaturationKernel::process` of `RGBtoHSP.h` in the arithmetic `c`.  All
variables are `float`; the literals `6.0`, `1.0`, … are `double`, so the hue
and the saturation are computed in binary64 from binary32 differences and
quotients and then stored as `float`.  The result is the pixel written to
`dst`, or `none` when the kernel returns without writing. -/
def SaturationKernel.processIEEE (c : Context α) (input : Float4 (FP α)) :
    Option (Float4 (FP α)) :=
  let p : Float3 (FP α) := SaturationKernel.initIEEE c
  let srcPixel : Float3 (FP α) := { x := input.x, y := input.y, z := input.z }
  let sixth := c.div64 (FP.fin 1) (FP.fin 6)
  if FP.eq srcPixel.x srcPixel.y && FP.eq srcPixel.x srcPixel.z then
    -- hue = 0.0; sat = 0.0; return;
    none
  else
    let hs : FP α × FP α :=
      if FP.ge srcPixel.x srcPixel.y && FP.ge srcPixel.x srcPixel.z then
        if FP.ge srcPixel.z srcPixel.y then
          (c.cvt32 (c.sub64 (c.div64 (FP.fin 6) (FP.fin 6))
              (c.div64 (c.mul64 sixth (c.sub32 srcPixel.z srcPixel.y))
                (c.sub32 srcPixel.x srcPixel.y))),
            c.cvt32 (c.sub64 (FP.fin 1) (c.div32 srcPixel.y srcPixel.x)))
        else
          (c.cvt32 (c.add64 (c.div64 (FP.fin 0) (FP.fin 6))
              (c.div64 (c.mul64 sixth (c.sub32 srcPixel.y srcPixel.z))
                (c.sub32 srcPixel.x srcPixel.z))),
            c.cvt32 (c.sub64 (FP.fin 1) (c.div32 srcPixel.z srcPixel.x)))
      else if FP.ge srcPixel.y srcPixel.x && FP.ge srcPixel.y srcPixel.z then
        if FP.ge srcPixel.x srcPixel.z then
          (c.cvt32 (c.sub64 (c.div64 (FP.fin 2) (FP.fin 6))
              (c.div64 (c.mul64 sixth (c.sub32 srcPixel.x srcPixel.z))
                (c.sub32 srcPixel.y srcPixel.z))),
            c.cvt32 (c.sub64 (FP.fin 1) (c.div32 srcPixel.z srcPixel.y)))
        else
          (c.cvt32 (c.add64 (c.div64 (FP.fin 2) (FP.fin 6))
              (c.div64 (c.mul64 sixth (c.sub32 srcPixel.z srcPixel.x))
                (c.sub32 srcPixel.y srcPixel.x))),
            c.cvt32 (c.sub64 (FP.fin 1) (c.div32 srcPixel.x srcPixel.y)))
      else
        if FP.ge srcPixel.y srcPixel.x then
          (c.cvt32 (c.sub64 (c.div64 (FP.fin 4) (FP.fin 6))
              (c.div64 (c.mul64 sixth (c.sub32 srcPixel.y srcPixel.x))
                (c.sub32 srcPixel.z srcPixel.x))),
            c.cvt32 (c.sub64 (FP.fin 1) (c.div32 srcPixel.x srcPixel.z)))
        else
          (c.cvt32 (c.add64 (c.div64 (FP.fin 4) (FP.fin 6))
              (c.div64 (c.mul64 sixth (c.sub32 srcPixel.x srcPixel.y))
                (c.sub32 srcPixel.z srcPixel.y))),
            c.cvt32 (c.sub64 (FP.fin 1) (c.div32 srcPixel.y srcPixel.z)))
    let luma := c.sqrt32
      (c.add32
        (c.add32 (c.mul32 (c.mul32 srcPixel.x srcPixel.x) p.x)
          (c.mul32 (c.mul32 srcPixel.y srcPixel.y) p.y))
        (c.mul32 (c.mul32 srcPixel.z srcPixel.z) p.z))
    some { x := hs.1, y := hs.2, z := luma, w := input.w }

end RGBtoHSP

namespace HSPtoRGB

open Blink IEEE

variable {α : Type} [LinearOrderedField α]

/-- The locals of the IEEE embedding of `process` that are live after the
sector branches. -/
structure LocalsIEEE (α : Type) where
  red : FP α
  green : FP α
  blue : FP α
  srcPixel : Float3 (FP α)

/-- `SaturationKernel::init` of `HSPtoRGB.h` in the arithmetic `c`. -/
def SaturationKernel.initIEEE (c : Context α) : Float3 (FP α) :=
  { x := c.round32 (299 / 1000), y := c.round32 (587 / 1000), z := c.round32 (114 / 1000) }

/-- `SaturationKernel::process` of `HSPtoRGB.h` in the arithmetic `c`.  `sat`,
`minOverMax` and `part` are `double`, `srcPixel`, `p`, `red`, `green`, `blue`
are `float`, the literals `1.`, `6.`, … are `double`.  The result is the
pixel written to `dst`. -/
def SaturationKernel.processIEEE (c : Context α) (input : Float4 (FP α)) :
    Option (Float4 (FP α)) :=
  let p : Float3 (FP α) := SaturationKernel.initIEEE c
  let srcPixel : Float3 (FP α) := { x := input.x, y := input.y, z := input.z }
  let sat := srcPixel.y
  let minOverMax := c.sub64 (FP.fin 1) sat
  let st : LocalsIEEE α :=
    if FP.gt minOverMax (FP.fin 0) then
      if FP.lt srcPixel.x (c.div64 (FP.fin 1) (FP.fin 6)) then
        -- R>G>B
        let x := c.cvt32 (c.mul64 (FP.fin 6) (c.sub64 srcPixel.x (c.div64 (FP.fin 0) (FP.fin 6))))
        let part := c.add64 (FP.fin 1)
          (c.mul64 x (c.sub64 (c.div64 (FP.fin 1) minOverMax) (FP.fin 1)))
        let blue := c.cvt32 (c.div64 srcPixel.z (c.sqrt64
          (c.add64 (c.add64 (c.div64 (c.div64 p.x minOverMax) minOverMax)
            (c.mul64 (c.mul64 p.y part) part)) p.z)))
        let red := c.cvt32 (c.div64 blue minOverMax)
        let green := c.add32 blue (c.mul32 x (c.sub32 red blue))
        LocalsIEEE.mk red green blue { srcPixel with x := x }
      else if FP.lt srcPixel.x (c.div64 (FP.fin 2) (FP.fin 6)) then
        -- G>R>B
        let x := c.cvt32 (c.mul64 (FP.fin 6) (c.add64 (FP.neg srcPixel.x) (c.div64 (FP.fin 2) (FP.fin 6))))
        let part := c.add64 (FP.fin 1)
          (c.mul64 x (c.sub64 (c.div64 (FP.fin 1) minOverMax) (FP.fin 1)))
        let blue := c.cvt32 (c.div64 srcPixel.z (c.sqrt64
          (c.add64 (c.add64 (c.div64 (c.div64 p.y minOverMax) minOverMax)
            (c.mul64 (c.mul64 p.x part) part)) p.z)))
        let green := c.cvt32 (c.div64 blue minOverMax)
        let red := c.add32 blue (c.mul32 x (c.sub32 green blue))
        LocalsIEEE.mk red green blue { srcPixel with x := x }
      else if FP.lt srcPixel.x (c.div64 (FP.fin 3) (FP.fin 6)) then
        -- G>B>R
        let x := c.cvt32 (c.mul64 (FP.fin 6) (c.sub64 srcPixel.x (c.div64 (FP.fin 2) (FP.fin 6))))
        let part := c.add64 (FP.fin 1)
          (c.mul64 x (c.sub64 (c.div64 (FP.fin 1) minOverMax) (FP.fin 1)))
        let red := c.cvt32 (c.div64 srcPixel.z (c.sqrt64
          (c.add64 (c.add64 (c.div64 (c.div64 p.y minOverMax) minOverMax)
            (c.mul64 (c.mul64 p.z part) part)) p.x)))
        let green := c.cvt32 (c.div64 red minOverMax)
        let blue := c.add32 red (c.mul32 x (c.sub32 green red))
        LocalsIEEE.mk red green blue { srcPixel with x := x }
      else if FP.lt srcPixel.x (c.div64 (FP.fin 4) (FP.fin 6)) then
        -- B>G>R
        let x := c.cvt32 (c.mul64 (FP.fin 6) (c.add64 (FP.neg srcPixel.x) (c.div64 (FP.fin 4) (FP.fin 6))))
        let part := c.add64 (FP.fin 1)
          (c.mul64 x (c.sub64 (c.div64 (FP.fin 1) minOverMax) (FP.fin 1)))
        let red := c.cvt32 (c.div64 srcPixel.z (c.sqrt64
          (c.add64 (c.add64 (c.div64 (c.div64 p.z minOverMax) minOverMax)
            (c.mul64 (c.mul64 p.y part) part)) p.x)))
        let blue := c.cvt32 (c.div64 red minOverMax)
        let green := c.add32 red (c.mul32 x (c.sub32 blue red))
        LocalsIEEE.mk red green blue { srcPixel with x := x }
      else if FP.lt srcPixel.x (c.div64 (FP.fin 5) (FP.fin 6)) then
        -- B>R>G
        let x := c.cvt32 (c.mul64 (FP.fin 6) (c.sub64 srcPixel.x (c.div64 (FP.fin 4) (FP.fin 6))))
        let part := c.add64 (FP.fin 1)
          (c.mul64 x (c.sub64 (c.div64 (FP.fin 1) minOverMax) (FP.fin 1)))
        let green := c.cvt32 (c.div64 srcPixel.z (c.sqrt64
          (c.add64 (c.add64 (c.div64 (c.div64 p.z minOverMax) minOverMax)
            (c.mul64 (c.mul64 p.x part) part)) p.y)))
        let blue := c.cvt32 (c.div64 green minOverMax)
        let red := c.add32 green (c.mul32 x (c.sub32 blue green))
        LocalsIEEE.mk red green blue { srcPixel with x := x }
      else
        -- R>B>G
        let x := c.cvt32 (c.mul64 (FP.fin 6) (c.add64 (FP.neg srcPixel.x) (c.div64 (FP.fin 6) (FP.fin 6))))
        let part := c.add64 (FP.fin 1)
          (c.mul64 x (c.sub64 (c.div64 (FP.fin 1) minOverMax) (FP.fin 1)))
        let green := c.cvt32 (c.div64 srcPixel.z (c.sqrt64
          (c.add64 (c.add64 (c.div64 (c.div64 p.x minOverMax) minOverMax)
            (c.mul64 (c.mul64 p.z part) part)) p.y)))
        let red := c.cvt32 (c.div64 green minOverMax)
        let blue := c.add32 green (c.mul32 x (c.sub32 red green))
        LocalsIEEE.mk red green blue { srcPixel with x := x }
    else
      if FP.lt srcPixel.x (c.div64 (FP.fin 1) (FP.fin 6)) then
        -- R>G>B
        let x := c.cvt32 (c.mul64 (FP.fin 6) (c.sub64 srcPixel.x (c.div64 (FP.fin 0) (FP.fin 6))))
        let red := c.sqrt32 (c.div32 (c.mul32 srcPixel.z srcPixel.z)
          (c.add32 p.x (c.mul32 (c.mul32 p.y x) x)))
        let green := c.mul32 red x
        let blue := FP.fin 0
        LocalsIEEE.mk red green blue { srcPixel with x := x }
      else if FP.lt srcPixel.x (c.div64 (FP.fin 2) (FP.fin 6)) then
        -- G>R>B
        let x := c.cvt32 (c.mul64 (FP.fin 6) (c.add64 (FP.neg srcPixel.x) (c.div64 (FP.fin 2) (FP.fin 6))))
        let green := c.sqrt32 (c.div32 (c.mul32 srcPixel.z srcPixel.z)
          (c.add32 p.y (c.mul32 (c.mul32 p.x x) x)))
        let red := c.mul32 green x
        let blue := FP.fin 0
        LocalsIEEE.mk red green blue { srcPixel with x := x }
      else if FP.lt srcPixel.x (c.div64 (FP.fin 3) (FP.fin 6)) then
        -- G>B>R
        let x := c.cvt32 (c.mul64 (FP.fin 6) (c.sub64 srcPixel.x (c.div64 (FP.fin 2) (FP.fin 6))))
        let green := c.sqrt32 (c.div32 (c.mul32 srcPixel.z srcPixel.z)
          (c.add32 p.y (c.mul32 (c.mul32 p.z x) x)))
        let blue := c.mul32 green x
        let red := FP.fin 0
        LocalsIEEE.mk red green blue { srcPixel with x := x }
      else if FP.lt srcPixel.x (c.div64 (FP.fin 4) (FP.fin 6)) then
        -- B>G>R
        let x := c.cvt32 (c.mul64 (FP.fin 6) (c.add64 (FP.neg srcPixel.x) (c.div64 (FP.fin 4) (FP.fin 6))))
        let blue := c.sqrt32 (c.div32 (c.mul32 srcPixel.z srcPixel.z)
          (c.add32 p.z (c.mul32 (c.mul32 p.y x) x)))
        let green := c.mul32 blue x
        let red := FP.fin 0
        LocalsIEEE.mk red green blue { srcPixel with x := x }
      else if FP.lt srcPixel.x (c.div64 (FP.fin 5) (FP.fin 6)) then
        -- B>R>G
        let x := c.cvt32 (c.mul64 (FP.fin 6) (c.sub64 srcPixel.x (c.div64 (FP.fin 4) (FP.fin 6))))
        let blue := c.sqrt32 (c.div32 (c.mul32 srcPixel.z srcPixel.z)
          (c.add32 p.z (c.mul32 (c.mul32 p.x x) x)))
        let red := c.mul32 blue x
        let green := FP.fin 0
        LocalsIEEE.mk red green blue { srcPixel with x := x }
      else
        -- R>B>G
        let x := c.cvt32 (c.mul64 (FP.fin 6) (c.add64 (FP.neg srcPixel.x) (c.div64 (FP.fin 6) (FP.fin 6))))
        let red := c.sqrt32 (c.div32 (c.mul32 srcPixel.z srcPixel.z)
          (c.add32 p.x (c.mul32 (c.mul32 p.z x) x)))
        let blue := c.mul32 red x
        let green := FP.fin 0
        LocalsIEEE.mk red green blue { srcPixel with x := x }
  -- float luma = sqrt(..): computed from the overwritten srcPixel, never used
  let _luma := c.sqrt32
    (c.add32
      (c.add32 (c.mul32 (c.mul32 st.srcPixel.x st.srcPixel.x) p.x)
        (c.mul32 (c.mul32 st.srcPixel.y st.srcPixel.y) p.y))
      (c.mul32 (c.mul32 st.srcPixel.z st.srcPixel.z) p.z))
  some { x := st.red, y := st.green, z := st.blue, w := input.w }

end HSPtoRGB

namespace Blink

theorem fdiv_ok {α : Type} [LinearOrderedField α] (a : α) {b : α} (hb : b ≠ 0) :
    fdiv a b = pure (a / b) := by
  simp [fdiv, hb]

theorem fsqrt_ok {α : Type} [LinearOrderedField α] (sqrt : α → α) {a : α} (ha : 0 ≤ a) :
    fsqrt sqrt a = pure (sqrt a) := by
  simp [fsqrt, not_lt.mpr ha]

end Blink

open Blink

/-! ## Arithmetic lemmas -/

namespace Blink

theorem lumaArg_nonneg (x y z : ℝ) :
    0 ≤ x * x * (299 / 1000) + y * y * (587 / 1000) + z * z * (114 / 1000) := by
  linarith [mul_self_nonneg x, mul_self_nonneg y, mul_self_nonneg z]

theorem chromaArg_pos (wa wb wc m t : ℝ) (hwa : 0 < wa) (hwb : 0 < wb) (hwc : 0 < wc)
    (hm : 0 < m) : 0 < wa / m / m + wb * t * t + wc := by
  have h1 : 0 < wa / m / m := by positivity
  have h2 : 0 ≤ wb * t * t := by
    have h3 := mul_nonneg hwb.le (mul_self_nonneg t)
    linarith
  linarith

theorem altArg_pos (wa wb t : ℝ) (hwa : 0 < wa) (hwb : 0 < wb) : 0 < wa + wb * t * t := by
  have h3 := mul_nonneg hwb.le (mul_self_nonneg t)
  linarith

theorem altQuot_nonneg (wa wb t p : ℝ) (hwa : 0 < wa) (hwb : 0 < wb) :
    0 ≤ p * p / (wa + wb * t * t) :=
  div_nonneg (mul_self_nonneg p) (altArg_pos wa wb t hwa hwb).le

end Blink

namespace HSPtoRGB

/-- The chromatic closed forms recover a triple `mn < mx`, `0 < mn` from its
ratio `m = mn / mx`, the relative position `t` of the middle value and the
weighted quadratic mean `P`. -/
theorem chroma_recover (wa wb wc mx md mn m t P : ℝ) (hwa : 0 < wa) (hwb : 0 < wb)
    (hwc : 0 < wc) (hmn : 0 < mn) (hlt : mn < mx) (hm : m = mn / mx)
    (ht : t = (md - mn) / (mx - mn))
    (hP : P = √(wa * mx * mx + wb * md * md + wc * mn * mn)) :
    chromaMax Real.sqrt wa wb wc m t P = mx ∧ chromaMid Real.sqrt wa wb wc m t P = md
      ∧ chromaMin Real.sqrt wa wb wc m t P = mn := by
  have hmx : 0 < mx := hmn.trans hlt
  have hd : mx - mn ≠ 0 := (sub_pos.mpr hlt).ne'
  have hS : 0 < wa * mx * mx + wb * md * md + wc * mn * mn := by
    have h1 : 0 < wa * mx * mx := by positivity
    have h2 := mul_nonneg hwb.le (mul_self_nonneg md)
    have h3 : 0 < wc * mn * mn := by positivity
    linarith
  have harg : wa / m / m + wb * (1 + t * (1 / m - 1)) * (1 + t * (1 / m - 1)) + wc
      = (wa * mx * mx + wb * md * md + wc * mn * mn) / (mn * mn) := by
    rw [hm, ht]
    field_simp
    ring
  have hmin : chromaMin Real.sqrt wa wb wc m t P = mn := by
    unfold chromaMin
    rw [harg, hP, Real.sqrt_div hS.le, Real.sqrt_mul_self hmn.le]
    have hs : √(wa * mx * mx + wb * md * md + wc * mn * mn) ≠ 0 := (Real.sqrt_pos.mpr hS).ne'
    field_simp
  have hmax : chromaMax Real.sqrt wa wb wc m t P = mx := by
    unfold chromaMax
    rw [hmin, hm]
    field_simp
  refine ⟨hmax, ?_, hmin⟩
  unfold chromaMid
  rw [hmax, hmin, ht]
  field_simp

/-- The alternate closed forms recover a pair `0 ≤ md`, `0 < mx` (the minimum
being `0`) from `t = md / mx` and the weighted quadratic mean `P`. -/
theorem alt_recover (wa wb mx md t P : ℝ) (hwa : 0 < wa) (hwb : 0 < wb)
    (hmx : 0 < mx) (ht : t = md / mx) (hP : P = √(wa * mx * mx + wb * md * md)) :
    altMax Real.sqrt wa wb t P = mx ∧ altMid Real.sqrt wa wb t P = md := by
  have hS : 0 ≤ wa * mx * mx + wb * md * md := by
    have h1 : 0 < wa * mx * mx := by positivity
    have h2 := mul_nonneg hwb.le (mul_self_nonneg md)
    linarith
  have hq : P * P / (wa + wb * t * t) = mx * mx := by
    have hden := (altArg_pos wa wb t hwa hwb).ne'
    rw [hP, Real.mul_self_sqrt hS, div_eq_iff hden, ht]
    field_simp
    ring
  have hmax : altMax Real.sqrt wa wb t P = mx := by
    unfold altMax
    rw [hq, Real.sqrt_mul_self hmx.le]
  refine ⟨hmax, ?_⟩
  unfold altMid
  rw [hmax, ht]
  field_simp

end HSPtoRGB

/-! ## Sector-by-sector evaluation of `HSPtoRGB`'s `process` -/

namespace HSPtoRGB

/-- Chromatic branch, sector 0 (`R>G>B`): the pixel written for `1 - sat > 0` and hue in the sector. -/
theorem process_chromatic_sector0 (h s p w : ℝ) (hm : 0 < 1 - s) (hhi : h < 1 / 6) :
    SaturationKernel.process Real.sqrt ⟨h, s, p, w⟩
      = Except.ok (some
          ⟨chromaMax Real.sqrt (299 / 1000) (587 / 1000) (114 / 1000) (1 - s) (6 * (h - 0 / 6)) p,
           chromaMid Real.sqrt (299 / 1000) (587 / 1000) (114 / 1000) (1 - s) (6 * (h - 0 / 6)) p,
           chromaMin Real.sqrt (299 / 1000) (587 / 1000) (114 / 1000) (1 - s) (6 * (h - 0 / 6)) p, w⟩) := by
  have harg := chromaArg_pos (299 / 1000) (587 / 1000) (114 / 1000) (1 - s)
    (1 + 6 * (h - 0 / 6) * (1 / (1 - s) - 1)) (by norm_num) (by norm_num) (by norm_num) hm
  have hs := (Real.sqrt_pos.mpr harg).ne'
  simp only [SaturationKernel.process, SaturationKernel.init, gt_iff_lt, hm, hhi,
    if_true, if_false, fdiv_ok _ hm.ne', fsqrt_ok _ harg.le, fdiv_ok _ hs,
    fsqrt_ok _ (lumaArg_nonneg _ _ _), pure_bind]
  rfl

/-- Chromatic branch, sector 1 (`G>R>B`): the pixel written for `1 - sat > 0` and hue in the sector. -/
theorem process_chromatic_sector1 (h s p w : ℝ) (hm : 0 < 1 - s) (hlo : 1 / 6 ≤ h) (hhi : h < 2 / 6) :
    SaturationKernel.process Real.sqrt ⟨h, s, p, w⟩
      = Except.ok (some
          ⟨chromaMid Real.sqrt (587 / 1000) (299 / 1000) (114 / 1000) (1 - s) (6 * (-h + 2 / 6)) p,
           chromaMax Real.sqrt (587 / 1000) (299 / 1000) (114 / 1000) (1 - s) (6 * (-h + 2 / 6)) p,
           chromaMin Real.sqrt (587 / 1000) (299 / 1000) (114 / 1000) (1 - s) (6 * (-h + 2 / 6)) p, w⟩) := by
  have n1 : ¬ h < 1 / 6 := by linarith
  have harg := chromaArg_pos (587 / 1000) (299 / 1000) (114 / 1000) (1 - s)
    (1 + 6 * (-h + 2 / 6) * (1 / (1 - s) - 1)) (by norm_num) (by norm_num) (by norm_num) hm
  have hs := (Real.sqrt_pos.mpr harg).ne'
  simp only [SaturationKernel.process, SaturationKernel.init, gt_iff_lt, hm, n1, hhi,
    if_true, if_false, fdiv_ok _ hm.ne', fsqrt_ok _ harg.le, fdiv_ok _ hs,
    fsqrt_ok _ (lumaArg_nonneg _ _ _), pure_bind]
  rfl

/-- Chromatic branch, sector 2 (`G>B>R`): the pixel written for `1 - sat > 0` and hue in the sector. -/
theorem process_chromatic_sector2 (h s p w : ℝ) (hm : 0 < 1 - s) (hlo : 2 / 6 ≤ h) (hhi : h < 3 / 6) :
    SaturationKernel.process Real.sqrt ⟨h, s, p, w⟩
      = Except.ok (some
          ⟨chromaMin Real.sqrt (587 / 1000) (114 / 1000) (299 / 1000) (1 - s) (6 * (h - 2 / 6)) p,
           chromaMax Real.sqrt (587 / 1000) (114 / 1000) (299 / 1000) (1 - s) (6 * (h - 2 / 6)) p,
           chromaMid Real.sqrt (587 / 1000) (114 / 1000) (299 / 1000) (1 - s) (6 * (h - 2 / 6)) p, w⟩) := by
  have n1 : ¬ h < 1 / 6 := by linarith
  have n2 : ¬ h < 2 / 6 := by linarith
  have harg := chromaArg_pos (587 / 1000) (114 / 1000) (299 / 1000) (1 - s)
    (1 + 6 * (h - 2 / 6) * (1 / (1 - s) - 1)) (by norm_num) (by norm_num) (by norm_num) hm
  have hs := (Real.sqrt_pos.mpr harg).ne'
  simp only [SaturationKernel.process, SaturationKernel.init, gt_iff_lt, hm, n1, n2, hhi,
    if_true, if_false, fdiv_ok _ hm.ne', fsqrt_ok _ harg.le, fdiv_ok _ hs,
    fsqrt_ok _ (lumaArg_nonneg _ _ _), pure_bind]
  rfl

/-- Chromatic branch, sector 3 (`B>G>R`): the pixel written for `1 - sat > 0` and hue in the sector. -/
theorem process_chromatic_sector3 (h s p w : ℝ) (hm : 0 < 1 - s) (hlo : 3 / 6 ≤ h) (hhi : h < 4 / 6) :
    SaturationKernel.process Real.sqrt ⟨h, s, p, w⟩
      = Except.ok (some
          ⟨chromaMin Real.sqrt (114 / 1000) (587 / 1000) (299 / 1000) (1 - s) (6 * (-h + 4 / 6)) p,
           chromaMid Real.sqrt (114 / 1000) (587 / 1000) (299 / 1000) (1 - s) (6 * (-h + 4 / 6)) p,
           chromaMax Real.sqrt (114 / 1000) (587 / 1000) (299 / 1000) (1 - s) (6 * (-h + 4 / 6)) p, w⟩) := by
  have n1 : ¬ h < 1 / 6 := by linarith
  have n2 : ¬ h < 2 / 6 := by linarith
  have n3 : ¬ h < 3 / 6 := by linarith
  have harg := chromaArg_pos (114 / 1000) (587 / 1000) (299 / 1000) (1 - s)
    (1 + 6 * (-h + 4 / 6) * (1 / (1 - s) - 1)) (by norm_num) (by norm_num) (by norm_num) hm
  have hs := (Real.sqrt_pos.mpr harg).ne'
  simp only [SaturationKernel.process, SaturationKernel.init, gt_iff_lt, hm, n1, n2, n3, hhi,
    if_true, if_false, fdiv_ok _ hm.ne', fsqrt_ok _ harg.le, fdiv_ok _ hs,
    fsqrt_ok _ (lumaArg_nonneg _ _ _), pure_bind]
  rfl

/-- Chromatic branch, sector 4 (`B>R>G`): the pixel written for `1 - sat > 0` and hue in the sector. -/
theorem process_chromatic_sector4 (h s p w : ℝ) (hm : 0 < 1 - s) (hlo : 4 / 6 ≤ h) (hhi : h < 5 / 6) :
    SaturationKernel.process Real.sqrt ⟨h, s, p, w⟩
      = Except.ok (some
          ⟨chromaMid Real.sqrt (114 / 1000) (299 / 1000) (587 / 1000) (1 - s) (6 * (h - 4 / 6)) p,
           chromaMin Real.sqrt (114 / 1000) (299 / 1000) (587 / 1000) (1 - s) (6 * (h - 4 / 6)) p,
           chromaMax Real.sqrt (114 / 1000) (299 / 1000) (587 / 1000) (1 - s) (6 * (h - 4 / 6)) p, w⟩) := by
  have n1 : ¬ h < 1 / 6 := by linarith
  have n2 : ¬ h < 2 / 6 := by linarith
  have n3 : ¬ h < 3 / 6 := by linarith
  have n4 : ¬ h < 4 / 6 := by linarith
  have harg := chromaArg_pos (114 / 1000) (299 / 1000) (587 / 1000) (1 - s)
    (1 + 6 * (h - 4 / 6) * (1 / (1 - s) - 1)) (by norm_num) (by norm_num) (by norm_num) hm
  have hs := (Real.sqrt_pos.mpr harg).ne'
  simp only [SaturationKernel.process, SaturationKernel.init, gt_iff_lt, hm, n1, n2, n3, n4, hhi,
    if_true, if_false, fdiv_ok _ hm.ne', fsqrt_ok _ harg.le, fdiv_ok _ hs,
    fsqrt_ok _ (lumaArg_nonneg _ _ _), pure_bind]
  rfl

/-- Chromatic branch, sector 5 (`R>B>G`): the pixel written for `1 - sat > 0` and hue in the sector. -/
theorem process_chromatic_sector5 (h s p w : ℝ) (hm : 0 < 1 - s) (hlo : 5 / 6 ≤ h) :
    SaturationKernel.process Real.sqrt ⟨h, s, p, w⟩
      = Except.ok (some
          ⟨chromaMax Real.sqrt (299 / 1000) (114 / 1000) (587 / 1000) (1 - s) (6 * (-h + 6 / 6)) p,
           chromaMin Real.sqrt (299 / 1000) (114 / 1000) (587 / 1000) (1 - s) (6 * (-h + 6 / 6)) p,
           chromaMid Real.sqrt (299 / 1000) (114 / 1000) (587 / 1000) (1 - s) (6 * (-h + 6 / 6)) p, w⟩) := by
  have n1 : ¬ h < 1 / 6 := by linarith
  have n2 : ¬ h < 2 / 6 := by linarith
  have n3 : ¬ h < 3 / 6 := by linarith
  have n4 : ¬ h < 4 / 6 := by linarith
  have n5 : ¬ h < 5 / 6 := by linarith
  have harg := chromaArg_pos (299 / 1000) (114 / 1000) (587 / 1000) (1 - s)
    (1 + 6 * (-h + 6 / 6) * (1 / (1 - s) - 1)) (by norm_num) (by norm_num) (by norm_num) hm
  have hs := (Real.sqrt_pos.mpr harg).ne'
  simp only [SaturationKernel.process, SaturationKernel.init, gt_iff_lt, hm, n1, n2, n3, n4, n5,
    if_true, if_false, fdiv_ok _ hm.ne', fsqrt_ok _ harg.le, fdiv_ok _ hs,
    fsqrt_ok _ (lumaArg_nonneg _ _ _), pure_bind]
  rfl

/-- Alternate branch, sector 0 (`R>G>B`): the pixel written for `1 - sat ≤ 0` and hue in the sector. -/
theorem process_alternate_sector0 (h s p w : ℝ) (hm : 1 - s ≤ 0) (hhi : h < 1 / 6) :
    SaturationKernel.process Real.sqrt ⟨h, s, p, w⟩
      = Except.ok (some
          ⟨altMax Real.sqrt (299 / 1000) (587 / 1000) (6 * (h - 0 / 6)) p,
           altMid Real.sqrt (299 / 1000) (587 / 1000) (6 * (h - 0 / 6)) p,
           0, w⟩) := by
  have hm' : ¬ 0 < 1 - s := not_lt.mpr hm
  have hden := altArg_pos (299 / 1000) (587 / 1000) (6 * (h - 0 / 6)) (by norm_num) (by norm_num)
  have hq := altQuot_nonneg (299 / 1000) (587 / 1000) (6 * (h - 0 / 6)) p (by norm_num) (by norm_num)
  simp only [SaturationKernel.process, SaturationKernel.init, gt_iff_lt, hm', hhi,
    if_true, if_false, fdiv_ok _ hden.ne', fsqrt_ok _ hq,
    fsqrt_ok _ (lumaArg_nonneg _ _ _), pure_bind]
  rfl

/-- Alternate branch, sector 1 (`G>R>B`): the pixel written for `1 - sat ≤ 0` and hue in the sector. -/
theorem process_alternate_sector1 (h s p w : ℝ) (hm : 1 - s ≤ 0) (hlo : 1 / 6 ≤ h) (hhi : h < 2 / 6) :
    SaturationKernel.process Real.sqrt ⟨h, s, p, w⟩
      = Except.ok (some
          ⟨altMid Real.sqrt (587 / 1000) (299 / 1000) (6 * (-h + 2 / 6)) p,
           altMax Real.sqrt (587 / 1000) (299 / 1000) (6 * (-h + 2 / 6)) p,
           0, w⟩) := by
  have n1 : ¬ h < 1 / 6 := by linarith
  have hm' : ¬ 0 < 1 - s := not_lt.mpr hm
  have hden := altArg_pos (587 / 1000) (299 / 1000) (6 * (-h + 2 / 6)) (by norm_num) (by norm_num)
  have hq := altQuot_nonneg (587 / 1000) (299 / 1000) (6 * (-h + 2 / 6)) p (by norm_num) (by norm_num)
  simp only [SaturationKernel.process, SaturationKernel.init, gt_iff_lt, hm', n1, hhi,
    if_true, if_false, fdiv_ok _ hden.ne', fsqrt_ok _ hq,
    fsqrt_ok _ (lumaArg_nonneg _ _ _), pure_bind]
  rfl

/-- Alternate branch, sector 2 (`G>B>R`): the pixel written for `1 - sat ≤ 0` and hue in the sector. -/
theorem process_alternate_sector2 (h s p w : ℝ) (hm : 1 - s ≤ 0) (hlo : 2 / 6 ≤ h) (hhi : h < 3 / 6) :
    SaturationKernel.process Real.sqrt ⟨h, s, p, w⟩
      = Except.ok (some
          ⟨0,
           altMax Real.sqrt (587 / 1000) (114 / 1000) (6 * (h - 2 / 6)) p,
           altMid Real.sqrt (587 / 1000) (114 / 1000) (6 * (h - 2 / 6)) p, w⟩) := by
  have n1 : ¬ h < 1 / 6 := by linarith
  have n2 : ¬ h < 2 / 6 := by linarith
  have hm' : ¬ 0 < 1 - s := not_lt.mpr hm
  have hden := altArg_pos (587 / 1000) (114 / 1000) (6 * (h - 2 / 6)) (by norm_num) (by norm_num)
  have hq := altQuot_nonneg (587 / 1000) (114 / 1000) (6 * (h - 2 / 6)) p (by norm_num) (by norm_num)
  simp only [SaturationKernel.process, SaturationKernel.init, gt_iff_lt, hm', n1, n2, hhi,
    if_true, if_false, fdiv_ok _ hden.ne', fsqrt_ok _ hq,
    fsqrt_ok _ (lumaArg_nonneg _ _ _), pure_bind]
  rfl

/-- Alternate branch, sector 3 (`B>G>R`): the pixel written for `1 - sat ≤ 0` and hue in the sector. -/
theorem process_alternate_sector3 (h s p w : ℝ) (hm : 1 - s ≤ 0) (hlo : 3 / 6 ≤ h) (hhi : h < 4 / 6) :
    SaturationKernel.process Real.sqrt ⟨h, s, p, w⟩
      = Except.ok (some
          ⟨0,
           altMid Real.sqrt (114 / 1000) (587 / 1000) (6 * (-h + 4 / 6)) p,
           altMax Real.sqrt (114 / 1000) (587 / 1000) (6 * (-h + 4 / 6)) p, w⟩) := by
  have n1 : ¬ h < 1 / 6 := by linarith
  have n2 : ¬ h < 2 / 6 := by linarith
  have n3 : ¬ h < 3 / 6 := by linarith
  have hm' : ¬ 0 < 1 - s := not_lt.mpr hm
  have hden := altArg_pos (114 / 1000) (587 / 1000) (6 * (-h + 4 / 6)) (by norm_num) (by norm_num)
  have hq := altQuot_nonneg (114 / 1000) (587 / 1000) (6 * (-h + 4 / 6)) p (by norm_num) (by norm_num)
  simp only [SaturationKernel.process, SaturationKernel.init, gt_iff_lt, hm', n1, n2, n3, hhi,
    if_true, if_false, fdiv_ok _ hden.ne', fsqrt_ok _ hq,
    fsqrt_ok _ (lumaArg_nonneg _ _ _), pure_bind]
  rfl

/-- Alternate branch, sector 4 (`B>R>G`): the pixel written for `1 - sat ≤ 0` and hue in the sector. -/
theorem process_alternate_sector4 (h s p w : ℝ) (hm : 1 - s ≤ 0) (hlo : 4 / 6 ≤ h) (hhi : h < 5 / 6) :
    SaturationKernel.process Real.sqrt ⟨h, s, p, w⟩
      = Except.ok (some
          ⟨altMid Real.sqrt (114 / 1000) (299 / 1000) (6 * (h - 4 / 6)) p,
           0,
           altMax Real.sqrt (114 / 1000) (299 / 1000) (6 * (h - 4 / 6)) p, w⟩) := by
  have n1 : ¬ h < 1 / 6 := by linarith
  have n2 : ¬ h < 2 / 6 := by linarith
  have n3 : ¬ h < 3 / 6 := by linarith
  have n4 : ¬ h < 4 / 6 := by linarith
  have hm' : ¬ 0 < 1 - s := not_lt.mpr hm
  have hden := altArg_pos (114 / 1000) (299 / 1000) (6 * (h - 4 / 6)) (by norm_num) (by norm_num)
  have hq := altQuot_nonneg (114 / 1000) (299 / 1000) (6 * (h - 4 / 6)) p (by norm_num) (by norm_num)
  simp only [SaturationKernel.process, SaturationKernel.init, gt_iff_lt, hm', n1, n2, n3, n4, hhi,
    if_true, if_false, fdiv_ok _ hden.ne', fsqrt_ok _ hq,
    fsqrt_ok _ (lumaArg_nonneg _ _ _), pure_bind]
  rfl

/-- Alternate branch, sector 5 (`R>B>G`): the pixel written for `1 - sat ≤ 0` and hue in the sector. -/
theorem process_alternate_sector5 (h s p w : ℝ) (hm : 1 - s ≤ 0) (hlo : 5 / 6 ≤ h) :
    SaturationKernel.process Real.sqrt ⟨h, s, p, w⟩
      = Except.ok (some
          ⟨altMax Real.sqrt (299 / 1000) (114 / 1000) (6 * (-h + 6 / 6)) p,
           0,
           altMid Real.sqrt (299 / 1000) (114 / 1000) (6 * (-h + 6 / 6)) p, w⟩) := by
  have n1 : ¬ h < 1 / 6 := by linarith
  have n2 : ¬ h < 2 / 6 := by linarith
  have n3 : ¬ h < 3 / 6 := by linarith
  have n4 : ¬ h < 4 / 6 := by linarith
  have n5 : ¬ h < 5 / 6 := by linarith
  have hm' : ¬ 0 < 1 - s := not_lt.mpr hm
  have hden := altArg_pos (299 / 1000) (114 / 1000) (6 * (-h + 6 / 6)) (by norm_num) (by norm_num)
  have hq := altQuot_nonneg (299 / 1000) (114 / 1000) (6 * (-h + 6 / 6)) p (by norm_num) (by norm_num)
  simp only [SaturationKernel.process, SaturationKernel.init, gt_iff_lt, hm', n1, n2, n3, n4, n5,
    if_true, if_false, fdiv_ok _ hden.ne', fsqrt_ok _ hq,
    fsqrt_ok _ (lumaArg_nonneg _ _ _), pure_bind]
  rfl

end HSPtoRGB


/-! ## Branch-by-branch evaluation of `RGBtoHSP`'s `process` -/

namespace RGBtoHSP

/-- Branch 1 of the hue/saturation cascade: red is largest and blue ≥ green. -/
theorem process_branch1 (x y z w : ℝ) (h1 : y ≤ x) (h2 : z ≤ x) (h3 : y ≤ z) (hlt : y < x) (hmax : x ≠ 0) :
    SaturationKernel.process Real.sqrt ⟨x, y, z, w⟩
      = Except.ok (some ⟨6 / 6 - 1 / 6 * (z - y) / (x - y), 1 - y / x,
          √(x * x * (299 / 1000) + y * y * (587 / 1000) + z * z * (114 / 1000)), w⟩) := by
  have hne : ¬ (x = y ∧ x = z) := fun h => hlt.ne' h.1
  have hden : x - y ≠ 0 := by
    have : 0 < x - y := by linarith
    exact this.ne'
  simp only [SaturationKernel.process, SaturationKernel.init, ge_iff_le, hne, h1, h2, h3,
    and_self, and_true, true_and, and_false, false_and, if_true, if_false,
    fdiv_ok _ hden, fdiv_ok _ hmax, fsqrt_ok _ (lumaArg_nonneg x y z), pure_bind]
  rfl

/-- Branch 2 of the hue/saturation cascade: red is largest and blue < green. -/
theorem process_branch2 (x y z w : ℝ) (h1 : y ≤ x) (h2 : z ≤ x) (h3 : z < y) (hmax : x ≠ 0) :
    SaturationKernel.process Real.sqrt ⟨x, y, z, w⟩
      = Except.ok (some ⟨0 / 6 + 1 / 6 * (y - z) / (x - z), 1 - z / x,
          √(x * x * (299 / 1000) + y * y * (587 / 1000) + z * z * (114 / 1000)), w⟩) := by
  have hne : ¬ (x = y ∧ x = z) := fun h => (h3.trans_le h1).ne' h.2
  have n3 : ¬ y ≤ z := not_le.mpr h3
  have hden : x - z ≠ 0 := by
    have : 0 < x - z := by linarith
    exact this.ne'
  simp only [SaturationKernel.process, SaturationKernel.init, ge_iff_le, hne, h1, h2, n3,
    and_self, and_true, true_and, and_false, false_and, if_true, if_false,
    fdiv_ok _ hden, fdiv_ok _ hmax, fsqrt_ok _ (lumaArg_nonneg x y z), pure_bind]
  rfl

/-- Branch 3 of the hue/saturation cascade: green is largest, red is not, and red ≥ blue. -/
theorem process_branch3 (x y z w : ℝ) (h1 : x < y) (h2 : z ≤ y) (h3 : z ≤ x) (hmax : y ≠ 0) :
    SaturationKernel.process Real.sqrt ⟨x, y, z, w⟩
      = Except.ok (some ⟨2 / 6 - 1 / 6 * (x - z) / (y - z), 1 - z / y,
          √(x * x * (299 / 1000) + y * y * (587 / 1000) + z * z * (114 / 1000)), w⟩) := by
  have hne : ¬ (x = y ∧ x = z) := fun h => h1.ne h.1
  have n1 : ¬ y ≤ x := not_le.mpr h1
  have h4 : x ≤ y := h1.le
  have hden : y - z ≠ 0 := by
    have : 0 < y - z := by linarith
    exact this.ne'
  simp only [SaturationKernel.process, SaturationKernel.init, ge_iff_le, hne, n1, h4, h2, h3,
    and_self, and_true, true_and, and_false, false_and, if_true, if_false,
    fdiv_ok _ hden, fdiv_ok _ hmax, fsqrt_ok _ (lumaArg_nonneg x y z), pure_bind]
  rfl

/-- Branch 4 of the hue/saturation cascade: green is largest and red < blue. -/
theorem process_branch4 (x y z w : ℝ) (h1 : x < z) (h2 : z ≤ y) (hmax : y ≠ 0) :
    SaturationKernel.process Real.sqrt ⟨x, y, z, w⟩
      = Except.ok (some ⟨2 / 6 + 1 / 6 * (z - x) / (y - x), 1 - x / y,
          √(x * x * (299 / 1000) + y * y * (587 / 1000) + z * z * (114 / 1000)), w⟩) := by
  have hne : ¬ (x = y ∧ x = z) := fun h => h1.ne h.2
  have n1 : ¬ z ≤ x := not_le.mpr h1
  have h4 : x ≤ y := (h1.trans_le h2).le
  have hden : y - x ≠ 0 := by
    have : 0 < y - x := by linarith
    exact this.ne'
  simp only [SaturationKernel.process, SaturationKernel.init, ge_iff_le, hne, n1, h4, h2,
    and_self, and_true, true_and, and_false, false_and, if_true, if_false,
    fdiv_ok _ hden, fdiv_ok _ hmax, fsqrt_ok _ (lumaArg_nonneg x y z), pure_bind]
  rfl

/-- Branch 5 of the hue/saturation cascade: blue is strictly largest and green ≥ red. -/
theorem process_branch5 (x y z w : ℝ) (h1 : x ≤ y) (h2 : y < z) (hmax : z ≠ 0) :
    SaturationKernel.process Real.sqrt ⟨x, y, z, w⟩
      = Except.ok (some ⟨4 / 6 - 1 / 6 * (y - x) / (z - x), 1 - x / z,
          √(x * x * (299 / 1000) + y * y * (587 / 1000) + z * z * (114 / 1000)), w⟩) := by
  have hne : ¬ (x = y ∧ x = z) := fun h => (h1.trans_lt h2).ne h.2
  have n1 : ¬ z ≤ x := not_le.mpr (h1.trans_lt h2)
  have n2 : ¬ z ≤ y := not_le.mpr h2
  have hden : z - x ≠ 0 := by
    have : 0 < z - x := by linarith
    exact this.ne'
  simp only [SaturationKernel.process, SaturationKernel.init, ge_iff_le, hne, n1, n2, h1,
    and_self, and_true, true_and, and_false, false_and, if_true, if_false,
    fdiv_ok _ hden, fdiv_ok _ hmax, fsqrt_ok _ (lumaArg_nonneg x y z), pure_bind]
  rfl

/-- Branch 6 of the hue/saturation cascade: blue is strictly largest and green < red. -/
theorem process_branch6 (x y z w : ℝ) (h1 : y < x) (h2 : x < z) (hmax : z ≠ 0) :
    SaturationKernel.process Real.sqrt ⟨x, y, z, w⟩
      = Except.ok (some ⟨4 / 6 + 1 / 6 * (x - y) / (z - y), 1 - y / z,
          √(x * x * (299 / 1000) + y * y * (587 / 1000) + z * z * (114 / 1000)), w⟩) := by
  have hne : ¬ (x = y ∧ x = z) := fun h => h2.ne h.2
  have n1 : ¬ z ≤ x := not_le.mpr h2
  have n2 : ¬ x ≤ y := not_le.mpr h1
  have hden : z - y ≠ 0 := by
    have : 0 < z - y := by linarith
    exact this.ne'
  simp only [SaturationKernel.process, SaturationKernel.init, ge_iff_le, hne, n1, n2,
    and_self, and_true, true_and, and_false, false_and, if_true, if_false,
    fdiv_ok _ hden, fdiv_ok _ hmax, fsqrt_ok _ (lumaArg_nonneg x y z), pure_bind]
  rfl

/-- The early return: on a pixel with three equal channels nothing is written. -/
theorem process_gray (g w : ℝ) :
    SaturationKernel.process Real.sqrt ⟨g, g, g, w⟩ = Except.ok none := by
  simp only [SaturationKernel.process, and_self, if_true]
  rfl

/-- The six branches of the cascade cover every pixel whose channels are not
all equal. -/
theorem branch_cases (x y z : ℝ) (hne : ¬ (x = y ∧ x = z)) :
    (y ≤ x ∧ z ≤ x ∧ y ≤ z ∧ y < x) ∨ (y ≤ x ∧ z ≤ x ∧ z < y) ∨ (x < y ∧ z ≤ y ∧ z ≤ x)
      ∨ (x < z ∧ z ≤ y) ∨ (x ≤ y ∧ y < z) ∨ (y < x ∧ x < z) := by
  rcases le_or_lt y x with hyx | hyx
  · rcases le_or_lt z x with hzx | hzx
    · rcases le_or_lt y z with hyz | hyz
      · left
        refine ⟨hyx, hzx, hyz, lt_of_le_of_ne hyx ?_⟩
        intro h
        exact hne ⟨h.symm, le_antisymm (h ▸ hyz) hzx⟩
      · right; left
        exact ⟨hyx, hzx, hyz⟩
    · rcases le_or_lt z y with hzy | hzy
      · exact absurd (hzx.trans_le hzy) (not_lt.mpr hyx)
      · rcases le_or_lt x y with hxy | hxy
        · right; right; right; right; left
          exact ⟨hxy, hzy⟩
        · right; right; right; right; right
          exact ⟨hxy, hzx⟩
  · rcases le_or_lt z y with hzy | hzy
    · rcases le_or_lt z x with hzx | hzx
      · right; right; left
        exact ⟨hyx, hzy, hzx⟩
      · right; right; right; left
        exact ⟨hzx, hzy⟩
    · right; right; right; right; left
      exact ⟨hyx.le, hzy⟩

end RGBtoHSP


/-! ## The forward transform on non-negative, non-gray pixels -/

namespace Blink

theorem sixth_ratio_nonneg (a b : ℝ) (ha : 0 ≤ a) (hb : 0 < b) : 0 ≤ 1 / 6 * a / b :=
  div_nonneg (by linarith) hb.le

theorem sixth_ratio_pos (a b : ℝ) (ha : 0 < a) (hb : 0 < b) : 0 < 1 / 6 * a / b :=
  div_pos (by linarith) hb

theorem sixth_ratio_le (a b : ℝ) (hab : a ≤ b) (hb : 0 < b) : 1 / 6 * a / b ≤ 1 / 6 := by
  rw [div_le_iff₀ hb]
  linarith

theorem sixth_ratio_lt (a b : ℝ) (hab : a < b) (hb : 0 < b) : 1 / 6 * a / b < 1 / 6 := by
  rw [div_lt_iff₀ hb]
  linarith

theorem sixth_ratio_eq_zero (a b : ℝ) (hb : 0 < b) : 1 / 6 * a / b = 0 ↔ a = 0 := by
  rw [div_eq_iff hb.ne', zero_mul]
  constructor
  · intro h
    linarith
  · intro h
    rw [h, mul_zero]

end Blink

namespace RGBtoHSP

/-- On a pixel with non-negative channels that are not all equal the kernel
writes a pixel whose saturation is `1 - min / max`, whose third component is
the weighted quadratic mean and whose hue lies in `(0, 1]`; the hue is `1`
exactly when green equals blue (red then being the strict maximum). -/
theorem process_nonneg (x y z w : ℝ) (hx : 0 ≤ x) (hy : 0 ≤ y) (hz : 0 ≤ z)
    (hne : ¬ (x = y ∧ x = z)) :
    ∃ hue, SaturationKernel.process Real.sqrt ⟨x, y, z, w⟩
        = Except.ok (some ⟨hue, 1 - min x (min y z) / max x (max y z),
            √(x * x * (299 / 1000) + y * y * (587 / 1000) + z * z * (114 / 1000)), w⟩)
      ∧ 0 < hue ∧ hue ≤ 1 ∧ (hue = 1 ↔ y = z ∧ y < x) := by
  rcases branch_cases x y z hne with h | h | h | h | h | h
  · obtain ⟨h1, h2, h3, hlt⟩ := h
    have hd : 0 < x - y := by linarith
    rw [min_eq_left h3, min_eq_right h1, max_eq_right h3, max_eq_left h2]
    refine ⟨_, process_branch1 x y z w h1 h2 h3 hlt (by linarith : 0 < x).ne', ?_⟩
    have a1 := sixth_ratio_nonneg (z - y) (x - y) (by linarith) hd
    have a2 := sixth_ratio_le (z - y) (x - y) (by linarith) hd
    have a3 := sixth_ratio_eq_zero (z - y) (x - y) hd
    refine ⟨by linarith, by linarith, ?_⟩
    constructor
    · intro h
      have h0 : 1 / 6 * (z - y) / (x - y) = 0 := by linarith
      exact ⟨by linarith [a3.mp h0], hlt⟩
    · rintro ⟨h, -⟩
      have h0 := a3.mpr (by linarith : z - y = 0)
      linarith
  · obtain ⟨h1, h2, h3⟩ := h
    have hd : 0 < x - z := by linarith
    rw [min_eq_right h3.le, min_eq_right h2, max_eq_left h3.le, max_eq_left h1]
    refine ⟨_, process_branch2 x y z w h1 h2 h3 (by linarith : 0 < x).ne', ?_⟩
    have a1 := sixth_ratio_pos (y - z) (x - z) (by linarith) hd
    have a2 := sixth_ratio_le (y - z) (x - z) (by linarith) hd
    refine ⟨by linarith, by linarith, ?_⟩
    constructor
    · intro h
      linarith
    · rintro ⟨h, -⟩
      linarith
  · obtain ⟨h1, h2, h3⟩ := h
    have hd : 0 < y - z := by linarith
    rw [min_eq_right h2, min_eq_right h3, max_eq_left h2, max_eq_right h1.le]
    refine ⟨_, process_branch3 x y z w h1 h2 h3 (by linarith : 0 < y).ne', ?_⟩
    have a1 := sixth_ratio_nonneg (x - z) (y - z) (by linarith) hd
    have a2 := sixth_ratio_lt (x - z) (y - z) (by linarith) hd
    refine ⟨by linarith, by linarith, ?_⟩
    constructor
    · intro h
      linarith
    · rintro ⟨h, -⟩
      linarith
  · obtain ⟨h1, h2⟩ := h
    have hd : 0 < y - x := by linarith
    rw [min_eq_right h2, min_eq_left h1.le, max_eq_left h2,
      max_eq_right (h1.le.trans h2)]
    refine ⟨_, process_branch4 x y z w h1 h2 (by linarith : 0 < y).ne', ?_⟩
    have a1 := sixth_ratio_pos (z - x) (y - x) (by linarith) hd
    have a2 := sixth_ratio_le (z - x) (y - x) (by linarith) hd
    refine ⟨by linarith, by linarith, ?_⟩
    constructor
    · intro h
      linarith
    · rintro ⟨-, h⟩
      linarith
  · obtain ⟨h1, h2⟩ := h
    have hd : 0 < z - x := by linarith
    rw [min_eq_left h2.le, min_eq_left h1, max_eq_right h2.le,
      max_eq_right (h1.trans h2.le)]
    refine ⟨_, process_branch5 x y z w h1 h2 (by linarith : 0 < z).ne', ?_⟩
    have a1 := sixth_ratio_nonneg (y - x) (z - x) (by linarith) hd
    have a2 := sixth_ratio_lt (y - x) (z - x) (by linarith) hd
    refine ⟨by linarith, by linarith, ?_⟩
    constructor
    · intro h
      linarith
    · rintro ⟨h, -⟩
      linarith
  · obtain ⟨h1, h2⟩ := h
    have hd : 0 < z - y := by linarith
    rw [min_eq_left (h1.trans h2).le, min_eq_right h1.le, max_eq_right (h1.trans h2).le,
      max_eq_right h2.le]
    refine ⟨_, process_branch6 x y z w h1 h2 (by linarith : 0 < z).ne', ?_⟩
    have a1 := sixth_ratio_pos (x - y) (z - y) (by linarith) hd
    have a2 := sixth_ratio_lt (x - y) (z - y) (by linarith) hd
    refine ⟨by linarith, by linarith, ?_⟩
    constructor
    · intro h
      linarith
    · rintro ⟨h, -⟩
      linarith

end RGBtoHSP

/-! ## Each sector of `HSPtoRGB` inverts the forward formulas -/

namespace HSPtoRGB

/-- Sector 0 (`R>G>B`) undoes the forward formulas: if the hue lies in the
sector, `sat = 1 - b / r`, the folded hue is `(g - b) / (r - b)` and `p` is the
weighted quadratic mean of `(r, g, b)`, then `(r, g, b)` is written back. -/
theorem sector0_inverts (r g b h s p w : ℝ) (hmn : 0 ≤ b) (hlt : b < r)
    (hhi : h < 1 / 6) (hs : s = 1 - b / r)
    (ht : 6 * (h - 0 / 6) = (g - b) / (r - b))
    (hp : p = √(r * r * (299 / 1000) + g * g * (587 / 1000) + b * b * (114 / 1000))) :
    SaturationKernel.process Real.sqrt ⟨h, s, p, w⟩ = Except.ok (some ⟨r, g, b, w⟩) := by
  have hmx : 0 < r := lt_of_le_of_lt hmn hlt
  rcases hmn.lt_or_eq with hpos | hzero
  · have hm : 1 - s = b / r := by rw [hs]; ring
    have hm0 : 0 < 1 - s := by rw [hm]; exact div_pos hpos hmx
    have hP : p = √(299 / 1000 * r * r + 587 / 1000 * g * g + 114 / 1000 * b * b) := by
      rw [hp]; congr 1; ring
    obtain ⟨e1, e2, e3⟩ := chroma_recover (299 / 1000) (587 / 1000) (114 / 1000) r g b (1 - s)
      (6 * (h - 0 / 6)) p (by norm_num) (by norm_num) (by norm_num) hpos hlt hm ht hP
    rw [process_chromatic_sector0 h s p w hm0 hhi, e1, e2, e3]
  · have hm0 : 1 - s ≤ 0 := by rw [hs, ← hzero]; simp
    have ht' : 6 * (h - 0 / 6) = g / r := by rw [ht, ← hzero]; simp
    have hP : p = √(299 / 1000 * r * r + 587 / 1000 * g * g) := by
      rw [hp, ← hzero]; congr 1; ring
    obtain ⟨e1, e2⟩ := alt_recover (299 / 1000) (587 / 1000) r g (6 * (h - 0 / 6)) p
      (by norm_num) (by norm_num) hmx ht' hP
    rw [process_alternate_sector0 h s p w hm0 hhi, e1, e2, hzero]

/-- Sector 1 (`G>R>B`) undoes the forward formulas: if the hue lies in the
sector, `sat = 1 - b / g`, the folded hue is `(r - b) / (g - b)` and `p` is the
weighted quadratic mean of `(r, g, b)`, then `(r, g, b)` is written back. -/
theorem sector1_inverts (r g b h s p w : ℝ) (hmn : 0 ≤ b) (hlt : b < g)
    (hlo : 1 / 6 ≤ h) (hhi : h < 2 / 6) (hs : s = 1 - b / g)
    (ht : 6 * (-h + 2 / 6) = (r - b) / (g - b))
    (hp : p = √(r * r * (299 / 1000) + g * g * (587 / 1000) + b * b * (114 / 1000))) :
    SaturationKernel.process Real.sqrt ⟨h, s, p, w⟩ = Except.ok (some ⟨r, g, b, w⟩) := by
  have hmx : 0 < g := lt_of_le_of_lt hmn hlt
  rcases hmn.lt_or_eq with hpos | hzero
  · have hm : 1 - s = b / g := by rw [hs]; ring
    have hm0 : 0 < 1 - s := by rw [hm]; exact div_pos hpos hmx
    have hP : p = √(587 / 1000 * g * g + 299 / 1000 * r * r + 114 / 1000 * b * b) := by
      rw [hp]; congr 1; ring
    obtain ⟨e1, e2, e3⟩ := chroma_recover (587 / 1000) (299 / 1000) (114 / 1000) g r b (1 - s)
      (6 * (-h + 2 / 6)) p (by norm_num) (by norm_num) (by norm_num) hpos hlt hm ht hP
    rw [process_chromatic_sector1 h s p w hm0 hlo hhi, e1, e2, e3]
  · have hm0 : 1 - s ≤ 0 := by rw [hs, ← hzero]; simp
    have ht' : 6 * (-h + 2 / 6) = r / g := by rw [ht, ← hzero]; simp
    have hP : p = √(587 / 1000 * g * g + 299 / 1000 * r * r) := by
      rw [hp, ← hzero]; congr 1; ring
    obtain ⟨e1, e2⟩ := alt_recover (587 / 1000) (299 / 1000) g r (6 * (-h + 2 / 6)) p
      (by norm_num) (by norm_num) hmx ht' hP
    rw [process_alternate_sector1 h s p w hm0 hlo hhi, e1, e2, hzero]

/-- Sector 2 (`G>B>R`) undoes the forward formulas: if the hue lies in the
sector, `sat = 1 - r / g`, the folded hue is `(b - r) / (g - r)` and `p` is the
weighted quadratic mean of `(r, g, b)`, then `(r, g, b)` is written back. -/
theorem sector2_inverts (r g b h s p w : ℝ) (hmn : 0 ≤ r) (hlt : r < g)
    (hlo : 2 / 6 ≤ h) (hhi : h < 3 / 6) (hs : s = 1 - r / g)
    (ht : 6 * (h - 2 / 6) = (b - r) / (g - r))
    (hp : p = √(r * r * (299 / 1000) + g * g * (587 / 1000) + b * b * (114 / 1000))) :
    SaturationKernel.process Real.sqrt ⟨h, s, p, w⟩ = Except.ok (some ⟨r, g, b, w⟩) := by
  have hmx : 0 < g := lt_of_le_of_lt hmn hlt
  rcases hmn.lt_or_eq with hpos | hzero
  · have hm : 1 - s = r / g := by rw [hs]; ring
    have hm0 : 0 < 1 - s := by rw [hm]; exact div_pos hpos hmx
    have hP : p = √(587 / 1000 * g * g + 114 / 1000 * b * b + 299 / 1000 * r * r) := by
      rw [hp]; congr 1; ring
    obtain ⟨e1, e2, e3⟩ := chroma_recover (587 / 1000) (114 / 1000) (299 / 1000) g b r (1 - s)
      (6 * (h - 2 / 6)) p (by norm_num) (by norm_num) (by norm_num) hpos hlt hm ht hP
    rw [process_chromatic_sector2 h s p w hm0 hlo hhi, e1, e2, e3]
  · have hm0 : 1 - s ≤ 0 := by rw [hs, ← hzero]; simp
    have ht' : 6 * (h - 2 / 6) = b / g := by rw [ht, ← hzero]; simp
    have hP : p = √(587 / 1000 * g * g + 114 / 1000 * b * b) := by
      rw [hp, ← hzero]; congr 1; ring
    obtain ⟨e1, e2⟩ := alt_recover (587 / 1000) (114 / 1000) g b (6 * (h - 2 / 6)) p
      (by norm_num) (by norm_num) hmx ht' hP
    rw [process_alternate_sector2 h s p w hm0 hlo hhi, e1, e2, hzero]

/-- Sector 3 (`B>G>R`) undoes the forward formulas: if the hue lies in the
sector, `sat = 1 - r / b`, the folded hue is `(g - r) / (b - r)` and `p` is the
weighted quadratic mean of `(r, g, b)`, then `(r, g, b)` is written back. -/
theorem sector3_inverts (r g b h s p w : ℝ) (hmn : 0 ≤ r) (hlt : r < b)
    (hlo : 3 / 6 ≤ h) (hhi : h < 4 / 6) (hs : s = 1 - r / b)
    (ht : 6 * (-h + 4 / 6) = (g - r) / (b - r))
    (hp : p = √(r * r * (299 / 1000) + g * g * (587 / 1000) + b * b * (114 / 1000))) :
    SaturationKernel.process Real.sqrt ⟨h, s, p, w⟩ = Except.ok (some ⟨r, g, b, w⟩) := by
  have hmx : 0 < b := lt_of_le_of_lt hmn hlt
  rcases hmn.lt_or_eq with hpos | hzero
  · have hm : 1 - s = r / b := by rw [hs]; ring
    have hm0 : 0 < 1 - s := by rw [hm]; exact div_pos hpos hmx
    have hP : p = √(114 / 1000 * b * b + 587 / 1000 * g * g + 299 / 1000 * r * r) := by
      rw [hp]; congr 1; ring
    obtain ⟨e1, e2, e3⟩ := chroma_recover (114 / 1000) (587 / 1000) (299 / 1000) b g r (1 - s)
      (6 * (-h + 4 / 6)) p (by norm_num) (by norm_num) (by norm_num) hpos hlt hm ht hP
    rw [process_chromatic_sector3 h s p w hm0 hlo hhi, e1, e2, e3]
  · have hm0 : 1 - s ≤ 0 := by rw [hs, ← hzero]; simp
    have ht' : 6 * (-h + 4 / 6) = g / b := by rw [ht, ← hzero]; simp
    have hP : p = √(114 / 1000 * b * b + 587 / 1000 * g * g) := by
      rw [hp, ← hzero]; congr 1; ring
    obtain ⟨e1, e2⟩ := alt_recover (114 / 1000) (587 / 1000) b g (6 * (-h + 4 / 6)) p
      (by norm_num) (by norm_num) hmx ht' hP
    rw [process_alternate_sector3 h s p w hm0 hlo hhi, e1, e2, hzero]

/-- Sector 4 (`B>R>G`) undoes the forward formulas: if the hue lies in the
sector, `sat = 1 - g / b`, the folded hue is `(r - g) / (b - g)` and `p` is the
weighted quadratic mean of `(r, g, b)`, then `(r, g, b)` is written back. -/
theorem sector4_inverts (r g b h s p w : ℝ) (hmn : 0 ≤ g) (hlt : g < b)
    (hlo : 4 / 6 ≤ h) (hhi : h < 5 / 6) (hs : s = 1 - g / b)
    (ht : 6 * (h - 4 / 6) = (r - g) / (b - g))
    (hp : p = √(r * r * (299 / 1000) + g * g * (587 / 1000) + b * b * (114 / 1000))) :
    SaturationKernel.process Real.sqrt ⟨h, s, p, w⟩ = Except.ok (some ⟨r, g, b, w⟩) := by
  have hmx : 0 < b := lt_of_le_of_lt hmn hlt
  rcases hmn.lt_or_eq with hpos | hzero
  · have hm : 1 - s = g / b := by rw [hs]; ring
    have hm0 : 0 < 1 - s := by rw [hm]; exact div_pos hpos hmx
    have hP : p = √(114 / 1000 * b * b + 299 / 1000 * r * r + 587 / 1000 * g * g) := by
      rw [hp]; congr 1; ring
    obtain ⟨e1, e2, e3⟩ := chroma_recover (114 / 1000) (299 / 1000) (587 / 1000) b r g (1 - s)
      (6 * (h - 4 / 6)) p (by norm_num) (by norm_num) (by norm_num) hpos hlt hm ht hP
    rw [process_chromatic_sector4 h s p w hm0 hlo hhi, e1, e2, e3]
  · have hm0 : 1 - s ≤ 0 := by rw [hs, ← hzero]; simp
    have ht' : 6 * (h - 4 / 6) = r / b := by rw [ht, ← hzero]; simp
    have hP : p = √(114 / 1000 * b * b + 299 / 1000 * r * r) := by
      rw [hp, ← hzero]; congr 1; ring
    obtain ⟨e1, e2⟩ := alt_recover (114 / 1000) (299 / 1000) b r (6 * (h - 4 / 6)) p
      (by norm_num) (by norm_num) hmx ht' hP
    rw [process_alternate_sector4 h s p w hm0 hlo hhi, e1, e2, hzero]

/-- Sector 5 (`R>B>G`) undoes the forward formulas: if the hue lies in the
sector, `sat = 1 - g / r`, the folded hue is `(b - g) / (r - g)` and `p` is the
weighted quadratic mean of `(r, g, b)`, then `(r, g, b)` is written back. -/
theorem sector5_inverts (r g b h s p w : ℝ) (hmn : 0 ≤ g) (hlt : g < r)
    (hlo : 5 / 6 ≤ h) (hs : s = 1 - g / r)
    (ht : 6 * (-h + 6 / 6) = (b - g) / (r - g))
    (hp : p = √(r * r * (299 / 1000) + g * g * (587 / 1000) + b * b * (114 / 1000))) :
    SaturationKernel.process Real.sqrt ⟨h, s, p, w⟩ = Except.ok (some ⟨r, g, b, w⟩) := by
  have hmx : 0 < r := lt_of_le_of_lt hmn hlt
  rcases hmn.lt_or_eq with hpos | hzero
  · have hm : 1 - s = g / r := by rw [hs]; ring
    have hm0 : 0 < 1 - s := by rw [hm]; exact div_pos hpos hmx
    have hP : p = √(299 / 1000 * r * r + 114 / 1000 * b * b + 587 / 1000 * g * g) := by
      rw [hp]; congr 1; ring
    obtain ⟨e1, e2, e3⟩ := chroma_recover (299 / 1000) (114 / 1000) (587 / 1000) r b g (1 - s)
      (6 * (-h + 6 / 6)) p (by norm_num) (by norm_num) (by norm_num) hpos hlt hm ht hP
    rw [process_chromatic_sector5 h s p w hm0 hlo, e1, e2, e3]
  · have hm0 : 1 - s ≤ 0 := by rw [hs, ← hzero]; simp
    have ht' : 6 * (-h + 6 / 6) = b / r := by rw [ht, ← hzero]; simp
    have hP : p = √(299 / 1000 * r * r + 114 / 1000 * b * b) := by
      rw [hp, ← hzero]; congr 1; ring
    obtain ⟨e1, e2⟩ := alt_recover (299 / 1000) (114 / 1000) r b (6 * (-h + 6 / 6)) p
      (by norm_num) (by norm_num) hmx ht' hP
    rw [process_alternate_sector5 h s p w hm0 hlo, e1, e2, hzero]

end HSPtoRGB


/-! ## Totality of `HSPtoRGB`'s `process` -/

namespace HSPtoRGB

/-- Every hue falls in exactly one of the six bands tested by the cascade. -/
theorem sector_cases (h : ℝ) :
    h < 1 / 6 ∨ (1 / 6 ≤ h ∧ h < 2 / 6) ∨ (2 / 6 ≤ h ∧ h < 3 / 6) ∨ (3 / 6 ≤ h ∧ h < 4 / 6)
      ∨ (4 / 6 ≤ h ∧ h < 5 / 6) ∨ 5 / 6 ≤ h := by
  rcases lt_or_le h (1 / 6) with h1 | h1
  · exact Or.inl h1
  rcases lt_or_le h (2 / 6) with h2 | h2
  · exact Or.inr (Or.inl ⟨h1, h2⟩)
  rcases lt_or_le h (3 / 6) with h3 | h3
  · exact Or.inr (Or.inr (Or.inl ⟨h2, h3⟩))
  rcases lt_or_le h (4 / 6) with h4 | h4
  · exact Or.inr (Or.inr (Or.inr (Or.inl ⟨h3, h4⟩)))
  rcases lt_or_le h (5 / 6) with h5 | h5
  · exact Or.inr (Or.inr (Or.inr (Or.inr (Or.inl ⟨h4, h5⟩))))
  · exact Or.inr (Or.inr (Or.inr (Or.inr (Or.inr h5))))

end HSPtoRGB

/-! ## What the closed forms satisfy -/

namespace HSPtoRGB

/-- In a chromatic sector (`0 < m`) with positive brightness the minimum-role
channel is positive, the ratio of minimum to maximum is `m`, and the weighted
quadratic mean of the three channels is `p`. -/
theorem chroma_spec (wa wb wc m t p : ℝ) (hwa : 0 < wa) (hwb : 0 < wb) (hwc : 0 < wc)
    (hm : 0 < m) (hp : 0 < p) :
    0 < chromaMin Real.sqrt wa wb wc m t p
      ∧ chromaMin Real.sqrt wa wb wc m t p / chromaMax Real.sqrt wa wb wc m t p = m
      ∧ √(wa * chromaMax Real.sqrt wa wb wc m t p * chromaMax Real.sqrt wa wb wc m t p
          + wb * chromaMid Real.sqrt wa wb wc m t p * chromaMid Real.sqrt wa wb wc m t p
          + wc * chromaMin Real.sqrt wa wb wc m t p * chromaMin Real.sqrt wa wb wc m t p)
        = p := by
  have hA := chromaArg_pos wa wb wc m (1 + t * (1 / m - 1)) hwa hwb hwc hm
  have hsA := Real.sqrt_pos.mpr hA
  have hmin : 0 < chromaMin Real.sqrt wa wb wc m t p := div_pos hp hsA
  refine ⟨hmin, ?_, ?_⟩
  · unfold chromaMax
    field_simp
  · have hsum : wa * chromaMax Real.sqrt wa wb wc m t p * chromaMax Real.sqrt wa wb wc m t p
          + wb * chromaMid Real.sqrt wa wb wc m t p * chromaMid Real.sqrt wa wb wc m t p
          + wc * chromaMin Real.sqrt wa wb wc m t p * chromaMin Real.sqrt wa wb wc m t p
        = chromaMin Real.sqrt wa wb wc m t p * chromaMin Real.sqrt wa wb wc m t p
          * (wa / m / m + wb * (1 + t * (1 / m - 1)) * (1 + t * (1 / m - 1)) + wc) := by
      unfold chromaMid chromaMax
      field_simp
      ring
    rw [hsum, Real.sqrt_mul (mul_self_nonneg _), Real.sqrt_mul_self hmin.le]
    unfold chromaMin
    exact div_mul_cancel₀ p hsA.ne'

/-- In a chromatic sector with `m < 1` the minimum-role channel is strictly
below the maximum-role channel. -/
theorem chroma_min_lt_max (wa wb wc m t p : ℝ) (hwa : 0 < wa) (hwb : 0 < wb) (hwc : 0 < wc)
    (hm : 0 < m) (hm1 : m < 1) (hp : 0 < p) :
    chromaMin Real.sqrt wa wb wc m t p < chromaMax Real.sqrt wa wb wc m t p := by
  have hmin := (chroma_spec wa wb wc m t p hwa hwb hwc hm hp).1
  unfold chromaMax
  rw [lt_div_iff₀ hm]
  nlinarith

/-- In an alternate-branch sector with positive brightness the maximum-role
channel is positive and the weighted quadratic mean of the two non-zero
channels is `p`. -/
theorem alt_spec (wa wb t p : ℝ) (hwa : 0 < wa) (hwb : 0 < wb) (hp : 0 < p) :
    0 < altMax Real.sqrt wa wb t p
      ∧ √(wa * altMax Real.sqrt wa wb t p * altMax Real.sqrt wa wb t p
          + wb * altMid Real.sqrt wa wb t p * altMid Real.sqrt wa wb t p) = p := by
  have hden := altArg_pos wa wb t hwa hwb
  have hq : 0 < p * p / (wa + wb * t * t) := div_pos (mul_pos hp hp) hden
  have hmax : 0 < altMax Real.sqrt wa wb t p := Real.sqrt_pos.mpr hq
  refine ⟨hmax, ?_⟩
  have hsum : wa * altMax Real.sqrt wa wb t p * altMax Real.sqrt wa wb t p
        + wb * altMid Real.sqrt wa wb t p * altMid Real.sqrt wa wb t p
      = altMax Real.sqrt wa wb t p * altMax Real.sqrt wa wb t p * (wa + wb * t * t) := by
    unfold altMid
    ring
  have hsq : altMax Real.sqrt wa wb t p * altMax Real.sqrt wa wb t p
      = p * p / (wa + wb * t * t) := by
    unfold altMax
    exact Real.mul_self_sqrt hq.le
  rw [hsum, hsq, div_mul_cancel₀ _ hden.ne', Real.sqrt_mul_self hp.le]

end HSPtoRGB

/-! ## What each sector of `HSPtoRGB` writes -/

namespace HSPtoRGB

/-- Sector 0 (`R>G>B`), for `0 < sat ≤ 1` and `0 < p`: the pixel written has
`0 ≤ b < r`, `g` at the folded hue between them, `1 - b / r = sat` and weighted
quadratic mean `p`. -/
theorem sector0_spec (h s p w : ℝ) (hs0 : 0 < s) (hs1 : s ≤ 1) (hp : 0 < p)
    (hhi : h < 1 / 6) :
    ∃ r g b, SaturationKernel.process Real.sqrt ⟨h, s, p, w⟩ = Except.ok (some ⟨r, g, b, w⟩)
      ∧ 0 ≤ b ∧ b < r ∧ g = b + 6 * (h - 0 / 6) * (r - b) ∧ 1 - b / r = s
      ∧ √(r * r * (299 / 1000) + g * g * (587 / 1000) + b * b * (114 / 1000)) = p := by
  rcases hs1.lt_or_eq with hlt | heq
  · have hm : 0 < 1 - s := by linarith
    have hm1 : 1 - s < 1 := by linarith
    obtain ⟨c1, c2, c3⟩ := chroma_spec (299 / 1000) (587 / 1000) (114 / 1000) (1 - s) (6 * (h - 0 / 6)) p
      (by norm_num) (by norm_num) (by norm_num) hm hp
    have c4 := chroma_min_lt_max (299 / 1000) (587 / 1000) (114 / 1000) (1 - s) (6 * (h - 0 / 6)) p
      (by norm_num) (by norm_num) (by norm_num) hm hm1 hp
    refine ⟨_, _, _, process_chromatic_sector0 h s p w hm hhi, c1.le, c4, rfl, ?_, ?_⟩
    · rw [c2]
      ring
    · refine Eq.trans ?_ c3
      congr 1
      ring
  · subst heq
    obtain ⟨a1, a2⟩ := alt_spec (299 / 1000) (587 / 1000) (6 * (h - 0 / 6)) p (by norm_num) (by norm_num) hp
    refine ⟨_, _, _, process_alternate_sector0 h 1 p w (by norm_num) hhi, le_rfl, a1, ?_, ?_, ?_⟩
    · unfold altMid
      ring
    · rw [zero_div, sub_zero]
    · refine Eq.trans ?_ a2
      congr 1
      ring

/-- Sector 1 (`G>R>B`), for `0 < sat ≤ 1` and `0 < p`: the pixel written has
`0 ≤ b < g`, `r` at the folded hue between them, `1 - b / g = sat` and weighted
quadratic mean `p`. -/
theorem sector1_spec (h s p w : ℝ) (hs0 : 0 < s) (hs1 : s ≤ 1) (hp : 0 < p)
    (hlo : 1 / 6 ≤ h) (hhi : h < 2 / 6) :
    ∃ r g b, SaturationKernel.process Real.sqrt ⟨h, s, p, w⟩ = Except.ok (some ⟨r, g, b, w⟩)
      ∧ 0 ≤ b ∧ b < g ∧ r = b + 6 * (-h + 2 / 6) * (g - b) ∧ 1 - b / g = s
      ∧ √(r * r * (299 / 1000) + g * g * (587 / 1000) + b * b * (114 / 1000)) = p := by
  rcases hs1.lt_or_eq with hlt | heq
  · have hm : 0 < 1 - s := by linarith
    have hm1 : 1 - s < 1 := by linarith
    obtain ⟨c1, c2, c3⟩ := chroma_spec (587 / 1000) (299 / 1000) (114 / 1000) (1 - s) (6 * (-h + 2 / 6)) p
      (by norm_num) (by norm_num) (by norm_num) hm hp
    have c4 := chroma_min_lt_max (587 / 1000) (299 / 1000) (114 / 1000) (1 - s) (6 * (-h + 2 / 6)) p
      (by norm_num) (by norm_num) (by norm_num) hm hm1 hp
    refine ⟨_, _, _, process_chromatic_sector1 h s p w hm hlo hhi, c1.le, c4, rfl, ?_, ?_⟩
    · rw [c2]
      ring
    · refine Eq.trans ?_ c3
      congr 1
      ring
  · subst heq
    obtain ⟨a1, a2⟩ := alt_spec (587 / 1000) (299 / 1000) (6 * (-h + 2 / 6)) p (by norm_num) (by norm_num) hp
    refine ⟨_, _, _, process_alternate_sector1 h 1 p w (by norm_num) hlo hhi, le_rfl, a1, ?_, ?_, ?_⟩
    · unfold altMid
      ring
    · rw [zero_div, sub_zero]
    · refine Eq.trans ?_ a2
      congr 1
      ring

/-- Sector 2 (`G>B>R`), for `0 < sat ≤ 1` and `0 < p`: the pixel written has
`0 ≤ r < g`, `b` at the folded hue between them, `1 - r / g = sat` and weighted
quadratic mean `p`. -/
theorem sector2_spec (h s p w : ℝ) (hs0 : 0 < s) (hs1 : s ≤ 1) (hp : 0 < p)
    (hlo : 2 / 6 ≤ h) (hhi : h < 3 / 6) :
    ∃ r g b, SaturationKernel.process Real.sqrt ⟨h, s, p, w⟩ = Except.ok (some ⟨r, g, b, w⟩)
      ∧ 0 ≤ r ∧ r < g ∧ b = r + 6 * (h - 2 / 6) * (g - r) ∧ 1 - r / g = s
      ∧ √(r * r * (299 / 1000) + g * g * (587 / 1000) + b * b * (114 / 1000)) = p := by
  rcases hs1.lt_or_eq with hlt | heq
  · have hm : 0 < 1 - s := by linarith
    have hm1 : 1 - s < 1 := by linarith
    obtain ⟨c1, c2, c3⟩ := chroma_spec (587 / 1000) (114 / 1000) (299 / 1000) (1 - s) (6 * (h - 2 / 6)) p
      (by norm_num) (by norm_num) (by norm_num) hm hp
    have c4 := chroma_min_lt_max (587 / 1000) (114 / 1000) (299 / 1000) (1 - s) (6 * (h - 2 / 6)) p
      (by norm_num) (by norm_num) (by norm_num) hm hm1 hp
    refine ⟨_, _, _, process_chromatic_sector2 h s p w hm hlo hhi, c1.le, c4, rfl, ?_, ?_⟩
    · rw [c2]
      ring
    · refine Eq.trans ?_ c3
      congr 1
      ring
  · subst heq
    obtain ⟨a1, a2⟩ := alt_spec (587 / 1000) (114 / 1000) (6 * (h - 2 / 6)) p (by norm_num) (by norm_num) hp
    refine ⟨_, _, _, process_alternate_sector2 h 1 p w (by norm_num) hlo hhi, le_rfl, a1, ?_, ?_, ?_⟩
    · unfold altMid
      ring
    · rw [zero_div, sub_zero]
    · refine Eq.trans ?_ a2
      congr 1
      ring

/-- Sector 3 (`B>G>R`), for `0 < sat ≤ 1` and `0 < p`: the pixel written has
`0 ≤ r < b`, `g` at the folded hue between them, `1 - r / b = sat` and weighted
quadratic mean `p`. -/
theorem sector3_spec (h s p w : ℝ) (hs0 : 0 < s) (hs1 : s ≤ 1) (hp : 0 < p)
    (hlo : 3 / 6 ≤ h) (hhi : h < 4 / 6) :
    ∃ r g b, SaturationKernel.process Real.sqrt ⟨h, s, p, w⟩ = Except.ok (some ⟨r, g, b, w⟩)
      ∧ 0 ≤ r ∧ r < b ∧ g = r + 6 * (-h + 4 / 6) * (b - r) ∧ 1 - r / b = s
      ∧ √(r * r * (299 / 1000) + g * g * (587 / 1000) + b * b * (114 / 1000)) = p := by
  rcases hs1.lt_or_eq with hlt | heq
  · have hm : 0 < 1 - s := by linarith
    have hm1 : 1 - s < 1 := by linarith
    obtain ⟨c1, c2, c3⟩ := chroma_spec (114 / 1000) (587 / 1000) (299 / 1000) (1 - s) (6 * (-h + 4 / 6)) p
      (by norm_num) (by norm_num) (by norm_num) hm hp
    have c4 := chroma_min_lt_max (114 / 1000) (587 / 1000) (299 / 1000) (1 - s) (6 * (-h + 4 / 6)) p
      (by norm_num) (by norm_num) (by norm_num) hm hm1 hp
    refine ⟨_, _, _, process_chromatic_sector3 h s p w hm hlo hhi, c1.le, c4, rfl, ?_, ?_⟩
    · rw [c2]
      ring
    · refine Eq.trans ?_ c3
      congr 1
      ring
  · subst heq
    obtain ⟨a1, a2⟩ := alt_spec (114 / 1000) (587 / 1000) (6 * (-h + 4 / 6)) p (by norm_num) (by norm_num) hp
    refine ⟨_, _, _, process_alternate_sector3 h 1 p w (by norm_num) hlo hhi, le_rfl, a1, ?_, ?_, ?_⟩
    · unfold altMid
      ring
    · rw [zero_div, sub_zero]
    · refine Eq.trans ?_ a2
      congr 1
      ring

/-- Sector 4 (`B>R>G`), for `0 < sat ≤ 1` and `0 < p`: the pixel written has
`0 ≤ g < b`, `r` at the folded hue between them, `1 - g / b = sat` and weighted
quadratic mean `p`. -/
theorem sector4_spec (h s p w : ℝ) (hs0 : 0 < s) (hs1 : s ≤ 1) (hp : 0 < p)
    (hlo : 4 / 6 ≤ h) (hhi : h < 5 / 6) :
    ∃ r g b, SaturationKernel.process Real.sqrt ⟨h, s, p, w⟩ = Except.ok (some ⟨r, g, b, w⟩)
      ∧ 0 ≤ g ∧ g < b ∧ r = g + 6 * (h - 4 / 6) * (b - g) ∧ 1 - g / b = s
      ∧ √(r * r * (299 / 1000) + g * g * (587 / 1000) + b * b * (114 / 1000)) = p := by
  rcases hs1.lt_or_eq with hlt | heq
  · have hm : 0 < 1 - s := by linarith
    have hm1 : 1 - s < 1 := by linarith
    obtain ⟨c1, c2, c3⟩ := chroma_spec (114 / 1000) (299 / 1000) (587 / 1000) (1 - s) (6 * (h - 4 / 6)) p
      (by norm_num) (by norm_num) (by norm_num) hm hp
    have c4 := chroma_min_lt_max (114 / 1000) (299 / 1000) (587 / 1000) (1 - s) (6 * (h - 4 / 6)) p
      (by norm_num) (by norm_num) (by norm_num) hm hm1 hp
    refine ⟨_, _, _, process_chromatic_sector4 h s p w hm hlo hhi, c1.le, c4, rfl, ?_, ?_⟩
    · rw [c2]
      ring
    · refine Eq.trans ?_ c3
      congr 1
      ring
  · subst heq
    obtain ⟨a1, a2⟩ := alt_spec (114 / 1000) (299 / 1000) (6 * (h - 4 / 6)) p (by norm_num) (by norm_num) hp
    refine ⟨_, _, _, process_alternate_sector4 h 1 p w (by norm_num) hlo hhi, le_rfl, a1, ?_, ?_, ?_⟩
    · unfold altMid
      ring
    · rw [zero_div, sub_zero]
    · refine Eq.trans ?_ a2
      congr 1
      ring

/-- Sector 5 (`R>B>G`), for `0 < sat ≤ 1` and `0 < p`: the pixel written has
`0 ≤ g < r`, `b` at the folded hue between them, `1 - g / r = sat` and weighted
quadratic mean `p`. -/
theorem sector5_spec (h s p w : ℝ) (hs0 : 0 < s) (hs1 : s ≤ 1) (hp : 0 < p)
    (hlo : 5 / 6 ≤ h) :
    ∃ r g b, SaturationKernel.process Real.sqrt ⟨h, s, p, w⟩ = Except.ok (some ⟨r, g, b, w⟩)
      ∧ 0 ≤ g ∧ g < r ∧ b = g + 6 * (-h + 6 / 6) * (r - g) ∧ 1 - g / r = s
      ∧ √(r * r * (299 / 1000) + g * g * (587 / 1000) + b * b * (114 / 1000)) = p := by
  rcases hs1.lt_or_eq with hlt | heq
  · have hm : 0 < 1 - s := by linarith
    have hm1 : 1 - s < 1 := by linarith
    obtain ⟨c1, c2, c3⟩ := chroma_spec (299 / 1000) (114 / 1000) (587 / 1000) (1 - s) (6 * (-h + 6 / 6)) p
      (by norm_num) (by norm_num) (by norm_num) hm hp
    have c4 := chroma_min_lt_max (299 / 1000) (114 / 1000) (587 / 1000) (1 - s) (6 * (-h + 6 / 6)) p
      (by norm_num) (by norm_num) (by norm_num) hm hm1 hp
    refine ⟨_, _, _, process_chromatic_sector5 h s p w hm hlo, c1.le, c4, rfl, ?_, ?_⟩
    · rw [c2]
      ring
    · refine Eq.trans ?_ c3
      congr 1
      ring
  · subst heq
    obtain ⟨a1, a2⟩ := alt_spec (299 / 1000) (114 / 1000) (6 * (-h + 6 / 6)) p (by norm_num) (by norm_num) hp
    refine ⟨_, _, _, process_alternate_sector5 h 1 p w (by norm_num) hlo, le_rfl, a1, ?_, ?_, ?_⟩
    · unfold altMid
      ring
    · rw [zero_div, sub_zero]
    · refine Eq.trans ?_ a2
      congr 1
      ring

end HSPtoRGB


/-! ## The inverse kernel on the output of each forward branch -/

namespace HSPtoRGB

/-- Forward branch 1 (red largest, blue ≥ green) is undone by sector 5. -/
theorem round_trip_branch1 (x y z w : ℝ) (hy : 0 ≤ y) (h2 : z ≤ x) (hlt : y < x) :
    SaturationKernel.process Real.sqrt
        ⟨6 / 6 - 1 / 6 * (z - y) / (x - y), 1 - y / x,
          √(x * x * (299 / 1000) + y * y * (587 / 1000) + z * z * (114 / 1000)), w⟩
      = Except.ok (some ⟨x, y, z, w⟩) := by
  have hd : 0 < x - y := by linarith
  have a2 := sixth_ratio_le (z - y) (x - y) (by linarith) hd
  exact sector5_inverts x y z _ _ _ w hy hlt (by linarith) rfl (by ring) rfl

/-- Forward branch 2 (red largest, blue < green) is undone by sector 0, or by
sector 1 when red and green tie. -/
theorem round_trip_branch2 (x y z w : ℝ) (hz : 0 ≤ z) (h3 : z < y) (h1 : y ≤ x) :
    SaturationKernel.process Real.sqrt
        ⟨0 / 6 + 1 / 6 * (y - z) / (x - z), 1 - z / x,
          √(x * x * (299 / 1000) + y * y * (587 / 1000) + z * z * (114 / 1000)), w⟩
      = Except.ok (some ⟨x, y, z, w⟩) := by
  have hd : 0 < x - z := by linarith
  rcases h1.lt_or_eq with hlt | heq
  · have a2 := sixth_ratio_lt (y - z) (x - z) (by linarith) hd
    exact sector0_inverts x y z _ _ _ w hz (by linarith) (by linarith) rfl (by ring) rfl
  · subst heq
    have a3 : 1 / 6 * (y - z) / (y - z) = 1 / 6 := by
      rw [mul_div_assoc, div_self hd.ne', mul_one]
    refine sector1_inverts y y z _ _ _ w hz h3 (by linarith) (by linarith) rfl ?_ rfl
    rw [a3, div_self hd.ne']
    norm_num

/-- Forward branch 3 (green largest, red ≥ blue) is undone by sector 1, or by
sector 2 when red and blue tie. -/
theorem round_trip_branch3 (x y z w : ℝ) (hz : 0 ≤ z) (h3 : z ≤ x) (h1 : x < y) :
    SaturationKernel.process Real.sqrt
        ⟨2 / 6 - 1 / 6 * (x - z) / (y - z), 1 - z / y,
          √(x * x * (299 / 1000) + y * y * (587 / 1000) + z * z * (114 / 1000)), w⟩
      = Except.ok (some ⟨x, y, z, w⟩) := by
  have hd : 0 < y - z := by linarith
  rcases h3.lt_or_eq with hlt | heq
  · have a1 := sixth_ratio_pos (x - z) (y - z) (by linarith) hd
    have a2 := sixth_ratio_lt (x - z) (y - z) (by linarith) hd
    exact sector1_inverts x y z _ _ _ w hz (by linarith) (by linarith) (by linarith) rfl
      (by ring) rfl
  · subst heq
    have a3 : 1 / 6 * (z - z) / (y - z) = 0 := by
      rw [sub_self, mul_zero, zero_div]
    refine sector2_inverts z y z _ _ _ w hz h1 (by linarith) (by linarith) rfl ?_ rfl
    rw [a3, sub_self, zero_div]
    norm_num

/-- Forward branch 4 (green largest, red < blue) is undone by sector 2, or by
sector 3 when green and blue tie. -/
theorem round_trip_branch4 (x y z w : ℝ) (hx : 0 ≤ x) (h1 : x < z) (h2 : z ≤ y) :
    SaturationKernel.process Real.sqrt
        ⟨2 / 6 + 1 / 6 * (z - x) / (y - x), 1 - x / y,
          √(x * x * (299 / 1000) + y * y * (587 / 1000) + z * z * (114 / 1000)), w⟩
      = Except.ok (some ⟨x, y, z, w⟩) := by
  have hd : 0 < y - x := by linarith
  rcases h2.lt_or_eq with hlt | heq
  · have a1 := sixth_ratio_pos (z - x) (y - x) (by linarith) hd
    have a2 := sixth_ratio_lt (z - x) (y - x) (by linarith) hd
    exact sector2_inverts x y z _ _ _ w hx (by linarith) (by linarith) (by linarith) rfl
      (by ring) rfl
  · subst heq
    have hd' : 0 < z - x := by linarith
    have a3 : 1 / 6 * (z - x) / (z - x) = 1 / 6 := by
      rw [mul_div_assoc, div_self hd'.ne', mul_one]
    refine sector3_inverts x z z _ _ _ w hx h1 (by linarith) (by linarith) rfl ?_ rfl
    rw [a3, div_self hd'.ne']
    norm_num

/-- Forward branch 5 (blue strictly largest, green ≥ red) is undone by sector 3,
or by sector 4 when red and green tie. -/
theorem round_trip_branch5 (x y z w : ℝ) (hx : 0 ≤ x) (h1 : x ≤ y) (h2 : y < z) :
    SaturationKernel.process Real.sqrt
        ⟨4 / 6 - 1 / 6 * (y - x) / (z - x), 1 - x / z,
          √(x * x * (299 / 1000) + y * y * (587 / 1000) + z * z * (114 / 1000)), w⟩
      = Except.ok (some ⟨x, y, z, w⟩) := by
  have hd : 0 < z - x := by linarith
  rcases h1.lt_or_eq with hlt | heq
  · have a1 := sixth_ratio_pos (y - x) (z - x) (by linarith) hd
    have a2 := sixth_ratio_lt (y - x) (z - x) (by linarith) hd
    exact sector3_inverts x y z _ _ _ w hx (by linarith) (by linarith) (by linarith) rfl
      (by ring) rfl
  · subst heq
    have a3 : 1 / 6 * (x - x) / (z - x) = 0 := by
      rw [sub_self, mul_zero, zero_div]
    refine sector4_inverts x x z _ _ _ w hx h2 (by linarith) (by linarith) rfl ?_ rfl
    rw [a3, sub_self, zero_div]
    norm_num

/-- Forward branch 6 (blue strictly largest, green < red) is undone by sector 4. -/
theorem round_trip_branch6 (x y z w : ℝ) (hy : 0 ≤ y) (h1 : y < x) (h2 : x < z) :
    SaturationKernel.process Real.sqrt
        ⟨4 / 6 + 1 / 6 * (x - y) / (z - y), 1 - y / z,
          √(x * x * (299 / 1000) + y * y * (587 / 1000) + z * z * (114 / 1000)), w⟩
      = Except.ok (some ⟨x, y, z, w⟩) := by
  have hd : 0 < z - y := by linarith
  have a1 := sixth_ratio_pos (x - y) (z - y) (by linarith) hd
  have a2 := sixth_ratio_lt (x - y) (z - y) (by linarith) hd
  exact sector4_inverts x y z _ _ _ w hy (by linarith) (by linarith) (by linarith) rfl
    (by ring) rfl

end HSPtoRGB

/-! ## The forward kernel on the output of each inverse sector -/

namespace Blink

/-- Sector 0 followed by the forward kernel: hue, saturation and brightness come
back, except that hue `0` comes back as `1`. -/
theorem back_sector0 (h s p w : ℝ) (hs0 : 0 < s) (hs1 : s ≤ 1) (hp : 0 < p) (h0 : 0 ≤ h)
    (hhi : h < 1 / 6) :
    ∃ px, HSPtoRGB.SaturationKernel.process Real.sqrt ⟨h, s, p, w⟩ = Except.ok (some px)
      ∧ RGBtoHSP.SaturationKernel.process Real.sqrt px
          = Except.ok (some ⟨if h = 0 then 1 else h, s, p, w⟩) := by
  obtain ⟨r, g, b, hproc, hmn, hlt, hmd, hsat, hluma⟩ :=
    HSPtoRGB.sector0_spec h s p w hs0 hs1 hp hhi
  refine ⟨_, hproc, ?_⟩
  have hd : 0 < r - b := by linarith
  have hr : r ≠ 0 := (lt_of_le_of_lt hmn hlt).ne'
  rcases h0.lt_or_eq with hpos | hzero
  · have hgb : b < g := by
      have := mul_pos (by linarith : 0 < 6 * (h - 0 / 6)) hd
      linarith
    have hgr : g ≤ r := by
      have := mul_nonneg (by linarith : 0 ≤ 1 - 6 * (h - 0 / 6)) hd.le
      linarith
    have e1 : 0 / 6 + 1 / 6 * (g - b) / (r - b) = h := by
      rw [hmd]
      field_simp
      ring
    rw [RGBtoHSP.process_branch2 r g b w hgr hlt.le hgb hr, if_neg hpos.ne', e1, hsat, hluma]
  · have hgb : g = b := by
      rw [hmd, ← hzero]
      ring
    have e1 : 6 / 6 - 1 / 6 * (b - g) / (r - g) = 1 := by
      rw [hgb, sub_self, mul_zero, zero_div]
      norm_num
    have e2 : 1 - g / r = s := by rw [hgb, hsat]
    rw [RGBtoHSP.process_branch1 r g b w (hgb ▸ hlt.le) hlt.le hgb.le (hgb ▸ hlt) hr,
      if_pos hzero.symm, e1, e2, hluma]

/-- Sector 1 followed by the forward kernel gives back hue, saturation and
brightness. -/
theorem back_sector1 (h s p w : ℝ) (hs0 : 0 < s) (hs1 : s ≤ 1) (hp : 0 < p)
    (hlo : 1 / 6 ≤ h) (hhi : h < 2 / 6) :
    ∃ px, HSPtoRGB.SaturationKernel.process Real.sqrt ⟨h, s, p, w⟩ = Except.ok (some px)
      ∧ RGBtoHSP.SaturationKernel.process Real.sqrt px = Except.ok (some ⟨h, s, p, w⟩) := by
  obtain ⟨r, g, b, hproc, hmn, hlt, hmd, hsat, hluma⟩ :=
    HSPtoRGB.sector1_spec h s p w hs0 hs1 hp hlo hhi
  refine ⟨_, hproc, ?_⟩
  have hd : 0 < g - b := by linarith
  have hbr : b < r := by
    have := mul_pos (by linarith : 0 < 6 * (-h + 2 / 6)) hd
    linarith
  rcases hlo.lt_or_eq with hpos | htie
  · have hrg : r < g := by
      have := mul_pos (by linarith : 0 < 1 - 6 * (-h + 2 / 6)) hd
      linarith
    have e1 : 2 / 6 - 1 / 6 * (r - b) / (g - b) = h := by
      rw [hmd]
      field_simp
      ring
    rw [RGBtoHSP.process_branch3 r g b w hrg hlt.le hbr.le (lt_of_le_of_lt hmn hlt).ne',
      e1, hsat, hluma]
  · have hrg : r = g := by
      rw [hmd, ← htie]
      ring
    have e1 : 0 / 6 + 1 / 6 * (g - b) / (r - b) = h := by
      rw [hrg, mul_div_assoc, div_self hd.ne', ← htie]
      norm_num
    have e2 : 1 - b / r = s := by rw [hrg, hsat]
    rw [RGBtoHSP.process_branch2 r g b w hrg.ge hbr.le hlt (lt_of_le_of_lt hmn hbr).ne',
      e1, e2, hluma]

/-- Sector 2 followed by the forward kernel gives back hue, saturation and
brightness. -/
theorem back_sector2 (h s p w : ℝ) (hs0 : 0 < s) (hs1 : s ≤ 1) (hp : 0 < p)
    (hlo : 2 / 6 ≤ h) (hhi : h < 3 / 6) :
    ∃ px, HSPtoRGB.SaturationKernel.process Real.sqrt ⟨h, s, p, w⟩ = Except.ok (some px)
      ∧ RGBtoHSP.SaturationKernel.process Real.sqrt px = Except.ok (some ⟨h, s, p, w⟩) := by
  obtain ⟨r, g, b, hproc, hmn, hlt, hmd, hsat, hluma⟩ :=
    HSPtoRGB.sector2_spec h s p w hs0 hs1 hp hlo hhi
  refine ⟨_, hproc, ?_⟩
  have hd : 0 < g - r := by linarith
  have hg : g ≠ 0 := (lt_of_le_of_lt hmn hlt).ne'
  have hbg : b < g := by
    have := mul_pos (by linarith : 0 < 1 - 6 * (h - 2 / 6)) hd
    linarith
  rcases hlo.lt_or_eq with hpos | htie
  · have hrb : r < b := by
      have := mul_pos (by linarith : 0 < 6 * (h - 2 / 6)) hd
      linarith
    have e1 : 2 / 6 + 1 / 6 * (b - r) / (g - r) = h := by
      rw [hmd]
      field_simp
      ring
    rw [RGBtoHSP.process_branch4 r g b w hrb hbg.le hg, e1, hsat, hluma]
  · have hbr : b = r := by
      rw [hmd, ← htie]
      ring
    have e1 : 2 / 6 - 1 / 6 * (r - b) / (g - b) = h := by
      rw [hbr, sub_self, mul_zero, zero_div, ← htie]
      norm_num
    have e2 : 1 - b / g = s := by rw [hbr, hsat]
    rw [RGBtoHSP.process_branch3 r g b w hlt hbg.le hbr.le hg, e1, e2, hluma]

/-- Sector 3 followed by the forward kernel gives back hue, saturation and
brightness. -/
theorem back_sector3 (h s p w : ℝ) (hs0 : 0 < s) (hs1 : s ≤ 1) (hp : 0 < p)
    (hlo : 3 / 6 ≤ h) (hhi : h < 4 / 6) :
    ∃ px, HSPtoRGB.SaturationKernel.process Real.sqrt ⟨h, s, p, w⟩ = Except.ok (some px)
      ∧ RGBtoHSP.SaturationKernel.process Real.sqrt px = Except.ok (some ⟨h, s, p, w⟩) := by
  obtain ⟨r, g, b, hproc, hmn, hlt, hmd, hsat, hluma⟩ :=
    HSPtoRGB.sector3_spec h s p w hs0 hs1 hp hlo hhi
  refine ⟨_, hproc, ?_⟩
  have hd : 0 < b - r := by linarith
  have hrg : r < g := by
    have := mul_pos (by linarith : 0 < 6 * (-h + 4 / 6)) hd
    linarith
  rcases hlo.lt_or_eq with hpos | htie
  · have hgb : g < b := by
      have := mul_pos (by linarith : 0 < 1 - 6 * (-h + 4 / 6)) hd
      linarith
    have e1 : 4 / 6 - 1 / 6 * (g - r) / (b - r) = h := by
      rw [hmd]
      field_simp
      ring
    rw [RGBtoHSP.process_branch5 r g b w hrg.le hgb (lt_of_le_of_lt hmn hlt).ne',
      e1, hsat, hluma]
  · have hgb : g = b := by
      rw [hmd, ← htie]
      ring
    have e1 : 2 / 6 + 1 / 6 * (b - r) / (g - r) = h := by
      rw [hgb, mul_div_assoc, div_self hd.ne', ← htie]
      norm_num
    have e2 : 1 - r / g = s := by rw [hgb, hsat]
    rw [RGBtoHSP.process_branch4 r g b w hlt hgb.ge (lt_of_le_of_lt hmn hrg).ne',
      e1, e2, hluma]

/-- Sector 4 followed by the forward kernel gives back hue, saturation and
brightness. -/
theorem back_sector4 (h s p w : ℝ) (hs0 : 0 < s) (hs1 : s ≤ 1) (hp : 0 < p)
    (hlo : 4 / 6 ≤ h) (hhi : h < 5 / 6) :
    ∃ px, HSPtoRGB.SaturationKernel.process Real.sqrt ⟨h, s, p, w⟩ = Except.ok (some px)
      ∧ RGBtoHSP.SaturationKernel.process Real.sqrt px = Except.ok (some ⟨h, s, p, w⟩) := by
  obtain ⟨r, g, b, hproc, hmn, hlt, hmd, hsat, hluma⟩ :=
    HSPtoRGB.sector4_spec h s p w hs0 hs1 hp hlo hhi
  refine ⟨_, hproc, ?_⟩
  have hd : 0 < b - g := by linarith
  have hb : b ≠ 0 := (lt_of_le_of_lt hmn hlt).ne'
  have hrb : r < b := by
    have := mul_pos (by linarith : 0 < 1 - 6 * (h - 4 / 6)) hd
    linarith
  rcases hlo.lt_or_eq with hpos | htie
  · have hgr : g < r := by
      have := mul_pos (by linarith : 0 < 6 * (h - 4 / 6)) hd
      linarith
    have e1 : 4 / 6 + 1 / 6 * (r - g) / (b - g) = h := by
      rw [hmd]
      field_simp
      ring
    rw [RGBtoHSP.process_branch6 r g b w hgr hrb hb, e1, hsat, hluma]
  · have hrg : r = g := by
      rw [hmd, ← htie]
      ring
    have e1 : 4 / 6 - 1 / 6 * (g - r) / (b - r) = h := by
      rw [hrg, sub_self, mul_zero, zero_div, ← htie]
      norm_num
    have e2 : 1 - r / b = s := by rw [hrg, hsat]
    rw [RGBtoHSP.process_branch5 r g b w hrg.le hlt hb, e1, e2, hluma]

/-- Sector 5, for hue up to `1`, followed by the forward kernel gives back hue,
saturation and brightness. -/
theorem back_sector5 (h s p w : ℝ) (hs0 : 0 < s) (hs1 : s ≤ 1) (hp : 0 < p)
    (hlo : 5 / 6 ≤ h) (hhi : h ≤ 1) :
    ∃ px, HSPtoRGB.SaturationKernel.process Real.sqrt ⟨h, s, p, w⟩ = Except.ok (some px)
      ∧ RGBtoHSP.SaturationKernel.process Real.sqrt px = Except.ok (some ⟨h, s, p, w⟩) := by
  obtain ⟨r, g, b, hproc, hmn, hlt, hmd, hsat, hluma⟩ :=
    HSPtoRGB.sector5_spec h s p w hs0 hs1 hp hlo
  refine ⟨_, hproc, ?_⟩
  have hd : 0 < r - g := by linarith
  have hgb : g ≤ b := by
    have := mul_nonneg (by linarith : 0 ≤ 6 * (-h + 6 / 6)) hd.le
    linarith
  have hbr : b ≤ r := by
    have := mul_nonneg (by linarith : 0 ≤ 1 - 6 * (-h + 6 / 6)) hd.le
    linarith
  have e1 : 6 / 6 - 1 / 6 * (b - g) / (r - g) = h := by
    rw [hmd]
    field_simp
    ring
  rw [RGBtoHSP.process_branch1 r g b w hlt.le hbr hgb hlt (lt_of_le_of_lt hmn hlt).ne',
    e1, hsat, hluma]

end Blink

/-! ## `process` of `HSPtoRGB` as sector index and sector body -/

namespace HSPtoRGB

theorem sectorIndex_sector0 (h : ℝ) (hhi : h < 1 / 6) : sectorIndex h = Sector.RGB := by
  simp only [sectorIndex, hhi, if_true, if_false]

theorem sectorIndex_sector1 (h : ℝ) (hlo : 1 / 6 ≤ h) (hhi : h < 2 / 6) : sectorIndex h = Sector.GRB := by
  have n1 : ¬ h < 1 / 6 := by linarith
  simp only [sectorIndex, n1, hhi, if_true, if_false]

theorem sectorIndex_sector2 (h : ℝ) (hlo : 2 / 6 ≤ h) (hhi : h < 3 / 6) : sectorIndex h = Sector.GBR := by
  have n1 : ¬ h < 1 / 6 := by linarith
  have n2 : ¬ h < 2 / 6 := by linarith
  simp only [sectorIndex, n1, n2, hhi, if_true, if_false]

theorem sectorIndex_sector3 (h : ℝ) (hlo : 3 / 6 ≤ h) (hhi : h < 4 / 6) : sectorIndex h = Sector.BGR := by
  have n1 : ¬ h < 1 / 6 := by linarith
  have n2 : ¬ h < 2 / 6 := by linarith
  have n3 : ¬ h < 3 / 6 := by linarith
  simp only [sectorIndex, n1, n2, n3, hhi, if_true, if_false]

theorem sectorIndex_sector4 (h : ℝ) (hlo : 4 / 6 ≤ h) (hhi : h < 5 / 6) : sectorIndex h = Sector.BRG := by
  have n1 : ¬ h < 1 / 6 := by linarith
  have n2 : ¬ h < 2 / 6 := by linarith
  have n3 : ¬ h < 3 / 6 := by linarith
  have n4 : ¬ h < 4 / 6 := by linarith
  simp only [sectorIndex, n1, n2, n3, n4, hhi, if_true, if_false]

theorem sectorIndex_sector5 (h : ℝ) (hlo : 5 / 6 ≤ h) : sectorIndex h = Sector.RBG := by
  have n1 : ¬ h < 1 / 6 := by linarith
  have n2 : ¬ h < 2 / 6 := by linarith
  have n3 : ¬ h < 3 / 6 := by linarith
  have n4 : ¬ h < 4 / 6 := by linarith
  have n5 : ¬ h < 5 / 6 := by linarith
  simp only [sectorIndex, n1, n2, n3, n4, n5, if_true, if_false]

/-- For `1 - sat > 0` the kernel writes the body of the chromatic branch of the
sector that the hue selects. -/
theorem process_eq_chromatic (h s p w : ℝ) (hm : 0 < 1 - s) :
    SaturationKernel.process Real.sqrt ⟨h, s, p, w⟩
      = Except.ok (some (chromaticSector Real.sqrt (sectorIndex h) h s p w)) := by
  rcases sector_cases h with h0 | ⟨l, u⟩ | ⟨l, u⟩ | ⟨l, u⟩ | ⟨l, u⟩ | l
  · rw [sectorIndex_sector0 h h0, process_chromatic_sector0 h s p w hm h0]
    rfl
  · rw [sectorIndex_sector1 h l u, process_chromatic_sector1 h s p w hm l u]
    rfl
  · rw [sectorIndex_sector2 h l u, process_chromatic_sector2 h s p w hm l u]
    rfl
  · rw [sectorIndex_sector3 h l u, process_chromatic_sector3 h s p w hm l u]
    rfl
  · rw [sectorIndex_sector4 h l u, process_chromatic_sector4 h s p w hm l u]
    rfl
  · rw [sectorIndex_sector5 h l, process_chromatic_sector5 h s p w hm l]
    rfl

/-- For `1 - sat ≤ 0` the kernel writes the body of the alternate branch of the
sector that the hue selects. -/
theorem process_eq_alternate (h s p w : ℝ) (hm : 1 - s ≤ 0) :
    SaturationKernel.process Real.sqrt ⟨h, s, p, w⟩
      = Except.ok (some (alternateSector Real.sqrt (sectorIndex h) h p w)) := by
  rcases sector_cases h with h0 | ⟨l, u⟩ | ⟨l, u⟩ | ⟨l, u⟩ | ⟨l, u⟩ | l
  · rw [sectorIndex_sector0 h h0, process_alternate_sector0 h s p w hm h0]
    rfl
  · rw [sectorIndex_sector1 h l u, process_alternate_sector1 h s p w hm l u]
    rfl
  · rw [sectorIndex_sector2 h l u, process_alternate_sector2 h s p w hm l u]
    rfl
  · rw [sectorIndex_sector3 h l u, process_alternate_sector3 h s p w hm l u]
    rfl
  · rw [sectorIndex_sector4 h l u, process_alternate_sector4 h s p w hm l u]
    rfl
  · rw [sectorIndex_sector5 h l, process_alternate_sector5 h s p w hm l]
    rfl

/-- On every input the kernel writes the body of the branch selected by the
saturation test and the hue tests. -/
theorem process_eq_sectorBody (h s p w : ℝ) :
    SaturationKernel.process Real.sqrt ⟨h, s, p, w⟩
      = Except.ok (some (sectorBody Real.sqrt (sectorIndex h) h s p w)) := by
  unfold sectorBody
  rcases lt_or_le 0 (1 - s) with hm | hm
  · rw [if_pos hm, process_eq_chromatic h s p w hm]
  · rw [if_neg (not_lt.mpr hm), process_eq_alternate h s p w hm]

end HSPtoRGB


/-! ## Further properties of the closed forms -/

namespace HSPtoRGB

/-- With brightness `0` the three chromatic closed forms vanish. -/
theorem chroma_zero (wa wb wc m x : ℝ) :
    chromaMax Real.sqrt wa wb wc m x 0 = 0 ∧ chromaMid Real.sqrt wa wb wc m x 0 = 0
      ∧ chromaMin Real.sqrt wa wb wc m x 0 = 0 := by
  have h1 : chromaMin Real.sqrt wa wb wc m x 0 = 0 := by
    unfold chromaMin
    exact zero_div _
  have h2 : chromaMax Real.sqrt wa wb wc m x 0 = 0 := by
    unfold chromaMax
    rw [h1, zero_div]
  refine ⟨h2, ?_, h1⟩
  unfold chromaMid
  rw [h1, h2]
  ring

/-- With brightness `0` the two alternate closed forms vanish. -/
theorem alt_zero (wa wb x : ℝ) :
    altMax Real.sqrt wa wb x 0 = 0 ∧ altMid Real.sqrt wa wb x 0 = 0 := by
  have h1 : altMax Real.sqrt wa wb x 0 = 0 := by
    unfold altMax
    rw [mul_zero, zero_div, Real.sqrt_zero]
  refine ⟨h1, ?_⟩
  unfold altMid
  rw [h1, zero_mul]

/-- With saturation `0` (so `minOverMax = 1 - 0`) and weights that sum to `1`
the three chromatic closed forms equal the brightness. -/
theorem chroma_gray (wa wb wc x p : ℝ) (hw : wa + wb + wc = 1) :
    chromaMax Real.sqrt wa wb wc (1 - 0) x p = p ∧ chromaMid Real.sqrt wa wb wc (1 - 0) x p = p
      ∧ chromaMin Real.sqrt wa wb wc (1 - 0) x p = p := by
  have harg : wa / (1 - 0) / (1 - 0)
      + wb * (1 + x * (1 / (1 - 0) - 1)) * (1 + x * (1 / (1 - 0) - 1)) + wc = 1 := by
    refine Eq.trans ?_ hw
    ring
  have h1 : chromaMin Real.sqrt wa wb wc (1 - 0) x p = p := by
    unfold chromaMin
    rw [harg, Real.sqrt_one, div_one]
  have h2 : chromaMax Real.sqrt wa wb wc (1 - 0) x p = p := by
    unfold chromaMax
    rw [h1, sub_zero, div_one]
  refine ⟨h2, ?_, h1⟩
  unfold chromaMid
  rw [h1, h2]
  ring

/-- In a chromatic sector the weighted quadratic mean of the three closed forms
is the brightness, for every brightness `p ≥ 0`. -/
theorem chroma_luma (wa wb wc m t p : ℝ) (hwa : 0 < wa) (hwb : 0 < wb) (hwc : 0 < wc)
    (hm : 0 < m) (hp : 0 ≤ p) :
    √(wa * chromaMax Real.sqrt wa wb wc m t p * chromaMax Real.sqrt wa wb wc m t p
        + wb * chromaMid Real.sqrt wa wb wc m t p * chromaMid Real.sqrt wa wb wc m t p
        + wc * chromaMin Real.sqrt wa wb wc m t p * chromaMin Real.sqrt wa wb wc m t p)
      = p := by
  rcases hp.lt_or_eq with hpos | hzero
  · exact (chroma_spec wa wb wc m t p hwa hwb hwc hm hpos).2.2
  · subst hzero
    obtain ⟨e1, e2, e3⟩ := chroma_zero wa wb wc m t
    rw [e1, e2, e3]
    norm_num

/-- In an alternate sector the weighted quadratic mean of the two non-zero
closed forms is the brightness, for every brightness `p ≥ 0`. -/
theorem alt_luma (wa wb t p : ℝ) (hwa : 0 < wa) (hwb : 0 < wb) (hp : 0 ≤ p) :
    √(wa * altMax Real.sqrt wa wb t p * altMax Real.sqrt wa wb t p
        + wb * altMid Real.sqrt wa wb t p * altMid Real.sqrt wa wb t p) = p := by
  rcases hp.lt_or_eq with hpos | hzero
  · exact (alt_spec wa wb t p hwa hwb hpos).2
  · subst hzero
    obtain ⟨e1, e2⟩ := alt_zero wa wb t
    rw [e1, e2]
    norm_num

end HSPtoRGB

/-! ## Properties of the sector bodies -/

namespace HSPtoRGB

/-- With saturation `0` every chromatic sector body is the gray `(p, p, p)`. -/
theorem chromaticSector_gray (k : Sector) (h p w : ℝ) :
    chromaticSector Real.sqrt k h 0 p w = ⟨p, p, p, w⟩ := by
  have c1 := fun (wa wb wc x : ℝ) (hw : wa + wb + wc = 1) => (chroma_gray wa wb wc x p hw).1
  have c2 := fun (wa wb wc x : ℝ) (hw : wa + wb + wc = 1) => (chroma_gray wa wb wc x p hw).2.1
  have c3 := fun (wa wb wc x : ℝ) (hw : wa + wb + wc = 1) => (chroma_gray wa wb wc x p hw).2.2
  cases k
  · have hw : (299 / 1000 : ℝ) + 587 / 1000 + 114 / 1000 = 1 := by norm_num
    simp only [chromaticSector, c1 _ _ _ _ hw, c2 _ _ _ _ hw, c3 _ _ _ _ hw]
  · have hw : (587 / 1000 : ℝ) + 299 / 1000 + 114 / 1000 = 1 := by norm_num
    simp only [chromaticSector, c1 _ _ _ _ hw, c2 _ _ _ _ hw, c3 _ _ _ _ hw]
  · have hw : (587 / 1000 : ℝ) + 114 / 1000 + 299 / 1000 = 1 := by norm_num
    simp only [chromaticSector, c1 _ _ _ _ hw, c2 _ _ _ _ hw, c3 _ _ _ _ hw]
  · have hw : (114 / 1000 : ℝ) + 587 / 1000 + 299 / 1000 = 1 := by norm_num
    simp only [chromaticSector, c1 _ _ _ _ hw, c2 _ _ _ _ hw, c3 _ _ _ _ hw]
  · have hw : (114 / 1000 : ℝ) + 299 / 1000 + 587 / 1000 = 1 := by norm_num
    simp only [chromaticSector, c1 _ _ _ _ hw, c2 _ _ _ _ hw, c3 _ _ _ _ hw]
  · have hw : (299 / 1000 : ℝ) + 114 / 1000 + 587 / 1000 = 1 := by norm_num
    simp only [chromaticSector, c1 _ _ _ _ hw, c2 _ _ _ _ hw, c3 _ _ _ _ hw]

/-- For brightness `p ≥ 0` the weighted quadratic mean of the channels of every
sector body, chromatic or alternate, is `p`. -/
theorem sectorBody_luma (k : Sector) (h s p w : ℝ) (hp : 0 ≤ p) :
    √(299 / 1000 * (sectorBody Real.sqrt k h s p w).x ^ 2
        + 587 / 1000 * (sectorBody Real.sqrt k h s p w).y ^ 2
        + 114 / 1000 * (sectorBody Real.sqrt k h s p w).z ^ 2) = p := by
  unfold sectorBody
  split_ifs with hm
  · cases k
    · refine Eq.trans ?_ (chroma_luma (299 / 1000) (587 / 1000) (114 / 1000) (1 - s) (6 * (h - 0 / 6)) p
        (by norm_num) (by norm_num) (by norm_num) hm hp)
      congr 1
      simp only [chromaticSector]
      ring
    · refine Eq.trans ?_ (chroma_luma (587 / 1000) (299 / 1000) (114 / 1000) (1 - s) (6 * (-h + 2 / 6)) p
        (by norm_num) (by norm_num) (by norm_num) hm hp)
      congr 1
      simp only [chromaticSector]
      ring
    · refine Eq.trans ?_ (chroma_luma (587 / 1000) (114 / 1000) (299 / 1000) (1 - s) (6 * (h - 2 / 6)) p
        (by norm_num) (by norm_num) (by norm_num) hm hp)
      congr 1
      simp only [chromaticSector]
      ring
    · refine Eq.trans ?_ (chroma_luma (114 / 1000) (587 / 1000) (299 / 1000) (1 - s) (6 * (-h + 4 / 6)) p
        (by norm_num) (by norm_num) (by norm_num) hm hp)
      congr 1
      simp only [chromaticSector]
      ring
    · refine Eq.trans ?_ (chroma_luma (114 / 1000) (299 / 1000) (587 / 1000) (1 - s) (6 * (h - 4 / 6)) p
        (by norm_num) (by norm_num) (by norm_num) hm hp)
      congr 1
      simp only [chromaticSector]
      ring
    · refine Eq.trans ?_ (chroma_luma (299 / 1000) (114 / 1000) (587 / 1000) (1 - s) (6 * (-h + 6 / 6)) p
        (by norm_num) (by norm_num) (by norm_num) hm hp)
      congr 1
      simp only [chromaticSector]
      ring
  · cases k
    · refine Eq.trans ?_ (alt_luma (299 / 1000) (587 / 1000) (6 * (h - 0 / 6)) p (by norm_num) (by norm_num) hp)
      congr 1
      simp only [alternateSector]
      ring
    · refine Eq.trans ?_ (alt_luma (587 / 1000) (299 / 1000) (6 * (-h + 2 / 6)) p (by norm_num) (by norm_num) hp)
      congr 1
      simp only [alternateSector]
      ring
    · refine Eq.trans ?_ (alt_luma (587 / 1000) (114 / 1000) (6 * (h - 2 / 6)) p (by norm_num) (by norm_num) hp)
      congr 1
      simp only [alternateSector]
      ring
    · refine Eq.trans ?_ (alt_luma (114 / 1000) (587 / 1000) (6 * (-h + 4 / 6)) p (by norm_num) (by norm_num) hp)
      congr 1
      simp only [alternateSector]
      ring
    · refine Eq.trans ?_ (alt_luma (114 / 1000) (299 / 1000) (6 * (h - 4 / 6)) p (by norm_num) (by norm_num) hp)
      congr 1
      simp only [alternateSector]
      ring
    · refine Eq.trans ?_ (alt_luma (299 / 1000) (114 / 1000) (6 * (-h + 6 / 6)) p (by norm_num) (by norm_num) hp)
      congr 1
      simp only [alternateSector]
      ring

/-- In every alternate sector body the channel in the minimum role is `0`. -/
theorem alternateSector_minRole (k : Sector) (h p w : ℝ) :
    k.minRole (alternateSector Real.sqrt k h p w) = 0 := by
  cases k <;> rfl

/-- The alpha component of every sector body is the input alpha. -/
theorem sectorBody_alpha (k : Sector) (h s p w : ℝ) :
    (sectorBody Real.sqrt k h s p w).w = w := by
  unfold sectorBody
  split_ifs <;> cases k <;> rfl

end HSPtoRGB


/-! ## `RGBtoHSP`'s `process` when the largest channel is zero -/

namespace RGBtoHSP

/-- Branch 1 of the cascade with the largest channel equal to `0`: the saturation
division has a zero divisor. -/
theorem process_branch1_fault (x y z w : ℝ) (h1 : y ≤ x) (h2 : z ≤ x) (h3 : y ≤ z) (hlt : y < x) (hmax : x = 0) :
    SaturationKernel.process Real.sqrt ⟨x, y, z, w⟩ = Except.error Fault.divByZero := by
  have hne : ¬ (x = y ∧ x = z) := fun h => hlt.ne' h.1
  have hden : x - y ≠ 0 := by
    have : 0 < x - y := by linarith
    exact this.ne'
  have hf : ∀ u : ℝ, fdiv u x = throw Fault.divByZero := by
    intro u
    simp only [fdiv, hmax, if_true]
  simp only [SaturationKernel.process, SaturationKernel.init, ge_iff_le, hne, h1, h2, h3,
    and_self, and_true, true_and, and_false, false_and, if_true, if_false,
    fdiv_ok _ hden, hf, pure_bind]
  rfl

/-- Branch 2 of the cascade with the largest channel equal to `0`: the saturation
division has a zero divisor. -/
theorem process_branch2_fault (x y z w : ℝ) (h1 : y ≤ x) (h2 : z ≤ x) (h3 : z < y) (hmax : x = 0) :
    SaturationKernel.process Real.sqrt ⟨x, y, z, w⟩ = Except.error Fault.divByZero := by
  have hne : ¬ (x = y ∧ x = z) := fun h => (h3.trans_le h1).ne' h.2
  have n3 : ¬ y ≤ z := not_le.mpr h3
  have hden : x - z ≠ 0 := by
    have : 0 < x - z := by linarith
    exact this.ne'
  have hf : ∀ u : ℝ, fdiv u x = throw Fault.divByZero := by
    intro u
    simp only [fdiv, hmax, if_true]
  simp only [SaturationKernel.process, SaturationKernel.init, ge_iff_le, hne, h1, h2, n3,
    and_self, and_true, true_and, and_false, false_and, if_true, if_false,
    fdiv_ok _ hden, hf, pure_bind]
  rfl

/-- Branch 3 of the cascade with the largest channel equal to `0`: the saturation
division has a zero divisor. -/
theorem process_branch3_fault (x y z w : ℝ) (h1 : x < y) (h2 : z ≤ y) (h3 : z ≤ x) (hmax : y = 0) :
    SaturationKernel.process Real.sqrt ⟨x, y, z, w⟩ = Except.error Fault.divByZero := by
  have hne : ¬ (x = y ∧ x = z) := fun h => h1.ne h.1
  have n1 : ¬ y ≤ x := not_le.mpr h1
  have h4 : x ≤ y := h1.le
  have hden : y - z ≠ 0 := by
    have : 0 < y - z := by linarith
    exact this.ne'
  have hf : ∀ u : ℝ, fdiv u y = throw Fault.divByZero := by
    intro u
    simp only [fdiv, hmax, if_true]
  simp only [SaturationKernel.process, SaturationKernel.init, ge_iff_le, hne, n1, h4, h2, h3,
    and_self, and_true, true_and, and_false, false_and, if_true, if_false,
    fdiv_ok _ hden, hf, pure_bind]
  rfl

/-- Branch 4 of the cascade with the largest channel equal to `0`: the saturation
division has a zero divisor. -/
theorem process_branch4_fault (x y z w : ℝ) (h1 : x < z) (h2 : z ≤ y) (hmax : y = 0) :
    SaturationKernel.process Real.sqrt ⟨x, y, z, w⟩ = Except.error Fault.divByZero := by
  have hne : ¬ (x = y ∧ x = z) := fun h => h1.ne h.2
  have n1 : ¬ z ≤ x := not_le.mpr h1
  have h4 : x ≤ y := (h1.trans_le h2).le
  have hden : y - x ≠ 0 := by
    have : 0 < y - x := by linarith
    exact this.ne'
  have hf : ∀ u : ℝ, fdiv u y = throw Fault.divByZero := by
    intro u
    simp only [fdiv, hmax, if_true]
  simp only [SaturationKernel.process, SaturationKernel.init, ge_iff_le, hne, n1, h4, h2,
    and_self, and_true, true_and, and_false, false_and, if_true, if_false,
    fdiv_ok _ hden, hf, pure_bind]
  rfl

/-- Branch 5 of the cascade with the largest channel equal to `0`: the saturation
division has a zero divisor. -/
theorem process_branch5_fault (x y z w : ℝ) (h1 : x ≤ y) (h2 : y < z) (hmax : z = 0) :
    SaturationKernel.process Real.sqrt ⟨x, y, z, w⟩ = Except.error Fault.divByZero := by
  have hne : ¬ (x = y ∧ x = z) := fun h => (h1.trans_lt h2).ne h.2
  have n1 : ¬ z ≤ x := not_le.mpr (h1.trans_lt h2)
  have n2 : ¬ z ≤ y := not_le.mpr h2
  have hden : z - x ≠ 0 := by
    have : 0 < z - x := by linarith
    exact this.ne'
  have hf : ∀ u : ℝ, fdiv u z = throw Fault.divByZero := by
    intro u
    simp only [fdiv, hmax, if_true]
  simp only [SaturationKernel.process, SaturationKernel.init, ge_iff_le, hne, n1, n2, h1,
    and_self, and_true, true_and, and_false, false_and, if_true, if_false,
    fdiv_ok _ hden, hf, pure_bind]
  rfl

/-- Branch 6 of the cascade with the largest channel equal to `0`: the saturation
division has a zero divisor. -/
theorem process_branch6_fault (x y z w : ℝ) (h1 : y < x) (h2 : x < z) (hmax : z = 0) :
    SaturationKernel.process Real.sqrt ⟨x, y, z, w⟩ = Except.error Fault.divByZero := by
  have hne : ¬ (x = y ∧ x = z) := fun h => h2.ne h.2
  have n1 : ¬ z ≤ x := not_le.mpr h2
  have n2 : ¬ x ≤ y := not_le.mpr h1
  have hden : z - y ≠ 0 := by
    have : 0 < z - y := by linarith
    exact this.ne'
  have hf : ∀ u : ℝ, fdiv u z = throw Fault.divByZero := by
    intro u
    simp only [fdiv, hmax, if_true]
  simp only [SaturationKernel.process, SaturationKernel.init, ge_iff_le, hne, n1, n2,
    and_self, and_true, true_and, and_false, false_and, if_true, if_false,
    fdiv_ok _ hden, hf, pure_bind]
  rfl

end RGBtoHSP


/-! ## Alpha, scaling and cyclic shift in `RGBtoHSP` -/

namespace Blink

theorem sixth_ratio_scale (k a b c d : ℝ) (hk : k ≠ 0) :
    1 / 6 * (k * a - k * b) / (k * c - k * d) = 1 / 6 * (a - b) / (c - d) := by
  rw [← mul_sub, ← mul_sub, mul_left_comm, mul_div_mul_left _ _ hk]

theorem luma_scale (k x y z : ℝ) (hk : 0 ≤ k) :
    √(k * x * (k * x) * (299 / 1000) + k * y * (k * y) * (587 / 1000)
        + k * z * (k * z) * (114 / 1000))
      = k * √(x * x * (299 / 1000) + y * y * (587 / 1000) + z * z * (114 / 1000)) := by
  have e : k * x * (k * x) * (299 / 1000) + k * y * (k * y) * (587 / 1000)
        + k * z * (k * z) * (114 / 1000)
      = k * k * (x * x * (299 / 1000) + y * y * (587 / 1000) + z * z * (114 / 1000)) := by
    ring
  rw [e, Real.sqrt_mul (mul_self_nonneg k), Real.sqrt_mul_self hk]

end Blink

namespace RGBtoHSP

/-- Whenever the kernel writes a pixel, its alpha is the input alpha. -/
theorem process_alpha (x y z w : ℝ) (px : Float4 ℝ)
    (h : SaturationKernel.process Real.sqrt ⟨x, y, z, w⟩ = Except.ok (some px)) :
    px.w = w := by
  by_cases hg : x = y ∧ x = z
  · obtain ⟨rfl, rfl⟩ := hg
    rw [process_gray] at h
    simp only [Except.ok.injEq] at h
    cases h
  · rcases branch_cases x y z hg with c | c | c | c | c | c
    · obtain ⟨h1, h2, h3, hlt⟩ := c
      by_cases hmax : x = 0
      · rw [process_branch1_fault x y z w h1 h2 h3 hlt hmax] at h
        cases h
      · rw [process_branch1 x y z w h1 h2 h3 hlt hmax] at h
        simp only [Except.ok.injEq, Option.some.injEq] at h
        rw [← h]
    · obtain ⟨h1, h2, h3⟩ := c
      by_cases hmax : x = 0
      · rw [process_branch2_fault x y z w h1 h2 h3 hmax] at h
        cases h
      · rw [process_branch2 x y z w h1 h2 h3 hmax] at h
        simp only [Except.ok.injEq, Option.some.injEq] at h
        rw [← h]
    · obtain ⟨h1, h2, h3⟩ := c
      by_cases hmax : y = 0
      · rw [process_branch3_fault x y z w h1 h2 h3 hmax] at h
        cases h
      · rw [process_branch3 x y z w h1 h2 h3 hmax] at h
        simp only [Except.ok.injEq, Option.some.injEq] at h
        rw [← h]
    · obtain ⟨h1, h2⟩ := c
      by_cases hmax : y = 0
      · rw [process_branch4_fault x y z w h1 h2 hmax] at h
        cases h
      · rw [process_branch4 x y z w h1 h2 hmax] at h
        simp only [Except.ok.injEq, Option.some.injEq] at h
        rw [← h]
    · obtain ⟨h1, h2⟩ := c
      by_cases hmax : z = 0
      · rw [process_branch5_fault x y z w h1 h2 hmax] at h
        cases h
      · rw [process_branch5 x y z w h1 h2 hmax] at h
        simp only [Except.ok.injEq, Option.some.injEq] at h
        rw [← h]
    · obtain ⟨h1, h2⟩ := c
      by_cases hmax : z = 0
      · rw [process_branch6_fault x y z w h1 h2 hmax] at h
        cases h
      · rw [process_branch6 x y z w h1 h2 hmax] at h
        simp only [Except.ok.injEq, Option.some.injEq] at h
        rw [← h]

/-- Scaling a non-gray pixel with non-negative channels by `k > 0` keeps hue and
saturation and multiplies the brightness by `k`. -/
theorem process_scale (k x y z w : ℝ) (hk : 0 < k) (hx : 0 ≤ x) (hy : 0 ≤ y) (hz : 0 ≤ z)
    (hne : ¬ (x = y ∧ x = z)) :
    ∃ hue sat luma,
      SaturationKernel.process Real.sqrt ⟨x, y, z, w⟩ = Except.ok (some ⟨hue, sat, luma, w⟩)
        ∧ SaturationKernel.process Real.sqrt ⟨k * x, k * y, k * z, w⟩
          = Except.ok (some ⟨hue, sat, k * luma, w⟩) := by
  have le' : ∀ {u v : ℝ}, u ≤ v → k * u ≤ k * v := fun h => mul_le_mul_of_nonneg_left h hk.le
  have lt' : ∀ {u v : ℝ}, u < v → k * u < k * v := fun h => mul_lt_mul_of_pos_left h hk
  have ne' : ∀ {u : ℝ}, 0 < u → k * u ≠ 0 := fun h => (mul_pos hk h).ne'
  rcases branch_cases x y z hne with c | c | c | c | c | c
  · obtain ⟨h1, h2, h3, hlt⟩ := c
    have hmax : 0 < x := lt_of_le_of_lt hy hlt
    refine ⟨_, _, _, process_branch1 x y z w h1 h2 h3 hlt hmax.ne', ?_⟩
    rw [process_branch1 (k * x) (k * y) (k * z) w (le' h1) (le' h2) (le' h3) (lt' hlt) (ne' hmax),
      sixth_ratio_scale k _ _ _ _ hk.ne', mul_div_mul_left _ _ hk.ne', luma_scale k x y z hk.le]
  · obtain ⟨h1, h2, h3⟩ := c
    have hmax : 0 < x := lt_of_le_of_lt hz (lt_of_lt_of_le h3 h1)
    refine ⟨_, _, _, process_branch2 x y z w h1 h2 h3 hmax.ne', ?_⟩
    rw [process_branch2 (k * x) (k * y) (k * z) w (le' h1) (le' h2) (lt' h3) (ne' hmax),
      sixth_ratio_scale k _ _ _ _ hk.ne', mul_div_mul_left _ _ hk.ne', luma_scale k x y z hk.le]
  · obtain ⟨h1, h2, h3⟩ := c
    have hmax : 0 < y := lt_of_le_of_lt hx h1
    refine ⟨_, _, _, process_branch3 x y z w h1 h2 h3 hmax.ne', ?_⟩
    rw [process_branch3 (k * x) (k * y) (k * z) w (lt' h1) (le' h2) (le' h3) (ne' hmax),
      sixth_ratio_scale k _ _ _ _ hk.ne', mul_div_mul_left _ _ hk.ne', luma_scale k x y z hk.le]
  · obtain ⟨h1, h2⟩ := c
    have hmax : 0 < y := lt_of_le_of_lt hx (lt_of_lt_of_le h1 h2)
    refine ⟨_, _, _, process_branch4 x y z w h1 h2 hmax.ne', ?_⟩
    rw [process_branch4 (k * x) (k * y) (k * z) w (lt' h1) (le' h2) (ne' hmax),
      sixth_ratio_scale k _ _ _ _ hk.ne', mul_div_mul_left _ _ hk.ne', luma_scale k x y z hk.le]
  · obtain ⟨h1, h2⟩ := c
    have hmax : 0 < z := lt_of_le_of_lt hy h2
    refine ⟨_, _, _, process_branch5 x y z w h1 h2 hmax.ne', ?_⟩
    rw [process_branch5 (k * x) (k * y) (k * z) w (le' h1) (lt' h2) (ne' hmax),
      sixth_ratio_scale k _ _ _ _ hk.ne', mul_div_mul_left _ _ hk.ne', luma_scale k x y z hk.le]
  · obtain ⟨h1, h2⟩ := c
    have hmax : 0 < z := lt_of_le_of_lt hx h2
    refine ⟨_, _, _, process_branch6 x y z w h1 h2 hmax.ne', ?_⟩
    rw [process_branch6 (k * x) (k * y) (k * z) w (lt' h1) (lt' h2) (ne' hmax),
      sixth_ratio_scale k _ _ _ _ hk.ne', mul_div_mul_left _ _ hk.ne', luma_scale k x y z hk.le]

end RGBtoHSP

/-! ## `RGBtoHSP` in the arithmetic that never rounds

In the arithmetic `exact Real.sqrt` the IEEE embedding computes with real
numbers, and a division by zero gives an infinity instead of stopping the run. -/

namespace IEEE

theorem exact_round32 (x : ℝ) : (exact Real.sqrt).round32 x = FP.fin x := rfl

theorem exact_add32 (x y : ℝ) :
    (exact Real.sqrt).add32 (FP.fin x) (FP.fin y) = FP.fin (x + y) := rfl

theorem exact_add64 (x y : ℝ) :
    (exact Real.sqrt).add64 (FP.fin x) (FP.fin y) = FP.fin (x + y) := rfl

theorem exact_sub32 (x y : ℝ) :
    (exact Real.sqrt).sub32 (FP.fin x) (FP.fin y) = FP.fin (x - y) := by
  rw [sub_eq_add_neg]
  rfl

theorem exact_sub64 (x y : ℝ) :
    (exact Real.sqrt).sub64 (FP.fin x) (FP.fin y) = FP.fin (x - y) := by
  rw [sub_eq_add_neg]
  rfl

theorem exact_mul32 (x y : ℝ) :
    (exact Real.sqrt).mul32 (FP.fin x) (FP.fin y) = FP.fin (x * y) := rfl

theorem exact_mul64 (x y : ℝ) :
    (exact Real.sqrt).mul64 (FP.fin x) (FP.fin y) = FP.fin (x * y) := rfl

theorem exact_div64 (x : ℝ) {y : ℝ} (hy : y ≠ 0) :
    (exact Real.sqrt).div64 (FP.fin x) (FP.fin y) = FP.fin (x / y) := by
  simp only [Context.div64, FP.div, if_neg hy]
  rfl

theorem exact_div64_six (x : ℝ) :
    (exact Real.sqrt).div64 (FP.fin x) (FP.fin 6) = FP.fin (x / 6) :=
  exact_div64 x (by norm_num)

theorem exact_cvt32 (x : ℝ) : (exact Real.sqrt).cvt32 (FP.fin x) = FP.fin x := rfl

theorem exact_sqrt32 {x : ℝ} (hx : 0 ≤ x) :
    (exact Real.sqrt).sqrt32 (FP.fin x) = FP.fin (√x) := by
  simp only [Context.sqrt32, FP.sqrt, if_neg (not_lt.mpr hx)]
  rfl

theorem eq_fin (x y : ℝ) : FP.eq (FP.fin x) (FP.fin y) = decide (x = y) := rfl

theorem ge_fin (x y : ℝ) : FP.ge (FP.fin x) (FP.fin y) = decide (y ≤ x) := rfl

end IEEE

namespace RGBtoHSP

open IEEE

/-- Branch 1 of the cascade in the arithmetic that never rounds: red is largest and blue ≥ green.
The saturation `1.0 - y / x` is left as the IEEE expression, since `x` may be `0`. -/
theorem processIEEE_exact_branch1 (x y z w : ℝ) (h1 : y ≤ x) (h2 : z ≤ x) (h3 : y ≤ z) (hlt : y < x) :
    SaturationKernel.processIEEE (exact Real.sqrt) ⟨FP.fin x, FP.fin y, FP.fin z, FP.fin w⟩
      = some ⟨FP.fin (6 / 6 - 1 / 6 * (z - y) / (x - y)),
          (exact Real.sqrt).cvt32 ((exact Real.sqrt).sub64 (FP.fin 1)
            ((exact Real.sqrt).div32 (FP.fin y) (FP.fin x))),
          FP.fin (√(x * x * (299 / 1000) + y * y * (587 / 1000) + z * z * (114 / 1000))),
          FP.fin w⟩ := by
  have hne : ¬ (x = y ∧ x = z) := fun h => hlt.ne' h.1
  have hden : x - y ≠ 0 := by
    have : 0 < x - y := by linarith
    exact this.ne'
  simp only [SaturationKernel.processIEEE, SaturationKernel.initIEEE, eq_fin, ge_fin,
    Bool.and_eq_true, decide_eq_true_eq, hne, h1, h2, h3, and_self, and_true, true_and,
    and_false, false_and, if_true, if_false, exact_round32, exact_sub32, exact_mul32,
    exact_add32, exact_div64_six, exact_mul64, exact_div64 _ hden, exact_sub64, exact_add64,
    exact_cvt32, exact_sqrt32 (lumaArg_nonneg x y z)]

/-- Branch 2 of the cascade in the arithmetic that never rounds: red is largest and blue < green.
The saturation `1.0 - z / x` is left as the IEEE expression, since `x` may be `0`. -/
theorem processIEEE_exact_branch2 (x y z w : ℝ) (h1 : y ≤ x) (h2 : z ≤ x) (h3 : z < y) :
    SaturationKernel.processIEEE (exact Real.sqrt) ⟨FP.fin x, FP.fin y, FP.fin z, FP.fin w⟩
      = some ⟨FP.fin (0 / 6 + 1 / 6 * (y - z) / (x - z)),
          (exact Real.sqrt).cvt32 ((exact Real.sqrt).sub64 (FP.fin 1)
            ((exact Real.sqrt).div32 (FP.fin z) (FP.fin x))),
          FP.fin (√(x * x * (299 / 1000) + y * y * (587 / 1000) + z * z * (114 / 1000))),
          FP.fin w⟩ := by
  have hne : ¬ (x = y ∧ x = z) := fun h => (h3.trans_le h1).ne' h.2
  have n3 : ¬ y ≤ z := not_le.mpr h3
  have hden : x - z ≠ 0 := by
    have : 0 < x - z := by linarith
    exact this.ne'
  simp only [SaturationKernel.processIEEE, SaturationKernel.initIEEE, eq_fin, ge_fin,
    Bool.and_eq_true, decide_eq_true_eq, hne, h1, h2, n3, and_self, and_true, true_and,
    and_false, false_and, if_true, if_false, exact_round32, exact_sub32, exact_mul32,
    exact_add32, exact_div64_six, exact_mul64, exact_div64 _ hden, exact_sub64, exact_add64,
    exact_cvt32, exact_sqrt32 (lumaArg_nonneg x y z)]

/-- Branch 3 of the cascade in the arithmetic that never rounds: green is largest, red is not, and red ≥ blue.
The saturation `1.0 - z / y` is left as the IEEE expression, since `y` may be `0`. -/
theorem processIEEE_exact_branch3 (x y z w : ℝ) (h1 : x < y) (h2 : z ≤ y) (h3 : z ≤ x) :
    SaturationKernel.processIEEE (exact Real.sqrt) ⟨FP.fin x, FP.fin y, FP.fin z, FP.fin w⟩
      = some ⟨FP.fin (2 / 6 - 1 / 6 * (x - z) / (y - z)),
          (exact Real.sqrt).cvt32 ((exact Real.sqrt).sub64 (FP.fin 1)
            ((exact Real.sqrt).div32 (FP.fin z) (FP.fin y))),
          FP.fin (√(x * x * (299 / 1000) + y * y * (587 / 1000) + z * z * (114 / 1000))),
          FP.fin w⟩ := by
  have hne : ¬ (x = y ∧ x = z) := fun h => h1.ne h.1
  have n1 : ¬ y ≤ x := not_le.mpr h1
  have h4 : x ≤ y := h1.le
  have hden : y - z ≠ 0 := by
    have : 0 < y - z := by linarith
    exact this.ne'
  simp only [SaturationKernel.processIEEE, SaturationKernel.initIEEE, eq_fin, ge_fin,
    Bool.and_eq_true, decide_eq_true_eq, hne, n1, h4, h2, h3, and_self, and_true, true_and,
    and_false, false_and, if_true, if_false, exact_round32, exact_sub32, exact_mul32,
    exact_add32, exact_div64_six, exact_mul64, exact_div64 _ hden, exact_sub64, exact_add64,
    exact_cvt32, exact_sqrt32 (lumaArg_nonneg x y z)]

/-- Branch 4 of the cascade in the arithmetic that never rounds: green is largest and red < blue.
The saturation `1.0 - x / y` is left as the IEEE expression, since `y` may be `0`. -/
theorem processIEEE_exact_branch4 (x y z w : ℝ) (h1 : x < z) (h2 : z ≤ y) :
    SaturationKernel.processIEEE (exact Real.sqrt) ⟨FP.fin x, FP.fin y, FP.fin z, FP.fin w⟩
      = some ⟨FP.fin (2 / 6 + 1 / 6 * (z - x) / (y - x)),
          (exact Real.sqrt).cvt32 ((exact Real.sqrt).sub64 (FP.fin 1)
            ((exact Real.sqrt).div32 (FP.fin x) (FP.fin y))),
          FP.fin (√(x * x * (299 / 1000) + y * y * (587 / 1000) + z * z * (114 / 1000))),
          FP.fin w⟩ := by
  have hne : ¬ (x = y ∧ x = z) := fun h => h1.ne h.2
  have n1 : ¬ z ≤ x := not_le.mpr h1
  have h4 : x ≤ y := (h1.trans_le h2).le
  have hden : y - x ≠ 0 := by
    have : 0 < y - x := by linarith
    exact this.ne'
  simp only [SaturationKernel.processIEEE, SaturationKernel.initIEEE, eq_fin, ge_fin,
    Bool.and_eq_true, decide_eq_true_eq, hne, n1, h4, h2, and_self, and_true, true_and,
    and_false, false_and, if_true, if_false, exact_round32, exact_sub32, exact_mul32,
    exact_add32, exact_div64_six, exact_mul64, exact_div64 _ hden, exact_sub64, exact_add64,
    exact_cvt32, exact_sqrt32 (lumaArg_nonneg x y z)]

/-- Branch 5 of the cascade in the arithmetic that never rounds: blue is strictly largest and green ≥ red.
The saturation `1.0 - x / z` is left as the IEEE expression, since `z` may be `0`. -/
theorem processIEEE_exact_branch5 (x y z w : ℝ) (h1 : x ≤ y) (h2 : y < z) :
    SaturationKernel.processIEEE (exact Real.sqrt) ⟨FP.fin x, FP.fin y, FP.fin z, FP.fin w⟩
      = some ⟨FP.fin (4 / 6 - 1 / 6 * (y - x) / (z - x)),
          (exact Real.sqrt).cvt32 ((exact Real.sqrt).sub64 (FP.fin 1)
            ((exact Real.sqrt).div32 (FP.fin x) (FP.fin z))),
          FP.fin (√(x * x * (299 / 1000) + y * y * (587 / 1000) + z * z * (114 / 1000))),
          FP.fin w⟩ := by
  have hne : ¬ (x = y ∧ x = z) := fun h => (h1.trans_lt h2).ne h.2
  have n1 : ¬ z ≤ x := not_le.mpr (h1.trans_lt h2)
  have n2 : ¬ z ≤ y := not_le.mpr h2
  have hden : z - x ≠ 0 := by
    have : 0 < z - x := by linarith
    exact this.ne'
  simp only [SaturationKernel.processIEEE, SaturationKernel.initIEEE, eq_fin, ge_fin,
    Bool.and_eq_true, decide_eq_true_eq, hne, n1, n2, h1, and_self, and_true, true_and,
    and_false, false_and, if_true, if_false, exact_round32, exact_sub32, exact_mul32,
    exact_add32, exact_div64_six, exact_mul64, exact_div64 _ hden, exact_sub64, exact_add64,
    exact_cvt32, exact_sqrt32 (lumaArg_nonneg x y z)]

/-- Branch 6 of the cascade in the arithmetic that never rounds: blue is strictly largest and green < red.
The saturation `1.0 - y / z` is left as the IEEE expression, since `z` may be `0`. -/
theorem processIEEE_exact_branch6 (x y z w : ℝ) (h1 : y < x) (h2 : x < z) :
    SaturationKernel.processIEEE (exact Real.sqrt) ⟨FP.fin x, FP.fin y, FP.fin z, FP.fin w⟩
      = some ⟨FP.fin (4 / 6 + 1 / 6 * (x - y) / (z - y)),
          (exact Real.sqrt).cvt32 ((exact Real.sqrt).sub64 (FP.fin 1)
            ((exact Real.sqrt).div32 (FP.fin y) (FP.fin z))),
          FP.fin (√(x * x * (299 / 1000) + y * y * (587 / 1000) + z * z * (114 / 1000))),
          FP.fin w⟩ := by
  have hne : ¬ (x = y ∧ x = z) := fun h => h2.ne h.2
  have n1 : ¬ z ≤ x := not_le.mpr h2
  have n2 : ¬ x ≤ y := not_le.mpr h1
  have hden : z - y ≠ 0 := by
    have : 0 < z - y := by linarith
    exact this.ne'
  simp only [SaturationKernel.processIEEE, SaturationKernel.initIEEE, eq_fin, ge_fin,
    Bool.and_eq_true, decide_eq_true_eq, hne, n1, n2, and_self, and_true, true_and,
    and_false, false_and, if_true, if_false, exact_round32, exact_sub32, exact_mul32,
    exact_add32, exact_div64_six, exact_mul64, exact_div64 _ hden, exact_sub64, exact_add64,
    exact_cvt32, exact_sqrt32 (lumaArg_nonneg x y z)]

end RGBtoHSP


/-! ## The claims -/

open Blink

/-- C1 (round trip RGB → HSP → RGB).  For a pixel whose channels are
non-negative (in particular in `[0, 1]`) and not all equal, the RGB-to-HSP
kernel writes a pixel `hsp`, and the HSP-to-RGB kernel applied to `hsp` writes
back exactly the original pixel.  All six branches, the ties between them and
the case of a zero minimum channel (`sat = 1`, alternate branch) are covered. -/
theorem round_trip_rgb_hsp_rgb (r g b a : ℝ) (hr : 0 ≤ r) (hg : 0 ≤ g) (hb : 0 ≤ b)
    (hne : ¬ (r = g ∧ r = b)) :
    ∃ hsp, RGBtoHSP.SaturationKernel.process Real.sqrt ⟨r, g, b, a⟩ = Except.ok (some hsp)
      ∧ HSPtoRGB.SaturationKernel.process Real.sqrt hsp = Except.ok (some ⟨r, g, b, a⟩) := by
  rcases RGBtoHSP.branch_cases r g b hne with h | h | h | h | h | h
  · obtain ⟨h1, h2, h3, hlt⟩ := h
    exact ⟨_, RGBtoHSP.process_branch1 r g b a h1 h2 h3 hlt (lt_of_le_of_lt hg hlt).ne',
      HSPtoRGB.round_trip_branch1 r g b a hg h2 hlt⟩
  · obtain ⟨h1, h2, h3⟩ := h
    exact ⟨_, RGBtoHSP.process_branch2 r g b a h1 h2 h3
        (lt_of_le_of_lt hb (lt_of_lt_of_le h3 h1)).ne',
      HSPtoRGB.round_trip_branch2 r g b a hb h3 h1⟩
  · obtain ⟨h1, h2, h3⟩ := h
    exact ⟨_, RGBtoHSP.process_branch3 r g b a h1 h2 h3 (lt_of_le_of_lt hr h1).ne',
      HSPtoRGB.round_trip_branch3 r g b a hb h3 h1⟩
  · obtain ⟨h1, h2⟩ := h
    exact ⟨_, RGBtoHSP.process_branch4 r g b a h1 h2
        (lt_of_le_of_lt hr (lt_of_lt_of_le h1 h2)).ne',
      HSPtoRGB.round_trip_branch4 r g b a hr h1 h2⟩
  · obtain ⟨h1, h2⟩ := h
    exact ⟨_, RGBtoHSP.process_branch5 r g b a h1 h2 (lt_of_le_of_lt hg h2).ne',
      HSPtoRGB.round_trip_branch5 r g b a hr h1 h2⟩
  · obtain ⟨h1, h2⟩ := h
    exact ⟨_, RGBtoHSP.process_branch6 r g b a h1 h2 (lt_of_le_of_lt hr h2).ne',
      HSPtoRGB.round_trip_branch6 r g b a hg h1 h2⟩

/-- Witness for C1: the pixel `(1/2, 1/4, 0)`, whose minimum channel is `0`. -/
theorem round_trip_rgb_hsp_rgb_witness :
    ∃ hsp, RGBtoHSP.SaturationKernel.process Real.sqrt ⟨1 / 2, 1 / 4, 0, 1⟩
        = Except.ok (some hsp)
      ∧ HSPtoRGB.SaturationKernel.process Real.sqrt hsp
        = Except.ok (some ⟨1 / 2, 1 / 4, 0, 1⟩) :=
  round_trip_rgb_hsp_rgb (1 / 2) (1 / 4) 0 1 (by norm_num) (by norm_num) (by norm_num)
    (by norm_num)

/-- C2 (achromatic pixel).  The claim says that a gray pixel `(g, g, g)` is
mapped to `(0, 0, g)`.  The kernel assigns `hue = 0` and `sat = 0` and then
executes `return` before the brightness is computed and before `dst` is
assigned: nothing is written, and the output pixel keeps its previous
content `old`, whatever `g` and the alpha `a` are. -/
theorem gray_pixel_is_not_written (g a : ℝ) (old : Float4 ℝ) :
    RGBtoHSP.SaturationKernel.process Real.sqrt ⟨g, g, g, a⟩ = Except.ok none
      ∧ commit old (RGBtoHSP.SaturationKernel.process Real.sqrt ⟨g, g, g, a⟩)
          = Except.ok old := by
  refine ⟨RGBtoHSP.process_gray g a, ?_⟩
  rw [RGBtoHSP.process_gray g a]
  rfl

/-- C3, counterexample.  The HSP pixel `(hue, sat, p) = (0, 1, 1)` lies in the
claimed domain; the HSP-to-RGB kernel writes a pixel for it, and the
RGB-to-HSP kernel applied to that pixel does not give `(0, 1, 1)` back. -/
theorem hue_zero_does_not_come_back :
    ∃ rgb, HSPtoRGB.SaturationKernel.process Real.sqrt ⟨0, 1, 1, 1⟩ = Except.ok (some rgb)
      ∧ RGBtoHSP.SaturationKernel.process Real.sqrt rgb ≠ Except.ok (some ⟨0, 1, 1, 1⟩) := by
  obtain ⟨px, h1, h2⟩ := back_sector0 0 1 1 1 (by norm_num) (by norm_num) (by norm_num)
    (by norm_num) (by norm_num)
  refine ⟨px, h1, ?_⟩
  rw [h2, if_pos rfl]
  intro h
  simp at h

/-- C3, amended (round trip HSP → RGB → HSP).  For `0 ≤ hue < 1`, `0 < sat ≤ 1`
and `0 < p` the HSP-to-RGB kernel writes a pixel `rgb`, and the RGB-to-HSP
kernel applied to `rgb` writes back `sat` and `p` exactly, and `hue` exactly
when `hue ≠ 0`; for `hue = 0` the hue written back is `1`. -/
theorem round_trip_hsp_rgb_hsp (hue sat p a : ℝ) (hh : 0 ≤ hue ∧ hue < 1)
    (hs : 0 < sat ∧ sat ≤ 1) (hp : 0 < p) :
    ∃ rgb, HSPtoRGB.SaturationKernel.process Real.sqrt ⟨hue, sat, p, a⟩
        = Except.ok (some rgb)
      ∧ RGBtoHSP.SaturationKernel.process Real.sqrt rgb
        = Except.ok (some ⟨if hue = 0 then 1 else hue, sat, p, a⟩) := by
  rcases HSPtoRGB.sector_cases hue with h0 | ⟨l, u⟩ | ⟨l, u⟩ | ⟨l, u⟩ | ⟨l, u⟩ | l
  · exact back_sector0 hue sat p a hs.1 hs.2 hp hh.1 h0
  · rw [if_neg (lt_of_lt_of_le (by norm_num) l).ne']
    exact back_sector1 hue sat p a hs.1 hs.2 hp l u
  · rw [if_neg (lt_of_lt_of_le (by norm_num) l).ne']
    exact back_sector2 hue sat p a hs.1 hs.2 hp l u
  · rw [if_neg (lt_of_lt_of_le (by norm_num) l).ne']
    exact back_sector3 hue sat p a hs.1 hs.2 hp l u
  · rw [if_neg (lt_of_lt_of_le (by norm_num) l).ne']
    exact back_sector4 hue sat p a hs.1 hs.2 hp l u
  · rw [if_neg (lt_of_lt_of_le (by norm_num) l).ne']
    exact back_sector5 hue sat p a hs.1 hs.2 hp l hh.2.le

/-- Witness for C3: `(hue, sat, p) = (1/2, 1/2, 1)`. -/
theorem round_trip_hsp_rgb_hsp_witness :
    ∃ rgb, HSPtoRGB.SaturationKernel.process Real.sqrt ⟨1 / 2, 1 / 2, 1, 1⟩
        = Except.ok (some rgb)
      ∧ RGBtoHSP.SaturationKernel.process Real.sqrt rgb
        = Except.ok (some ⟨if (1 / 2 : ℝ) = 0 then 1 else 1 / 2, 1 / 2, 1, 1⟩) :=
  round_trip_hsp_rgb_hsp (1 / 2) (1 / 2) 1 1 (by norm_num) (by norm_num) (by norm_num)

/-- C4, counterexample.  Pure red `(1, 0, 0)` has channels in `[0, 1]`, not
all equal, and the hue written for it is not below `1`. -/
theorem hue_of_pure_red_is_not_below_one :
    ∃ px, RGBtoHSP.SaturationKernel.process Real.sqrt ⟨1, 0, 0, 1⟩ = Except.ok (some px)
      ∧ ¬ px.x < 1 := by
  refine ⟨_, RGBtoHSP.process_branch1 1 0 0 1 (by norm_num) (by norm_num) (by norm_num)
    (by norm_num) (by norm_num), ?_⟩
  norm_num

/-- C4, amended (hue range).  For non-negative channels (in particular in
`[0, 1]`) that are not all equal the kernel writes a pixel whose hue satisfies
`0 ≤ hue ≤ 1`. -/
theorem hue_range_closed (r g b a : ℝ) (hr : 0 ≤ r) (hg : 0 ≤ g) (hb : 0 ≤ b)
    (hne : ¬ (r = g ∧ r = b)) :
    ∃ px, RGBtoHSP.SaturationKernel.process Real.sqrt ⟨r, g, b, a⟩ = Except.ok (some px)
      ∧ 0 ≤ px.x ∧ px.x ≤ 1 := by
  obtain ⟨hue, hp, h0, h1, -⟩ := RGBtoHSP.process_nonneg r g b a hr hg hb hne
  exact ⟨_, hp, h0.le, h1⟩

/-- Witness for C4: the pixel `(1/2, 1/4, 0)`. -/
theorem hue_range_closed_witness :
    ∃ px, RGBtoHSP.SaturationKernel.process Real.sqrt ⟨1 / 2, 1 / 4, 0, 1⟩
        = Except.ok (some px)
      ∧ 0 ≤ px.x ∧ px.x ≤ 1 :=
  hue_range_closed (1 / 2) (1 / 4) 0 1 (by norm_num) (by norm_num) (by norm_num)
    (by norm_num)

/-- C5 (saturation).  For non-negative channels (in particular in `[0, 1]`)
that are not all equal the saturation written is `1 - min / max`, the maximum
being positive, and it lies in `[0, 1]`. -/
theorem saturation_is_one_minus_min_over_max (r g b a : ℝ) (hr : 0 ≤ r) (hg : 0 ≤ g)
    (hb : 0 ≤ b) (hne : ¬ (r = g ∧ r = b)) :
    ∃ px, RGBtoHSP.SaturationKernel.process Real.sqrt ⟨r, g, b, a⟩ = Except.ok (some px)
      ∧ 0 < max r (max g b)
      ∧ px.y = 1 - min r (min g b) / max r (max g b) ∧ 0 ≤ px.y ∧ px.y ≤ 1 := by
  obtain ⟨hue, hp, -⟩ := RGBtoHSP.process_nonneg r g b a hr hg hb hne
  have hmin : 0 ≤ min r (min g b) := le_min hr (le_min hg hb)
  have hle : min r (min g b) ≤ max r (max g b) := (min_le_left _ _).trans (le_max_left _ _)
  have hmax : 0 < max r (max g b) := by
    rcases (hmin.trans hle).lt_or_eq with h | h
    · exact h
    · exfalso
      have h1 : r ≤ 0 := h ▸ le_max_left r (max g b)
      have h2 : g ≤ 0 := h ▸ (le_max_left g b).trans (le_max_right r (max g b))
      have h3 : b ≤ 0 := h ▸ (le_max_right g b).trans (le_max_right r (max g b))
      exact hne ⟨by linarith, by linarith⟩
  have hq0 : 0 ≤ min r (min g b) / max r (max g b) := div_nonneg hmin hmax.le
  have hq1 : min r (min g b) / max r (max g b) ≤ 1 := (div_le_one hmax).mpr hle
  refine ⟨_, hp, hmax, rfl, ?_, ?_⟩
  · show 0 ≤ 1 - min r (min g b) / max r (max g b)
    linarith
  · show 1 - min r (min g b) / max r (max g b) ≤ 1
    linarith

/-- Witness for C5: the pixel `(1/2, 1/4, 0)`. -/
theorem saturation_is_one_minus_min_over_max_witness :
    ∃ px, RGBtoHSP.SaturationKernel.process Real.sqrt ⟨1 / 2, 1 / 4, 0, 1⟩
        = Except.ok (some px)
      ∧ 0 < max (1 / 2 : ℝ) (max (1 / 4) 0)
      ∧ px.y = 1 - min (1 / 2 : ℝ) (min (1 / 4) 0) / max (1 / 2 : ℝ) (max (1 / 4) 0)
      ∧ 0 ≤ px.y ∧ px.y ≤ 1 :=
  saturation_is_one_minus_min_over_max (1 / 2) (1 / 4) 0 1 (by norm_num) (by norm_num)
    (by norm_num) (by norm_num)

/-- C7 (no division by zero in RGB-to-HSP).  For non-negative channels (in
particular in `[0, 1]`) a run of the RGB-to-HSP kernel ends without a fault:
every division it evaluates has a non-zero divisor.  Black and the other gray
pixels take the early return and evaluate no division at all. -/
theorem rgbToHsp_divides_by_nonzero (r g b a : ℝ) (hr : 0 ≤ r) (hg : 0 ≤ g) (hb : 0 ≤ b) :
    ∃ res, RGBtoHSP.SaturationKernel.process Real.sqrt ⟨r, g, b, a⟩ = Except.ok res := by
  by_cases hne : r = g ∧ r = b
  · obtain ⟨rfl, rfl⟩ := hne
    exact ⟨none, RGBtoHSP.process_gray r a⟩
  · obtain ⟨hue, hp, -⟩ := RGBtoHSP.process_nonneg r g b a hr hg hb hne
    exact ⟨_, hp⟩

/-- Witness for C7: black. -/
theorem rgbToHsp_divides_by_nonzero_witness :
    ∃ res, RGBtoHSP.SaturationKernel.process Real.sqrt ⟨0, 0, 0, 1⟩ = Except.ok res :=
  rgbToHsp_divides_by_nonzero 0 0 0 1 (by norm_num) (by norm_num) (by norm_num)

/-- C8, counterexample.  For pure red `(1, 0, 0)` the hue written is `1`, not `0`. -/
theorem pure_red_hue_is_not_zero :
    ∃ px, RGBtoHSP.SaturationKernel.process Real.sqrt ⟨1, 0, 0, 1⟩ = Except.ok (some px)
      ∧ px.x = 1 ∧ px.x ≠ 0 := by
  refine ⟨_, RGBtoHSP.process_branch1 1 0 0 1 (by norm_num) (by norm_num) (by norm_num)
    (by norm_num) (by norm_num), ?_, ?_⟩ <;> norm_num

/-- C8, amended (pure red, forward).  For `0 < r` (in particular `0 < r ≤ 1`)
the pixel `(r, 0, 0)` is mapped to hue `1`, saturation `1` and brightness
`r * sqrt 0.299`; in particular `(1, 0, 0)` is mapped to `(1, 1, sqrt 0.299)`. -/
theorem pure_red_forward (r a : ℝ) (hr : 0 < r) :
    RGBtoHSP.SaturationKernel.process Real.sqrt ⟨r, 0, 0, a⟩
        = Except.ok (some ⟨1, 1, r * √(299 / 1000), a⟩)
      ∧ RGBtoHSP.SaturationKernel.process Real.sqrt ⟨1, 0, 0, a⟩
        = Except.ok (some ⟨1, 1, √(299 / 1000), a⟩) := by
  have key : ∀ t : ℝ, 0 < t → RGBtoHSP.SaturationKernel.process Real.sqrt ⟨t, 0, 0, a⟩
      = Except.ok (some ⟨1, 1, t * √(299 / 1000), a⟩) := by
    intro t ht
    rw [RGBtoHSP.process_branch1 t 0 0 a ht.le ht.le le_rfl ht ht.ne']
    have e1 : (6 / 6 - 1 / 6 * (0 - 0) / (t - 0) : ℝ) = 1 := by norm_num
    have e2 : (1 - 0 / t : ℝ) = 1 := by norm_num
    have e3 : √(t * t * (299 / 1000) + 0 * 0 * (587 / 1000) + 0 * 0 * (114 / 1000))
        = t * √(299 / 1000) := by
      have e4 : t * t * (299 / 1000) + 0 * 0 * (587 / 1000) + 0 * 0 * (114 / 1000)
          = t * t * (299 / 1000) := by ring
      rw [e4, Real.sqrt_mul (mul_self_nonneg t), Real.sqrt_mul_self ht.le]
    rw [e1, e2, e3]
  refine ⟨key r hr, ?_⟩
  have h1 := key 1 one_pos
  rwa [one_mul] at h1

/-- Witness for C8: `r = 1/2`. -/
theorem pure_red_forward_witness :
    RGBtoHSP.SaturationKernel.process Real.sqrt ⟨1 / 2, 0, 0, 1⟩
        = Except.ok (some ⟨1, 1, 1 / 2 * √(299 / 1000), 1⟩)
      ∧ RGBtoHSP.SaturationKernel.process Real.sqrt ⟨1, 0, 0, 1⟩
        = Except.ok (some ⟨1, 1, √(299 / 1000), 1⟩) :=
  pure_red_forward (1 / 2) 1 (by norm_num)

/-- C9 (pure green and pure blue, forward).  Pure green `(0, 1, 0)` is mapped
to `(2/6, 1, sqrt 0.587)` and pure blue `(0, 0, 1)` to `(4/6, 1, sqrt 0.114)`,
whatever the alpha. -/
theorem pure_green_and_blue_forward (a : ℝ) :
    RGBtoHSP.SaturationKernel.process Real.sqrt ⟨0, 1, 0, a⟩
        = Except.ok (some ⟨2 / 6, 1, √(587 / 1000), a⟩)
      ∧ RGBtoHSP.SaturationKernel.process Real.sqrt ⟨0, 0, 1, a⟩
        = Except.ok (some ⟨4 / 6, 1, √(114 / 1000), a⟩) := by
  constructor
  · rw [RGBtoHSP.process_branch3 0 1 0 a (by norm_num) (by norm_num) (by norm_num)
      (by norm_num)]
    norm_num
  · rw [RGBtoHSP.process_branch5 0 0 1 a (by norm_num) (by norm_num) (by norm_num)]
    norm_num

/-- C10, counterexample.  In IEEE arithmetic the input `(hue, sat, p) = (0, 1, 1e20)`,
with `p ≥ 0`, is not mapped to `(p / sqrt 0.299, 0, 0)`: the red written is
infinite and the green written is NaN, not `0`. -/
theorem pure_red_inverse_overflows :
    ∃ px, HSPtoRGB.SaturationKernel.processIEEE IEEE.binary
        ⟨IEEE.f32 0, IEEE.f32 1, IEEE.f32 (10 ^ 20), IEEE.f32 1⟩ = some px
      ∧ px.x = IEEE.FP.inf false ∧ px.y = IEEE.FP.nan ∧ px.y ≠ IEEE.FP.fin 0 :=
  ⟨⟨IEEE.FP.inf false, IEEE.FP.nan, IEEE.FP.fin 0, IEEE.FP.fin 1⟩, by decide!, rfl, rfl,
    by decide⟩

/-- C10, amended (pure red, inverse, in exact real arithmetic).  For `p ≥ 0` the
HSP pixel `(hue = 0, sat = 1, p)` is mapped to `(p / sqrt 0.299, 0, 0)`; in
particular `(0, 1, sqrt 0.299)` is mapped to `(1, 0, 0)`. -/
theorem pure_red_inverse (p a : ℝ) (hp : 0 ≤ p) :
    HSPtoRGB.SaturationKernel.process Real.sqrt ⟨0, 1, p, a⟩
        = Except.ok (some ⟨p / √(299 / 1000), 0, 0, a⟩)
      ∧ HSPtoRGB.SaturationKernel.process Real.sqrt ⟨0, 1, √(299 / 1000), a⟩
        = Except.ok (some ⟨1, 0, 0, a⟩) := by
  have key : ∀ q : ℝ, 0 ≤ q → HSPtoRGB.SaturationKernel.process Real.sqrt ⟨0, 1, q, a⟩
      = Except.ok (some ⟨q / √(299 / 1000), 0, 0, a⟩) := by
    intro q hq
    rw [HSPtoRGB.process_alternate_sector0 0 1 q a (by norm_num) (by norm_num)]
    have e1 : HSPtoRGB.altMax Real.sqrt (299 / 1000) (587 / 1000) (6 * (0 - 0 / 6)) q
        = q / √(299 / 1000) := by
      unfold HSPtoRGB.altMax
      have e2 : (299 / 1000 + 587 / 1000 * (6 * (0 - 0 / 6)) * (6 * (0 - 0 / 6)) : ℝ)
          = 299 / 1000 := by norm_num
      rw [e2, Real.sqrt_div (mul_self_nonneg q), Real.sqrt_mul_self hq]
    have e3 : HSPtoRGB.altMid Real.sqrt (299 / 1000) (587 / 1000) (6 * (0 - 0 / 6)) q = 0 := by
      unfold HSPtoRGB.altMid
      norm_num
    rw [e1, e3]
  refine ⟨key p hp, ?_⟩
  rw [key _ (Real.sqrt_nonneg _), div_self]
  exact (Real.sqrt_pos.mpr (by norm_num)).ne'

/-- Witness for C10: `p = 2`. -/
theorem pure_red_inverse_witness :
    HSPtoRGB.SaturationKernel.process Real.sqrt ⟨0, 1, 2, 1⟩
        = Except.ok (some ⟨2 / √(299 / 1000), 0, 0, 1⟩)
      ∧ HSPtoRGB.SaturationKernel.process Real.sqrt ⟨0, 1, √(299 / 1000), 1⟩
        = Except.ok (some ⟨1, 0, 0, 1⟩) :=
  pure_red_inverse 2 1 (by norm_num)

/-- C14, counterexample.  The input `(hue, sat, p) = (0, 0, 1)` has `sat ≤ 0`
and hue in the sector `R>G>B`, whose minimum role is blue; the blue written
is `1`, not `0`. -/
theorem zero_saturation_min_role_is_not_zero :
    ∃ px, HSPtoRGB.SaturationKernel.process Real.sqrt ⟨0, 0, 1, 1⟩ = Except.ok (some px)
      ∧ HSPtoRGB.sectorIndex (0 : ℝ) = HSPtoRGB.Sector.RGB
      ∧ (HSPtoRGB.sectorIndex (0 : ℝ)).minRole px = 1
      ∧ (HSPtoRGB.sectorIndex (0 : ℝ)).minRole px ≠ 0 := by
  have hk := HSPtoRGB.sectorIndex_sector0 0 (by norm_num)
  refine ⟨_, HSPtoRGB.process_eq_chromatic 0 0 1 1 (by norm_num), hk, ?_⟩
  rw [hk, HSPtoRGB.chromaticSector_gray]
  exact ⟨rfl, one_ne_zero⟩

/-- C14, amended (branch selection).  The alternate formula is used exactly for
`sat ≥ 1`, that is `1 - sat ≤ 0`: the kernel then writes the alternate body
of the hue's sector, whose minimum-role channel is `0`.  For `sat < 1`, `sat ≤ 0`
included, the kernel writes the chromatic body of the hue's sector. -/
theorem alternate_branch_selection (hue sat p a : ℝ) :
    (1 ≤ sat →
        HSPtoRGB.SaturationKernel.process Real.sqrt ⟨hue, sat, p, a⟩
          = Except.ok (some
              (HSPtoRGB.alternateSector Real.sqrt (HSPtoRGB.sectorIndex hue) hue p a))
        ∧ (HSPtoRGB.sectorIndex hue).minRole
            (HSPtoRGB.alternateSector Real.sqrt (HSPtoRGB.sectorIndex hue) hue p a) = 0)
      ∧ (sat < 1 →
        HSPtoRGB.SaturationKernel.process Real.sqrt ⟨hue, sat, p, a⟩
          = Except.ok (some
              (HSPtoRGB.chromaticSector Real.sqrt (HSPtoRGB.sectorIndex hue) hue sat p a))) := by
  constructor
  · intro hs
    exact ⟨HSPtoRGB.process_eq_alternate hue sat p a (by linarith),
      HSPtoRGB.alternateSector_minRole _ hue p a⟩
  · intro hs
    exact HSPtoRGB.process_eq_chromatic hue sat p a (by linarith)

/-- Witness for C14: `sat = 1` for the alternate half, `sat = 1/2` for the
chromatic half, at `(hue, p) = (1/2, 1)`. -/
theorem alternate_branch_selection_witness :
    (HSPtoRGB.SaturationKernel.process Real.sqrt ⟨1 / 2, 1, 1, 1⟩
          = Except.ok (some
              (HSPtoRGB.alternateSector Real.sqrt (HSPtoRGB.sectorIndex (1 / 2 : ℝ)) (1 / 2) 1 1))
        ∧ (HSPtoRGB.sectorIndex (1 / 2 : ℝ)).minRole
            (HSPtoRGB.alternateSector Real.sqrt (HSPtoRGB.sectorIndex (1 / 2 : ℝ)) (1 / 2) 1 1)
          = 0)
      ∧ HSPtoRGB.SaturationKernel.process Real.sqrt ⟨1 / 2, 1 / 2, 1, 1⟩
          = Except.ok (some
              (HSPtoRGB.chromaticSector Real.sqrt (HSPtoRGB.sectorIndex (1 / 2 : ℝ)) (1 / 2)
                (1 / 2) 1 1)) :=
  ⟨(alternate_branch_selection (1 / 2) 1 1 1).1 (by norm_num),
    (alternate_branch_selection (1 / 2) (1 / 2) 1 1).2 (by norm_num)⟩

/-- C15, counterexample.  In IEEE arithmetic the input `(hue, sat, p) = (0, 1, 1e20)`,
with `p ≥ 0`, is mapped to `(inf, NaN, 0)`, and the weighted quadratic mean of
these channels is NaN, not `p`. -/
theorem brightness_is_lost_on_overflow :
    ∃ px, HSPtoRGB.SaturationKernel.processIEEE IEEE.binary
        ⟨IEEE.f32 0, IEEE.f32 1, IEEE.f32 (10 ^ 20), IEEE.f32 1⟩ = some px
      ∧ IEEE.binary.sqrt32
          (IEEE.binary.add32
            (IEEE.binary.add32
              (IEEE.binary.mul32 (IEEE.f32 (299 / 1000)) (IEEE.binary.mul32 px.x px.x))
              (IEEE.binary.mul32 (IEEE.f32 (587 / 1000)) (IEEE.binary.mul32 px.y px.y)))
            (IEEE.binary.mul32 (IEEE.f32 (114 / 1000)) (IEEE.binary.mul32 px.z px.z)))
        = IEEE.FP.nan :=
  ⟨⟨IEEE.FP.inf false, IEEE.FP.nan, IEEE.FP.fin 0, IEEE.FP.fin 1⟩, by decide!, by decide!⟩

/-- C15, amended (brightness preservation, in exact real arithmetic).  For every
hue, every saturation and every `p ≥ 0` the pixel `(R, G, B)` written by the
HSP-to-RGB kernel satisfies `sqrt (0.299 R² + 0.587 G² + 0.114 B²) = p`, in the
chromatic and in the alternate branch. -/
theorem brightness_is_preserved (hue sat p a : ℝ) (hp : 0 ≤ p) :
    ∃ px, HSPtoRGB.SaturationKernel.process Real.sqrt ⟨hue, sat, p, a⟩ = Except.ok (some px)
      ∧ √(299 / 1000 * px.x ^ 2 + 587 / 1000 * px.y ^ 2 + 114 / 1000 * px.z ^ 2) = p :=
  ⟨_, HSPtoRGB.process_eq_sectorBody hue sat p a,
    HSPtoRGB.sectorBody_luma (HSPtoRGB.sectorIndex hue) hue sat p a hp⟩

/-- Witness for C15: `(hue, sat, p) = (1/2, 1/2, 1)`. -/
theorem brightness_is_preserved_witness :
    ∃ px, HSPtoRGB.SaturationKernel.process Real.sqrt ⟨1 / 2, 1 / 2, 1, 1⟩
        = Except.ok (some px)
      ∧ √(299 / 1000 * px.x ^ 2 + 587 / 1000 * px.y ^ 2 + 114 / 1000 * px.z ^ 2) = 1 :=
  brightness_is_preserved (1 / 2) (1 / 2) 1 1 (by norm_num)

/-- C16, counterexample.  In IEEE arithmetic the input
`(hue, sat, p) = (0.05, 1e-10, 0.5)`, with hue in `[0, 1/6)`, `0 < sat < 1` and
`p > 0`, is mapped to `(0.5, 0.5, 0.5)`: `red = blue / minOverMax` rounds back
to `blue`, so the maximum (red) is not above the minimum (blue). -/
theorem ordering_is_lost_to_rounding :
    ∃ px, HSPtoRGB.SaturationKernel.processIEEE IEEE.binary
        ⟨IEEE.f32 (5 / 100), IEEE.f32 (1 / 10 ^ 10), IEEE.f32 (1 / 2), IEEE.f32 1⟩ = some px
      ∧ px.x = IEEE.FP.fin (1 / 2) ∧ px.z = IEEE.FP.fin (1 / 2)
      ∧ IEEE.FP.lt px.z px.x = false :=
  ⟨⟨IEEE.FP.fin (1 / 2), IEEE.FP.fin (1 / 2), IEEE.FP.fin (1 / 2), IEEE.FP.fin 1⟩, by decide!,
    rfl, rfl, by decide!⟩

/-- C16, amended (sector channel ordering, in exact real arithmetic).  For
`0 ≤ hue ≤ 1`, `0 < sat < 1` and `0 < p` the pixel written by the HSP-to-RGB
kernel has its channels ordered as the comment of the selected branch says,
`max ≥ mid ≥ min` with `max > min`: `(R, G, B)` for hue in `[0, 1/6)`,
`(G, R, B)` for `[1/6, 2/6)`, `(G, B, R)` for `[2/6, 3/6)`, `(B, G, R)` for
`[3/6, 4/6)`, `(B, R, G)` for `[4/6, 5/6)` and `(R, B, G)` for `[5/6, 1]`. -/
theorem sector_channel_ordering (hue sat p a : ℝ) (hh : 0 ≤ hue ∧ hue ≤ 1)
    (hs : 0 < sat ∧ sat < 1) (hp : 0 < p) :
    ∃ px, HSPtoRGB.SaturationKernel.process Real.sqrt ⟨hue, sat, p, a⟩ = Except.ok (some px)
      ∧ (hue < 1 / 6 → px.y ≤ px.x ∧ px.z ≤ px.y ∧ px.z < px.x)
      ∧ (1 / 6 ≤ hue ∧ hue < 2 / 6 → px.x ≤ px.y ∧ px.z ≤ px.x ∧ px.z < px.y)
      ∧ (2 / 6 ≤ hue ∧ hue < 3 / 6 → px.z ≤ px.y ∧ px.x ≤ px.z ∧ px.x < px.y)
      ∧ (3 / 6 ≤ hue ∧ hue < 4 / 6 → px.y ≤ px.z ∧ px.x ≤ px.y ∧ px.x < px.z)
      ∧ (4 / 6 ≤ hue ∧ hue < 5 / 6 → px.x ≤ px.z ∧ px.y ≤ px.x ∧ px.y < px.z)
      ∧ (5 / 6 ≤ hue → px.z ≤ px.x ∧ px.y ≤ px.z ∧ px.y < px.x) := by
  rcases HSPtoRGB.sector_cases hue with h0 | ⟨l, u⟩ | ⟨l, u⟩ | ⟨l, u⟩ | ⟨l, u⟩ | l
  · obtain ⟨r, g, b, hproc, -, hlt, hmd, -, -⟩ :=
      HSPtoRGB.sector0_spec hue sat p a hs.1 hs.2.le hp h0
    have hd : 0 ≤ r - b := by linarith
    have hlo := mul_nonneg (by linarith [hh.1, hh.2] : (0 : ℝ) ≤ 6 * (hue - 0 / 6)) hd
    have hup := mul_nonneg (by linarith [hh.1, hh.2] : (0 : ℝ) ≤ 1 - 6 * (hue - 0 / 6)) hd
    refine ⟨_, hproc, ?_, ?_, ?_, ?_, ?_, ?_⟩
    · intro _
      dsimp only
      exact ⟨by linarith, by linarith, hlt⟩
    · intro hb
      exfalso
      linarith [hb.1, hb.2]
    · intro hb
      exfalso
      linarith [hb.1, hb.2]
    · intro hb
      exfalso
      linarith [hb.1, hb.2]
    · intro hb
      exfalso
      linarith [hb.1, hb.2]
    · intro hb
      exfalso
      linarith
  · obtain ⟨r, g, b, hproc, -, hlt, hmd, -, -⟩ :=
      HSPtoRGB.sector1_spec hue sat p a hs.1 hs.2.le hp l u
    have hd : 0 ≤ g - b := by linarith
    have hlo := mul_nonneg (by linarith [hh.1, hh.2] : (0 : ℝ) ≤ 6 * (-hue + 2 / 6)) hd
    have hup := mul_nonneg (by linarith [hh.1, hh.2] : (0 : ℝ) ≤ 1 - 6 * (-hue + 2 / 6)) hd
    refine ⟨_, hproc, ?_, ?_, ?_, ?_, ?_, ?_⟩
    · intro hb
      exfalso
      linarith
    · intro _
      dsimp only
      exact ⟨by linarith, by linarith, hlt⟩
    · intro hb
      exfalso
      linarith [hb.1, hb.2]
    · intro hb
      exfalso
      linarith [hb.1, hb.2]
    · intro hb
      exfalso
      linarith [hb.1, hb.2]
    · intro hb
      exfalso
      linarith
  · obtain ⟨r, g, b, hproc, -, hlt, hmd, -, -⟩ :=
      HSPtoRGB.sector2_spec hue sat p a hs.1 hs.2.le hp l u
    have hd : 0 ≤ g - r := by linarith
    have hlo := mul_nonneg (by linarith [hh.1, hh.2] : (0 : ℝ) ≤ 6 * (hue - 2 / 6)) hd
    have hup := mul_nonneg (by linarith [hh.1, hh.2] : (0 : ℝ) ≤ 1 - 6 * (hue - 2 / 6)) hd
    refine ⟨_, hproc, ?_, ?_, ?_, ?_, ?_, ?_⟩
    · intro hb
      exfalso
      linarith
    · intro hb
      exfalso
      linarith [hb.1, hb.2]
    · intro _
      dsimp only
      exact ⟨by linarith, by linarith, hlt⟩
    · intro hb
      exfalso
      linarith [hb.1, hb.2]
    · intro hb
      exfalso
      linarith [hb.1, hb.2]
    · intro hb
      exfalso
      linarith
  · obtain ⟨r, g, b, hproc, -, hlt, hmd, -, -⟩ :=
      HSPtoRGB.sector3_spec hue sat p a hs.1 hs.2.le hp l u
    have hd : 0 ≤ b - r := by linarith
    have hlo := mul_nonneg (by linarith [hh.1, hh.2] : (0 : ℝ) ≤ 6 * (-hue + 4 / 6)) hd
    have hup := mul_nonneg (by linarith [hh.1, hh.2] : (0 : ℝ) ≤ 1 - 6 * (-hue + 4 / 6)) hd
    refine ⟨_, hproc, ?_, ?_, ?_, ?_, ?_, ?_⟩
    · intro hb
      exfalso
      linarith
    · intro hb
      exfalso
      linarith [hb.1, hb.2]
    · intro hb
      exfalso
      linarith [hb.1, hb.2]
    · intro _
      dsimp only
      exact ⟨by linarith, by linarith, hlt⟩
    · intro hb
      exfalso
      linarith [hb.1, hb.2]
    · intro hb
      exfalso
      linarith
  · obtain ⟨r, g, b, hproc, -, hlt, hmd, -, -⟩ :=
      HSPtoRGB.sector4_spec hue sat p a hs.1 hs.2.le hp l u
    have hd : 0 ≤ b - g := by linarith
    have hlo := mul_nonneg (by linarith [hh.1, hh.2] : (0 : ℝ) ≤ 6 * (hue - 4 / 6)) hd
    have hup := mul_nonneg (by linarith [hh.1, hh.2] : (0 : ℝ) ≤ 1 - 6 * (hue - 4 / 6)) hd
    refine ⟨_, hproc, ?_, ?_, ?_, ?_, ?_, ?_⟩
    · intro hb
      exfalso
      linarith
    · intro hb
      exfalso
      linarith [hb.1, hb.2]
    · intro hb
      exfalso
      linarith [hb.1, hb.2]
    · intro hb
      exfalso
      linarith [hb.1, hb.2]
    · intro _
      dsimp only
      exact ⟨by linarith, by linarith, hlt⟩
    · intro hb
      exfalso
      linarith
  · obtain ⟨r, g, b, hproc, -, hlt, hmd, -, -⟩ :=
      HSPtoRGB.sector5_spec hue sat p a hs.1 hs.2.le hp l
    have hd : 0 ≤ r - g := by linarith
    have hlo := mul_nonneg (by linarith [hh.1, hh.2] : (0 : ℝ) ≤ 6 * (-hue + 6 / 6)) hd
    have hup := mul_nonneg (by linarith [hh.1, hh.2] : (0 : ℝ) ≤ 1 - 6 * (-hue + 6 / 6)) hd
    refine ⟨_, hproc, ?_, ?_, ?_, ?_, ?_, ?_⟩
    · intro hb
      exfalso
      linarith
    · intro hb
      exfalso
      linarith [hb.1, hb.2]
    · intro hb
      exfalso
      linarith [hb.1, hb.2]
    · intro hb
      exfalso
      linarith [hb.1, hb.2]
    · intro hb
      exfalso
      linarith [hb.1, hb.2]
    · intro _
      dsimp only
      exact ⟨by linarith, by linarith, hlt⟩

/-- Witness for C16: `(hue, sat, p) = (1/2, 1/2, 1)`. -/
theorem sector_channel_ordering_witness :
    ∃ px, HSPtoRGB.SaturationKernel.process Real.sqrt ⟨1 / 2, 1 / 2, 1, 1⟩
        = Except.ok (some px)
      ∧ ((1 / 2 : ℝ) < 1 / 6 → px.y ≤ px.x ∧ px.z ≤ px.y ∧ px.z < px.x)
      ∧ (1 / 6 ≤ (1 / 2 : ℝ) ∧ (1 / 2 : ℝ) < 2 / 6 → px.x ≤ px.y ∧ px.z ≤ px.x ∧ px.z < px.y)
      ∧ (2 / 6 ≤ (1 / 2 : ℝ) ∧ (1 / 2 : ℝ) < 3 / 6 → px.z ≤ px.y ∧ px.x ≤ px.z ∧ px.x < px.y)
      ∧ (3 / 6 ≤ (1 / 2 : ℝ) ∧ (1 / 2 : ℝ) < 4 / 6 → px.y ≤ px.z ∧ px.x ≤ px.y ∧ px.x < px.z)
      ∧ (4 / 6 ≤ (1 / 2 : ℝ) ∧ (1 / 2 : ℝ) < 5 / 6 → px.x ≤ px.z ∧ px.y ≤ px.x ∧ px.y < px.z)
      ∧ (5 / 6 ≤ (1 / 2 : ℝ) → px.z ≤ px.x ∧ px.y ≤ px.z ∧ px.y < px.x) :=
  sector_channel_ordering (1 / 2) (1 / 2) 1 1 (by norm_num) (by norm_num) (by norm_num)

/-- C12 (alpha pass-through).  The claim holds for the HSP-to-RGB kernel on
every input, and for the RGB-to-HSP kernel whenever it writes a pixel.  On a
gray pixel `(g, g, g, a)` the RGB-to-HSP kernel returns before `dst` is
assigned, so the alpha found in the output pixel is the alpha `old.w` that
was there before, not `a`. -/
theorem alpha_of_gray_pixel_is_not_written (g a : ℝ) (old : Float4 ℝ) :
    (∃ out, commit old (RGBtoHSP.SaturationKernel.process Real.sqrt ⟨g, g, g, a⟩)
        = Except.ok out ∧ out.w = old.w)
      ∧ (∀ hue sat p : ℝ, ∃ px,
          HSPtoRGB.SaturationKernel.process Real.sqrt ⟨hue, sat, p, a⟩ = Except.ok (some px)
            ∧ px.w = a)
      ∧ (∀ (r g' b : ℝ) (px : Float4 ℝ),
          RGBtoHSP.SaturationKernel.process Real.sqrt ⟨r, g', b, a⟩ = Except.ok (some px)
            → px.w = a) := by
  refine ⟨⟨old, ?_, rfl⟩, ?_, ?_⟩
  · rw [RGBtoHSP.process_gray g a]
    rfl
  · intro hue sat p
    exact ⟨_, HSPtoRGB.process_eq_sectorBody hue sat p a, HSPtoRGB.sectorBody_alpha _ hue sat p a⟩
  · intro r g' b px h
    exact RGBtoHSP.process_alpha r g' b a px h

/-- C17, counterexample.  In IEEE arithmetic the triple `(3e38, -3e38, 2e38)` and its
shift `(2e38, 3e38, -3e38)` both get the hue NaN: the binary32 differences
`z - y` and `x - y` overflow to `inf` and `inf / inf` is NaN.  The hue of the
shifted triple is then neither the hue of the triple plus `2/6` nor that minus
`1`, a NaN being equal to nothing. -/
theorem cyclic_shift_hue_is_nan_on_overflow :
    ∃ px px', RGBtoHSP.SaturationKernel.processIEEE IEEE.binary
        ⟨IEEE.f32 (3 * 10 ^ 38), IEEE.f32 (-3 * 10 ^ 38), IEEE.f32 (2 * 10 ^ 38), IEEE.f32 1⟩
        = some px
      ∧ RGBtoHSP.SaturationKernel.processIEEE IEEE.binary
        ⟨IEEE.f32 (2 * 10 ^ 38), IEEE.f32 (3 * 10 ^ 38), IEEE.f32 (-3 * 10 ^ 38), IEEE.f32 1⟩
        = some px'
      ∧ px.x = IEEE.FP.nan ∧ px'.x = IEEE.FP.nan
      ∧ IEEE.FP.eq px'.x
          (IEEE.binary.add64 px.x (IEEE.binary.div64 (IEEE.FP.fin 2) (IEEE.FP.fin 6))) = false
      ∧ IEEE.FP.eq px'.x
          (IEEE.binary.sub64
            (IEEE.binary.add64 px.x (IEEE.binary.div64 (IEEE.FP.fin 2) (IEEE.FP.fin 6)))
            (IEEE.FP.fin 1)) = false :=
  ⟨⟨IEEE.FP.nan, IEEE.FP.fin 2, IEEE.FP.inf false, IEEE.FP.fin 1⟩,
    ⟨IEEE.FP.nan, IEEE.FP.fin 2, IEEE.FP.inf false, IEEE.FP.fin 1⟩,
    by decide!, by decide!, rfl, rfl, rfl, rfl⟩

/-- C17, amended (cyclic channel symmetry, in exact arithmetic).  For every
triple `(r, g, b)` that is not all equal the kernel, in the arithmetic that
never rounds and never overflows and in which a division by zero gives an
infinity, writes a pixel for `(r, g, b)` and for the shifted triple
`(b, r, g)`.  Both hues are finite; the hue of the second is the hue of the
first plus `2/6`, or that minus `1` (equality modulo `1`), and the two
saturations are equal (both infinite when the largest channel is `0`). -/
theorem cyclic_shift_adds_a_third (r g b a : ℝ) (hne : ¬ (r = g ∧ r = b)) :
    ∃ (px px' : Float4 (IEEE.FP ℝ)) (h h' : ℝ),
      RGBtoHSP.SaturationKernel.processIEEE (IEEE.exact Real.sqrt)
          ⟨IEEE.FP.fin r, IEEE.FP.fin g, IEEE.FP.fin b, IEEE.FP.fin a⟩ = some px
        ∧ RGBtoHSP.SaturationKernel.processIEEE (IEEE.exact Real.sqrt)
          ⟨IEEE.FP.fin b, IEEE.FP.fin r, IEEE.FP.fin g, IEEE.FP.fin a⟩ = some px'
        ∧ px.x = IEEE.FP.fin h ∧ px'.x = IEEE.FP.fin h'
        ∧ (h' = h + 2 / 6 ∨ h' = h + 2 / 6 - 1) ∧ px'.y = px.y := by
  rcases RGBtoHSP.branch_cases r g b hne with c | c | c | c | c | c
  · -- red largest, blue ≥ green
    obtain ⟨h1, h2, h3, hlt⟩ := c
    rcases h2.lt_or_eq with hbr | hbr
    · refine ⟨_, _, _, _, RGBtoHSP.processIEEE_exact_branch1 r g b a h1 h2 h3 hlt,
        RGBtoHSP.processIEEE_exact_branch3 b r g a hbr h1 h3, rfl, rfl, Or.inr ?_, rfl⟩
      ring
    · subst hbr
      have q : 1 / 6 * (b - g) / (b - g) = 1 / 6 := by
        rw [mul_div_assoc, div_self (sub_pos.mpr hlt).ne', mul_one]
      refine ⟨_, _, _, _, RGBtoHSP.processIEEE_exact_branch1 b g b a h1 h2 h3 hlt,
        RGBtoHSP.processIEEE_exact_branch2 b b g a le_rfl h3 hlt, rfl, rfl, Or.inr ?_, rfl⟩
      rw [q]
      norm_num
  · -- red largest, blue < green
    obtain ⟨h1, h2, h3⟩ := c
    refine ⟨_, _, _, _, RGBtoHSP.processIEEE_exact_branch2 r g b a h1 h2 h3,
      RGBtoHSP.processIEEE_exact_branch4 b r g a h3 h1, rfl, rfl, Or.inl ?_, rfl⟩
    ring
  · -- green largest, red ≥ blue
    obtain ⟨h1, h2, h3⟩ := c
    refine ⟨_, _, _, _, RGBtoHSP.processIEEE_exact_branch3 r g b a h1 h2 h3,
      RGBtoHSP.processIEEE_exact_branch5 b r g a h3 h1, rfl, rfl, Or.inl ?_, rfl⟩
    ring
  · -- green largest, red < blue
    obtain ⟨h1, h2⟩ := c
    rcases h2.lt_or_eq with hbg | hbg
    · refine ⟨_, _, _, _, RGBtoHSP.processIEEE_exact_branch4 r g b a h1 h2,
        RGBtoHSP.processIEEE_exact_branch6 b r g a h1 hbg, rfl, rfl, Or.inl ?_, rfl⟩
      ring
    · subst hbg
      have q : 1 / 6 * (b - r) / (b - r) = 1 / 6 := by
        rw [mul_div_assoc, div_self (sub_pos.mpr h1).ne', mul_one]
      refine ⟨_, _, _, _, RGBtoHSP.processIEEE_exact_branch4 r b b a h1 h2,
        RGBtoHSP.processIEEE_exact_branch1 b r b a h1.le le_rfl h1.le h1, rfl, rfl,
        Or.inl ?_, rfl⟩
      rw [q]
      norm_num
  · -- blue strictly largest, green ≥ red
    obtain ⟨h1, h2⟩ := c
    refine ⟨_, _, _, _, RGBtoHSP.processIEEE_exact_branch5 r g b a h1 h2,
      RGBtoHSP.processIEEE_exact_branch1 b r g a (h1.trans h2.le) h2.le h1 (h1.trans_lt h2),
      rfl, rfl, Or.inl ?_, rfl⟩
    ring
  · -- blue strictly largest, green < red
    obtain ⟨h1, h2⟩ := c
    refine ⟨_, _, _, _, RGBtoHSP.processIEEE_exact_branch6 r g b a h1 h2,
      RGBtoHSP.processIEEE_exact_branch2 b r g a h2.le (h1.trans h2).le h1, rfl, rfl,
      Or.inr ?_, rfl⟩
    ring

/-- Witness for C17: the triple `(0, -1, -2)`, whose largest channel is `0`, and
its shift `(-2, 0, -1)`. -/
theorem cyclic_shift_adds_a_third_witness :
    ∃ (px px' : Float4 (IEEE.FP ℝ)) (h h' : ℝ),
      RGBtoHSP.SaturationKernel.processIEEE (IEEE.exact Real.sqrt)
          ⟨IEEE.FP.fin 0, IEEE.FP.fin (-1), IEEE.FP.fin (-2), IEEE.FP.fin 1⟩ = some px
        ∧ RGBtoHSP.SaturationKernel.processIEEE (IEEE.exact Real.sqrt)
          ⟨IEEE.FP.fin (-2), IEEE.FP.fin 0, IEEE.FP.fin (-1), IEEE.FP.fin 1⟩ = some px'
        ∧ px.x = IEEE.FP.fin h ∧ px'.x = IEEE.FP.fin h'
        ∧ (h' = h + 2 / 6 ∨ h' = h + 2 / 6 - 1) ∧ px'.y = px.y :=
  cyclic_shift_adds_a_third 0 (-1) (-2) 1 (by norm_num)

/-- C19, counterexample.  In IEEE arithmetic the pixel `(0.5, 0.25, 0)` has a finite
brightness, and the pixel scaled by `k = 1e20` has brightness `inf`, which is
not `k` times the former: the binary32 squares of the scaled channels
overflow. -/
theorem scaled_brightness_overflows :
    ∃ px px', RGBtoHSP.SaturationKernel.processIEEE IEEE.binary
        ⟨IEEE.f32 (1 / 2), IEEE.f32 (1 / 4), IEEE.f32 0, IEEE.f32 1⟩ = some px
      ∧ RGBtoHSP.SaturationKernel.processIEEE IEEE.binary
        ⟨IEEE.binary.mul32 (IEEE.f32 (10 ^ 20)) (IEEE.f32 (1 / 2)),
          IEEE.binary.mul32 (IEEE.f32 (10 ^ 20)) (IEEE.f32 (1 / 4)),
          IEEE.binary.mul32 (IEEE.f32 (10 ^ 20)) (IEEE.f32 0), IEEE.f32 1⟩ = some px'
      ∧ px.z.isFinite = true ∧ px'.z = IEEE.FP.inf false
      ∧ IEEE.binary.mul32 (IEEE.f32 (10 ^ 20)) px.z ≠ px'.z :=
  ⟨⟨IEEE.FP.fin (11184811 / 134217728), IEEE.FP.fin 1, IEEE.FP.fin (5600613 / 16777216),
      IEEE.FP.fin 1⟩,
    ⟨IEEE.FP.fin (11184811 / 134217728), IEEE.FP.fin 1, IEEE.FP.inf false, IEEE.FP.fin 1⟩,
    by decide!, by decide!, rfl, rfl, by decide!⟩

/-- C19, amended (exposure equivariance, in exact real arithmetic).  For a pixel
with non-negative channels that are not all equal and every `k > 0`, the
kernel writes a pixel for `(r, g, b)` and for `(k r, k g, k b)`; the two have
the same hue and the same saturation, and the brightness of the second is `k`
times the brightness of the first. -/
theorem scaling_keeps_hue_and_saturation (k r g b a : ℝ) (hk : 0 < k) (hr : 0 ≤ r)
    (hg : 0 ≤ g) (hb : 0 ≤ b) (hne : ¬ (r = g ∧ r = b)) :
    ∃ px px', RGBtoHSP.SaturationKernel.process Real.sqrt ⟨r, g, b, a⟩ = Except.ok (some px)
      ∧ RGBtoHSP.SaturationKernel.process Real.sqrt ⟨k * r, k * g, k * b, a⟩
        = Except.ok (some px')
      ∧ px'.x = px.x ∧ px'.y = px.y ∧ px'.z = k * px.z := by
  obtain ⟨hue, sat, luma, h1, h2⟩ := RGBtoHSP.process_scale k r g b a hk hr hg hb hne
  exact ⟨_, _, h1, h2, rfl, rfl, rfl⟩

/-- Witness for C19: the pixel `(1/2, 1/4, 0)` scaled by `2`. -/
theorem scaling_keeps_hue_and_saturation_witness :
    ∃ px px', RGBtoHSP.SaturationKernel.process Real.sqrt ⟨1 / 2, 1 / 4, 0, 1⟩
        = Except.ok (some px)
      ∧ RGBtoHSP.SaturationKernel.process Real.sqrt ⟨2 * (1 / 2), 2 * (1 / 4), 2 * 0, 1⟩
        = Except.ok (some px')
      ∧ px'.x = px.x ∧ px'.y = px.y ∧ px'.z = 2 * px.z :=
  scaling_keeps_hue_and_saturation 2 (1 / 2) (1 / 4) 0 1 (by norm_num) (by norm_num)
    (by norm_num) (by norm_num) (by norm_num)
